import Mathlib

/-!
# CSD1130 Asteroids: collision test, entity pool, game server, UDP server

A shallow embedding of the parts of the repository that the verified properties
talk about:

* `Collision.cpp`            : `CollisionIntersection_RectRect`
* `GameState_Asteroids.cpp`  : `gameObjInstCreate`, `gameObjInstDestroy`
* `GameServer.cpp`           : `CheckForCollisions`, `UpdateGameState`,
  `CheckGameEndConditions`, `ResetGame`, `Update`, `OnMessage`, `OnClientConnect`,
  `OnClientDisconnect`, `SendGameState` and what they call
* `UDPNetwork.cpp`           : `HandleConnectionRequest`, `GetClientCount`,
  `ProcessIncomingMessages`, `CheckClientTimeouts`, `BroadcastToAll`, and the
  receive path of `UDPClient::NetworkThread`

Modelling conventions.

* `float` and `double` values are idealised as exact rationals (`ℚ`); `fmax`,
  `fmin` become `max`, `min`.  No rounding, infinities or NaN are modelled.
* Unsigned machine integers are natural numbers, reduced modulo `2 ^ w` at the
  places where the source does arithmetic on them.
* A C++ reference parameter used as an output is a value passed in and a value
  passed out.
* A pointer into the instance pool is the index of the slot; the null pointer
  is `none`.
* `std::map` is an association list kept in ascending key order, `std::vector`
  is a list and an iterator is a position in it.
* Threads and sockets are not modelled: every function is one sequential run,
  sending a datagram and invoking a callback are recorded in an event log, and
  a received datagram is a list of bytes together with its source address.
* The mutexes have no part in the state-passing functions: such a function
  gives the state that the statements of the call produce when every lock is
  granted.  The lock and unlock operations that one thread performs in a call
  are given separately, as a list read off the `std::lock_guard` scopes of the
  source (`ResetGame_locks`, `CheckForCollisions_locks`, ...); `firstRelock`
  tells whether the thread locks a mutex that it already holds, in which case
  the call does not get past that point.
* The packed message structs are lists of bytes where their layout matters:
  integers little-endian, the four bytes of a `float` given by a parameter.
* What the code takes from outside is a parameter: the clock reading (in ticks
  of one nanosecond), the C library and engine functions (`sqrtf`, `cosf`,
  `sinf`, `AEWrap`, the matrix builders, the window bounds) and the values
  drawn from the random generators.  A loop that draws until a test passes
  returns `none` when the given draws run out.
-/

namespace Asteroids

/-! ## Collision.h / Collision.cpp -/

/-- Engine vector `AEVec2` (two floats). -/
structure AEVec2 where
  x : ℚ
  y : ℚ
deriving DecidableEq, Repr

/-- Axis-aligned bounding box of `Collision.h`. -/
structure AABB where
  min : AEVec2
  max : AEVec2
deriving DecidableEq, Repr

/-- Condition of the `if` at the top of `CollisionIntersection_RectRect`
(step 1): it holds when the two boxes are strictly separated on some axis. -/
def staticSeparated (aabb1 aabb2 : AABB) : Prop :=
  aabb1.max.x < aabb2.min.x ∨ aabb1.max.y < aabb2.min.y ∨
    aabb1.min.x > aabb2.max.x ∨ aabb1.min.y > aabb2.max.y

instance (aabb1 aabb2 : AABB) : Decidable (staticSeparated aabb1 aabb2) := by
  unfold staticSeparated; infer_instance

/-- Steps 3 and 4 of `CollisionIntersection_RectRect`: the per-axis update of
`(tFirst, tLast)`.  The source writes this block twice, once with the `.x` and
once with the `.y` components; `none` stands for its `return 0`. -/
def sweepAxis (min1 max1 min2 max2 v : ℚ) (t : ℚ × ℚ) : Option (ℚ × ℚ) :=
  if v < 0 then
    if min1 > max2 then none                                     -- case 1
    else
      let tFirst := if max1 < min2 then max ((max1 - min2) / v) t.1 else t.1   -- case 4
      let tLast := if min1 < max2 then min ((min1 - max2) / v) t.2 else t.2
      some (tFirst, tLast)
  else if v > 0 then
    let tFirst := if min1 > max2 then max ((min1 - max2) / v) t.1 else t.1     -- case 2
    let tLast := if max1 > min2 then min ((max1 - min2) / v) t.2 else t.2
    if max1 < min2 then none                                     -- case 3
    else some (tFirst, tLast)
  else                                                           -- case 5
    if max1 < min2 then none
    else if min1 > max2 then none
    else some t

/-- `CollisionIntersection_RectRect` of `Collision.cpp`.  `g_dt` is the global
tick duration, `firstTimeOfCollision` the value the output variable holds on
entry; the result is the returned boolean and the value the output variable
holds on return. -/
def CollisionIntersection_RectRect (g_dt : ℚ) (aabb1 : AABB) (vel1 : AEVec2)
    (aabb2 : AABB) (vel2 : AEVec2) (firstTimeOfCollision : ℚ) : Bool × ℚ :=
  if staticSeparated aabb1 aabb2 then
    -- step 2
    let v_rel : AEVec2 := ⟨vel2.x - vel1.x, vel2.y - vel1.y⟩
    let tFirst : ℚ := 0
    let tLast : ℚ := g_dt
    -- step 3
    match sweepAxis aabb1.min.x aabb1.max.x aabb2.min.x aabb2.max.x v_rel.x (tFirst, tLast) with
    | none => (false, firstTimeOfCollision)
    | some tx =>
      if tx.1 > tx.2 then (false, firstTimeOfCollision)           -- case 6
      else
        -- step 4
        match sweepAxis aabb1.min.y aabb1.max.y aabb2.min.y aabb2.max.y v_rel.y tx with
        | none => (false, firstTimeOfCollision)
        | some ty =>
          if ty.1 > ty.2 then (false, firstTimeOfCollision)       -- case 6
          else (true, firstTimeOfCollision)
  else
    (true, 0)

/-- Box `box` moved along `vel` for time `t`. -/
def AABB.translate (box : AABB) (vel : AEVec2) (t : ℚ) : AABB :=
  ⟨⟨box.min.x + vel.x * t, box.min.y + vel.y * t⟩,
   ⟨box.max.x + vel.x * t, box.max.y + vel.y * t⟩⟩

/-- The two moving boxes overlap at time `t`, closed boxes, with the same
comparison the function uses for its static test. -/
def overlapAt (aabb1 : AABB) (vel1 : AEVec2) (aabb2 : AABB) (vel2 : AEVec2) (t : ℚ) : Prop :=
  ¬ staticSeparated (aabb1.translate vel1 t) (aabb2.translate vel2 t)

/-- On one axis box 1 and box 2 are strictly separated and the relative
velocity `v` of box 2 with respect to box 1 is zero or widens the gap. -/
def separatedNotClosing (min1 max1 min2 max2 v : ℚ) : Prop :=
  (max1 < min2 ∧ 0 ≤ v) ∨ (min1 > max2 ∧ v ≤ 0)

/-- On one axis the boxes touch exactly at time zero and the relative velocity
`v` pulls them apart: the case in which the strict guards of the exit-time
updates (`aabb1.min < aabb2.max`, `aabb1.max > aabb2.min`) leave `tLast` as it
was. -/
def touchingAndParting (min1 max1 min2 max2 v : ℚ) : Prop :=
  (v < 0 ∧ min1 = max2) ∨ (v > 0 ∧ max1 = min2)

/-! ## GameState_Asteroids.cpp / GameServer.cpp: the instance pool -/

/-- Capacity of the instance pool `sGameObjInstList`. -/
def GAME_OBJ_INST_NUM_MAX : Nat := 2048

/-- Object flag `FLAG_ACTIVE = 0x00000001`. -/
def FLAG_ACTIVE : Nat := 1

/-- Object types of `enum TYPE`. -/
def TYPE_SHIP : Nat := 0

/-- Second value of `enum TYPE`. -/
def TYPE_BULLET : Nat := 1

/-- Third value of `enum TYPE`. -/
def TYPE_ASTEROID : Nat := 2

/-- Fourth value of `enum TYPE`. -/
def TYPE_WALL : Nat := 3

/-- Constant `ASTEROID_MIN_SCALE_X = 10.0f`. -/
def ASTEROID_MIN_SCALE_X : ℚ := 10

/-- Engine matrix `AEMtx33`, three rows of three floats. -/
structure AEMtx33 where
  m : List (List ℚ)
deriving DecidableEq, Repr

/-- Client identifier, `typedef uint8_t ClientID`. -/
abbrev ClientID := Nat

/-- Game object instance `GameObjInst` with the multiplayer fields of
`GameServer.cpp`.  `pObject` is the index of the template in `sGameObjList`
that the pointer designates (`none` for a null pointer). -/
structure GameObjInst where
  pObject : Option Nat
  flag : Nat
  scale : AEVec2
  posCurr : AEVec2
  posPrev : AEVec2
  velCurr : AEVec2
  dirCurr : ℚ
  boundingBox : AABB
  transform : AEMtx33
  id : Nat
  clientID : ClientID
  lifeTime : ℚ
deriving DecidableEq, Repr

/-- Instance pool `sGameObjInstList`: slot `i` for `i < GAME_OBJ_INST_NUM_MAX`.
A pointer to an instance is the index of its slot. -/
abbrev Pool := Nat → GameObjInst

/-- A zero-filled pool slot. -/
def unusedInst : GameObjInst :=
  { pObject := none, flag := 0, scale := ⟨0, 0⟩, posCurr := ⟨0, 0⟩, posPrev := ⟨0, 0⟩,
    velCurr := ⟨0, 0⟩, dirCurr := 0, boundingBox := ⟨⟨0, 0⟩, ⟨0, 0⟩⟩, transform := ⟨[]⟩,
    id := 0, clientID := 0, lifeTime := 0 }

/-- The `for` loop of `gameObjInstCreate`: starting at slot `i` with `n`
slots left to visit, the index of the first slot whose flag is `0`. -/
def findUnusedInst (pool : Pool) : Nat → Nat → Option Nat
  | 0, _ => none
  | n + 1, i => if (pool i).flag = 0 then some i else findUnusedInst pool n (i + 1)

/-- `gameObjInstCreate` of `GameState_Asteroids.cpp`.  `pPos` and `pVel` are
`none` for a null pointer.  The result is the pool after the call and the
returned pointer (`none` for `0`).  `AE_ASSERT_PARM(type < sGameObjNum)` is a
debug assertion of the engine and has no part in the result. -/
def gameObjInstCreate (pool : Pool) (type : Nat) (scale : AEVec2)
    (pPos pVel : Option AEVec2) (dir : ℚ) : Pool × Option Nat :=
  let zero : AEVec2 := ⟨0, 0⟩
  match findUnusedInst pool GAME_OBJ_INST_NUM_MAX 0 with
  | some i =>
    (Function.update pool i
      { pool i with
        pObject := some type
        flag := FLAG_ACTIVE
        scale := scale
        posCurr := pPos.getD zero
        velCurr := pVel.getD zero
        dirCurr := dir },
     some i)
  | none => (pool, none)

/-- `gameObjInstDestroy` of `GameState_Asteroids.cpp`. -/
def gameObjInstDestroy (pool : Pool) (pInst : Nat) : Pool :=
  if (pool pInst).flag = 0 then pool
  else Function.update pool pInst { pool pInst with flag := 0 }

/-! ## UDPNetwork.h / UDPNetwork.cpp: connection admission -/

/-- Network message types, `enum class MessageType : uint8_t`. -/
inductive MessageType where
  | CONNECT_REQUEST
  | CONNECT_ACCEPT
  | CONNECT_REJECT
  | DISCONNECT
  | GAME_STATE
  | PLAYER_INPUT
  | GAME_START
  | GAME_END
  | HEARTBEAT
deriving DecidableEq, Repr

/-- Base message structure `NetworkMessage`. -/
structure NetworkMessage where
  type : MessageType
  clientID : ClientID
  sequence : Nat
deriving DecidableEq, Repr

/-- Connection accept message `ConnectAcceptMessage`. -/
structure ConnectAcceptMessage extends NetworkMessage where
  assignedID : ClientID
  totalPlayers : Nat
deriving DecidableEq, Repr

/-- Player input message `PlayerInputMessage`.  Each of the five `bool` members
is the byte that the object holds: `OnMessage` hands a pointer into the
receive buffer to `ProcessPlayerInput`, which copies the struct, so the byte is
whatever the datagram carries.  The language gives a meaning to the bytes 0
(`false`) and 1 (`true`) only. -/
structure PlayerInputMessage extends NetworkMessage where
  up : Nat
  down : Nat
  left : Nat
  right : Nat
  fire : Nat
deriving DecidableEq, Repr

/-- Game end message `GameEndMessage`; `scores` is the array `scores[4]`. -/
structure GameEndMessage extends NetworkMessage where
  winnerID : ClientID
  winnerScore : Nat
  scores : List Nat
deriving DecidableEq, Repr

/-- Ship state record `ShipState` of a snapshot. -/
structure ShipState where
  posX : ℚ
  posY : ℚ
  dirCurr : ℚ
  velocityX : ℚ
  velocityY : ℚ
  active : Bool
  score : Nat
  lives : Nat
deriving DecidableEq, Repr

/-- Asteroid state record `AsteroidState` of a snapshot. -/
structure AsteroidState where
  id : Nat
  posX : ℚ
  posY : ℚ
  velocityX : ℚ
  velocityY : ℚ
  scale : ℚ
  active : Bool
deriving DecidableEq, Repr

/-- Bullet state record `BulletState` of a snapshot. -/
structure BulletState where
  id : Nat
  ownerID : ClientID
  posX : ℚ
  posY : ℚ
  velocityX : ℚ
  velocityY : ℚ
  active : Bool
deriving DecidableEq, Repr

/-- Fixed part `GameStateMessage` of a snapshot. -/
structure GameStateMessage extends NetworkMessage where
  playerCount : Nat
  asteroidCount : Nat
  bulletCount : Nat
  gameStatus : Nat
deriving DecidableEq, Repr

/-- Content of the buffer built by `GameServer::SendGameState`: the fixed part
followed by the three arrays of records, in this order. -/
structure GameStatePacket where
  header : GameStateMessage
  ships : List ShipState
  asteroids : List AsteroidState
  bullets : List BulletState
deriving DecidableEq, Repr

/-- Socket address `sockaddr_in`: family, port and IPv4 address
(`sin_addr.s_addr`), the last two in network byte order. -/
structure sockaddr_in where
  sin_family : Nat
  sin_port : Nat
  s_addr : Nat
deriving DecidableEq, Repr

/-- Client connection data `ClientConnection`; the time point
`lastHeartbeatTime` is a number of clock ticks. -/
structure ClientConnection where
  address : sockaddr_in
  ip : String
  port : Nat
  id : ClientID
  active : Bool
  lastReceivedSequence : Nat
  lastHeartbeatTime : Nat
deriving DecidableEq, Repr

/-- State of `UDPServer` that the admission code reads and writes.  `clients`
is the `std::map<ClientID, ClientConnection>` in ascending key order. -/
structure UDPServer where
  isRunning : Bool
  clients : List (ClientID × ClientConnection)
  nextClientID : ClientID
deriving DecidableEq, Repr

/-- Observable effects of the server code: datagrams handed to `sendto` and
callbacks invoked, in order. -/
inductive NetEvent where
  | sendto_ConnectAccept (msg : ConnectAcceptMessage) (dest : sockaddr_in)
  | sendto_NetworkMessage (msg : NetworkMessage) (dest : sockaddr_in)
  | onClientConnect (id : ClientID)
  | onClientDisconnect (id : ClientID)
  | onMessage (id : ClientID) (data : List Nat)
  | sendto_GameEnd (msg : GameEndMessage) (dest : sockaddr_in)
  | sendto_GameState (msg : GameStatePacket) (dest : sockaddr_in)
deriving DecidableEq, Repr

/-- Values supplied by the operating system and the socket library:
`steady_clock::now()`, `inet_ntop` and `ntohs`. -/
structure NetEnv where
  now : Nat
  inet_ntop : Nat → String
  ntohs : Nat → Nat

/-- Condition of the `if` inside the first loop of `HandleConnectionRequest`:
entry `c` has the address and port of `clientAddr` and is active. -/
def matchesActive (clientAddr : sockaddr_in) (c : ClientConnection) : Bool :=
  decide (c.address.s_addr = clientAddr.s_addr) && decide (c.address.sin_port = clientAddr.sin_port)
    && c.active

/-- First loop of `HandleConnectionRequest`: the key of the first entry, in
map order, that `matchesActive`. -/
def findConnected (clientAddr : sockaddr_in) :
    List (ClientID × ClientConnection) → Option ClientID
  | [] => none
  | pair :: rest =>
    if matchesActive clientAddr pair.2 then some pair.1 else findConnected clientAddr rest

/-- Assignment `clients[k] = v` on a `std::map`: replace the value under `k`
or insert the pair at its place in key order. -/
def mapAssign {V : Type} (k : ClientID) (v : V) : List (ClientID × V) → List (ClientID × V)
  | [] => [(k, v)]
  | pair :: rest =>
    if k < pair.1 then (k, v) :: pair :: rest
    else if k = pair.1 then (k, v) :: rest
    else pair :: mapAssign k v rest

/-- `UDPServer::HandleConnectionRequest`.  The result is the server state after
the call, the effects in order, and the returned boolean. -/
def UDPServer.HandleConnectionRequest (env : NetEnv) (srv : UDPServer)
    (clientAddr : sockaddr_in) : UDPServer × List NetEvent × Bool :=
  -- Check if this client is already connected
  match findConnected clientAddr srv.clients with
  | some first =>
    let response : ConnectAcceptMessage :=
      { type := MessageType.CONNECT_ACCEPT, clientID := 0, sequence := 0,
        assignedID := first, totalPlayers := srv.clients.length % 256 }
    (srv, [NetEvent.sendto_ConnectAccept response clientAddr], true)
  | none =>
    -- Check if we can accept more clients (limit to 4 players)
    if srv.clients.length ≥ 4 then
      let response : NetworkMessage :=
        { type := MessageType.CONNECT_REJECT, clientID := 0, sequence := 0 }
      (srv, [NetEvent.sendto_NetworkMessage response clientAddr], false)
    else
      -- Accept the new client
      let newID := srv.nextClientID
      let newClient : ClientConnection :=
        { address := clientAddr, id := newID, active := true, lastReceivedSequence := 0,
          lastHeartbeatTime := env.now, ip := env.inet_ntop clientAddr.s_addr,
          port := env.ntohs clientAddr.sin_port }
      let clients := mapAssign newID newClient srv.clients
      let response : ConnectAcceptMessage :=
        { type := MessageType.CONNECT_ACCEPT, clientID := 0, sequence := 0,
          assignedID := newID, totalPlayers := clients.length % 256 }
      ({ srv with clients := clients, nextClientID := (srv.nextClientID + 1) % 256 },
       [NetEvent.sendto_ConnectAccept response clientAddr, NetEvent.onClientConnect newID],
       true)

/-- `UDPServer::GetClientCount`: the number of entries with `active` set. -/
def UDPServer.GetClientCount (srv : UDPServer) : Nat :=
  srv.clients.foldl (fun count pair => if pair.2.active then count + 1 else count) 0

/-- The same connection request processed `n` times in a row; `envs i` is the
environment of the `i`-th call.  The result is the final server state and all
effects in order. -/
def requestRepeatedly (envs : Nat → NetEnv) (clientAddr : sockaddr_in) :
    Nat → UDPServer → UDPServer × List NetEvent
  | 0, srv => (srv, [])
  | n + 1, srv =>
    let r := srv.HandleConnectionRequest (envs n) clientAddr
    let rest := requestRepeatedly envs clientAddr n r.1
    (rest.1, r.2.1 ++ rest.2)

/-- Table invariant kept by the admission code: two active entries with the
same address and port are stored under the same key. -/
def activeEndpointsDistinct (clients : List (ClientID × ClientConnection)) : Prop :=
  ∀ p ∈ clients, ∀ q ∈ clients, p.2.active = true → q.2.active = true →
    p.2.address.s_addr = q.2.address.s_addr → p.2.address.sin_port = q.2.address.sin_port →
    p.1 = q.1

/-! ## UDPNetwork.cpp: receive path and timeout scan -/

/-- Size of the packed struct `NetworkMessage`: one byte type, one byte client
id, two bytes sequence. -/
def sizeof_NetworkMessage : Nat := 4

/-- Size of the packed struct `PlayerInputMessage`: the header and five
one-byte flags. -/
def sizeof_PlayerInputMessage : Nat := 9

/-- Value of the type byte read through `header->type`; `none` for a byte that
is no enumerator of `MessageType`. -/
def decodeMessageType (byte : Nat) : Option MessageType :=
  if byte = 1 then some MessageType.CONNECT_REQUEST
  else if byte = 2 then some MessageType.CONNECT_ACCEPT
  else if byte = 3 then some MessageType.CONNECT_REJECT
  else if byte = 4 then some MessageType.DISCONNECT
  else if byte = 5 then some MessageType.GAME_STATE
  else if byte = 6 then some MessageType.PLAYER_INPUT
  else if byte = 7 then some MessageType.GAME_START
  else if byte = 8 then some MessageType.GAME_END
  else if byte = 9 then some MessageType.HEARTBEAT
  else none

/-- Address comparison used by the `DISCONNECT` and `HEARTBEAT` cases: same
address and same port; the `active` flag is not consulted. -/
def matchesEndpoint (clientAddr : sockaddr_in) (c : ClientConnection) : Bool :=
  decide (c.address.s_addr = clientAddr.s_addr) && decide (c.address.sin_port = clientAddr.sin_port)

/-- Loop of the `DISCONNECT` case of `ProcessIncomingMessages` (lines 147 to
155): the first entry with the sender's endpoint is marked inactive and the
disconnect callback is invoked with its key. -/
def disconnectLoop (clientAddr : sockaddr_in) :
    List (ClientID × ClientConnection) → List (ClientID × ClientConnection) × List NetEvent
  | [] => ([], [])
  | pair :: rest =>
    if matchesEndpoint clientAddr pair.2 then
      ((pair.1, { pair.2 with active := false }) :: rest, [NetEvent.onClientDisconnect pair.1])
    else
      let r := disconnectLoop clientAddr rest
      (pair :: r.1, r.2)

/-- Loop of the `HEARTBEAT` case of `ProcessIncomingMessages` (lines 163 to
169): the first entry with the sender's endpoint gets the current time. -/
def heartbeatLoop (now : Nat) (clientAddr : sockaddr_in) :
    List (ClientID × ClientConnection) → List (ClientID × ClientConnection)
  | [] => []
  | pair :: rest =>
    if matchesEndpoint clientAddr pair.2 then
      (pair.1, { pair.2 with lastHeartbeatTime := now }) :: rest
    else pair :: heartbeatLoop now clientAddr rest

/-- Loop of the `default` case of `ProcessIncomingMessages` (lines 181 to
192): the first active entry with the sender's endpoint gets the current time
and its key is the sender id. -/
def senderLoop (now : Nat) (clientAddr : sockaddr_in) :
    List (ClientID × ClientConnection) → List (ClientID × ClientConnection) × Option ClientID
  | [] => ([], none)
  | pair :: rest =>
    if matchesActive clientAddr pair.2 then
      ((pair.1, { pair.2 with lastHeartbeatTime := now }) :: rest, some pair.1)
    else
      let r := senderLoop now clientAddr rest
      (pair :: r.1, r.2)

/-- One iteration of the receive loop of `UDPServer::ProcessIncomingMessages`
for a datagram `buffer` (its length is `bytesReceived`) from `clientAddr`. -/
def UDPServer.processDatagram (env : NetEnv) (srv : UDPServer) (buffer : List Nat)
    (clientAddr : sockaddr_in) : UDPServer × List NetEvent :=
  -- Must receive at least the header
  if buffer.length < sizeof_NetworkMessage then (srv, [])
  else
    match decodeMessageType (buffer.getD 0 0) with
    | some MessageType.CONNECT_REQUEST =>
      let r := srv.HandleConnectionRequest env clientAddr
      (r.1, r.2.1)
    | some MessageType.DISCONNECT =>
      let r := disconnectLoop clientAddr srv.clients
      ({ srv with clients := r.1 }, r.2)
    | some MessageType.HEARTBEAT =>
      ({ srv with clients := heartbeatLoop env.now clientAddr srv.clients }, [])
    | _ =>
      let r := senderLoop env.now clientAddr srv.clients
      match r.2 with
      | some senderID => ({ srv with clients := r.1 }, [NetEvent.onMessage senderID buffer])
      | none => ({ srv with clients := r.1 }, [])

/-- `UDPServer::ProcessIncomingMessages` on the datagrams pending at the
socket, each with the environment at the time it is handled. -/
def UDPServer.ProcessIncomingMessages (srv : UDPServer) :
    List (NetEnv × List Nat × sockaddr_in) → UDPServer × List NetEvent
  | [] => (srv, [])
  | d :: rest =>
    if srv.isRunning then
      let r := srv.processDatagram d.1 d.2.1 d.2.2
      let done := UDPServer.ProcessIncomingMessages r.1 rest
      (done.1, r.2 ++ done.2)
    else (srv, [])

/-- Constant `TIMEOUT_DURATION = std::chrono::seconds(5)` in clock ticks of one
nanosecond. -/
def TIMEOUT_DURATION : Int := 5 * 1000000000

/-- Loop of `UDPServer::CheckClientTimeouts` over the client map. -/
def timeoutLoop (now : Nat) :
    List (ClientID × ClientConnection) → List (ClientID × ClientConnection) × List NetEvent
  | [] => ([], [])
  | pair :: rest =>
    if pair.2.active ∧ (now : Int) - (pair.2.lastHeartbeatTime : Int) > TIMEOUT_DURATION then
      -- Client timed out
      let r := timeoutLoop now rest
      ((pair.1, { pair.2 with active := false }) :: r.1, NetEvent.onClientDisconnect pair.1 :: r.2)
    else
      let r := timeoutLoop now rest
      (pair :: r.1, r.2)

/-- `UDPServer::CheckClientTimeouts` with the clock reading `now` made a
parameter. -/
def UDPServer.CheckClientTimeouts (now : Nat) (srv : UDPServer) : UDPServer × List NetEvent :=
  let r := timeoutLoop now srv.clients
  ({ srv with clients := r.1 }, r.2)

/-- Successive timeout scans at the given clock readings. -/
def UDPServer.timeoutScans (srv : UDPServer) : List Nat → UDPServer × List NetEvent
  | [] => (srv, [])
  | now :: later =>
    let r := srv.CheckClientTimeouts now
    let done := UDPServer.timeoutScans r.1 later
    (done.1, r.2 ++ done.2)

/-! ## GameServer.h / GameServer.cpp: collision resolution -/

/-- Per-player record `GameServer::PlayerData`; `ship` is `none` for a null
pointer, `score` is a `uint32_t` and `lives` a `uint8_t`. -/
structure PlayerData where
  ship : Option Nat
  isAlive : Bool
  score : Nat
  lives : Nat
  lastInput : PlayerInputMessage
deriving DecidableEq, Repr

/-- State of a `GameServer` together with the two instance arrays of the
program.  `players` is the `std::map<ClientID, PlayerData>` in ascending key
order; `asteroids` and `bullets` are the vectors of instance pointers.
`sGameObjInstList` is the static array of `GameState_Asteroids.cpp`: the
functions `gameObjInstCreate` and `gameObjInstDestroy` are defined in that file
and work on it, so every instance pointer of the server points into it.
`sGameObjInstListOwn` is the static array that `GameServer.cpp` declares under
the same name (line 107); the loop of `UpdateGameState` walks this one, and no
other code of the server reads or writes it.  Static storage starts
zero-filled. -/
structure GameServer where
  server : UDPServer
  isRunning : Bool
  gameInProgress : Bool
  gameStateTimer : ℚ
  gameEndTimer : ℚ
  players : List (ClientID × PlayerData)
  asteroids : List Nat
  bullets : List Nat
  sGameObjInstList : Pool
  sGameObjInstListOwn : Pool := fun _ => unusedInst

/-- Test `inst.flag & FLAG_ACTIVE` of the source, as a boolean. -/
def GameObjInst.isActive (inst : GameObjInst) : Bool :=
  inst.flag &&& FLAG_ACTIVE != 0

/-- Lookup `players.find(clientID)`: the record stored under the key. -/
def playersFind (clientID : ClientID) : List (ClientID × PlayerData) → Option PlayerData
  | [] => none
  | pair :: rest => if pair.1 = clientID then some pair.2 else playersFind clientID rest

/-- Lines 515 to 518 of `GameServer.cpp`: `players.find(clientID)` and, when the
key is present, `score += 100` on the `uint32_t` score. -/
def awardPoints (clientID : ClientID) : List (ClientID × PlayerData) → List (ClientID × PlayerData)
  | [] => []
  | pair :: rest =>
    if pair.1 = clientID then
      (pair.1, { pair.2 with score := (pair.2.score + 100) % 2 ^ 32 }) :: rest
    else pair :: awardPoints clientID rest

/-- `GameServer::CreateAsteroid`. -/
def GameServer.CreateAsteroid (s : GameServer) (x y velX velY scale : ℚ) : GameServer :=
  let pos : AEVec2 := ⟨x, y⟩
  let vel : AEVec2 := ⟨velX, velY⟩
  let scaleVec : AEVec2 := ⟨scale, scale⟩
  match gameObjInstCreate s.sGameObjInstList TYPE_ASTEROID scaleVec (some pos) (some vel) 0 with
  | (pool, some asteroid) =>
    { s with sGameObjInstList := pool, asteroids := s.asteroids ++ [asteroid] }
  | (pool, none) => { s with sGameObjInstList := pool }

/-- `GameServer::SplitAsteroid`.  `sqrtf` is the C library function; the
constants `0.6f`, `0.8f` and `30.0f` are exact rationals here. -/
def GameServer.SplitAsteroid (sqrtf : ℚ → ℚ) (s : GameServer) (asteroid : Option Nat) :
    GameServer :=
  match asteroid with
  | none => s
  | some a =>
    if !(s.sGameObjInstList a).isActive then s
    else
      -- Create two smaller asteroids
      let newScale := (s.sGameObjInstList a).scale.x * (3 / 5)
      if newScale < ASTEROID_MIN_SCALE_X then s      -- Too small to split
      else
        -- Calculate split velocities (perpendicular to original)
        let perpX0 := -(s.sGameObjInstList a).velCurr.y
        let perpY0 := (s.sGameObjInstList a).velCurr.x
        let perpLen := sqrtf (perpX0 * perpX0 + perpY0 * perpY0)
        let perpX := if perpLen > 0 then perpX0 / perpLen else perpX0
        let perpY := if perpLen > 0 then perpY0 / perpLen else perpY0
        let splitSpeed : ℚ := 30
        -- Create first fragment
        let vel1X := (s.sGameObjInstList a).velCurr.x * (4 / 5) + perpX * splitSpeed
        let vel1Y := (s.sGameObjInstList a).velCurr.y * (4 / 5) + perpY * splitSpeed
        let s1 := s.CreateAsteroid (s.sGameObjInstList a).posCurr.x
          (s.sGameObjInstList a).posCurr.y vel1X vel1Y newScale
        -- Create second fragment
        let vel2X := (s1.sGameObjInstList a).velCurr.x * (4 / 5) - perpX * splitSpeed
        let vel2Y := (s1.sGameObjInstList a).velCurr.y * (4 / 5) - perpY * splitSpeed
        s1.CreateAsteroid (s1.sGameObjInstList a).posCurr.x
          (s1.sGameObjInstList a).posCurr.y vel2X vel2Y newScale

/-- Inner loop of the bullet pass of `CheckForCollisions` up to its `break`:
walking the asteroid vector from position `ai`, the position and pointer of
the first asteroid for which bullet and asteroid are active and the swept test
reports a collision.  Nothing is modified before that point.  The local
`collisionTime` is passed uninitialised in the source; the returned boolean
does not depend on it. -/
def findBulletHit (g_dt : ℚ) (pool : Pool) (bullet : Nat) : List Nat → Nat → Option (Nat × Nat)
  | [], _ => none
  | asteroid :: rest, ai =>
    if (pool bullet).isActive && (pool asteroid).isActive &&
        (CollisionIntersection_RectRect g_dt (pool bullet).boundingBox (pool bullet).velCurr
          (pool asteroid).boundingBox (pool asteroid).velCurr 0).1 then
      some (ai, asteroid)
    else findBulletHit g_dt pool bullet rest (ai + 1)

/-- Body of the inner loop of the bullet pass when a collision is detected
(lines 512 to 532): award points, split, erase and destroy the asteroid, erase
and destroy the bullet.  The second component is the owner recorded on the
bullet at the moment the asteroid is erased from the vector.  The source
erases through the iterator `asteroidIt` that it holds across the `push_back`s
of `SplitAsteroid`; the erase is at the position `ai` the iterator had, which
is what it designates as long as the vector was not reallocated.  The lock
that `CreateAsteroid` takes inside `SplitAsteroid` is in
`CheckForCollisions_locks`. -/
def GameServer.resolveBulletHit (sqrtf : ℚ → ℚ) (s : GameServer) (bi bullet ai asteroid : Nat) :
    GameServer × ClientID :=
  -- Award points to the player who fired the bullet
  let s1 := { s with players := awardPoints (s.sGameObjInstList bullet).clientID s.players }
  -- Split the asteroid if it's large enough
  let s2 :=
    if (s1.sGameObjInstList asteroid).scale.x ≥ ASTEROID_MIN_SCALE_X * 2 then
      s1.SplitAsteroid sqrtf (some asteroid)
    else s1
  -- Remove the asteroid
  let owner := (s2.sGameObjInstList bullet).clientID
  let s3 := { s2 with asteroids := s2.asteroids.eraseIdx ai }
  let s4 := { s3 with sGameObjInstList := gameObjInstDestroy s3.sGameObjInstList asteroid }
  -- Remove the bullet
  let s5 := { s4 with bullets := s4.bullets.eraseIdx bi }
  ({ s5 with sGameObjInstList := gameObjInstDestroy s5.sGameObjInstList bullet }, owner)

/-- Bullet pass of `GameServer::CheckForCollisions` (lines 500 to 545) from
iterator position `bi` on.  After a hit the bullet at `bi` has been erased and
the iterator stays; otherwise it advances.  The second component lists, in
order, the owner of the bullet for each asteroid erased. -/
def GameServer.bulletPass (sqrtf : ℚ → ℚ) (g_dt : ℚ) (s : GameServer) (bi : Nat) :
    GameServer × List ClientID :=
  if h : bi < s.bullets.length then
    let bullet := s.bullets[bi]
    match findBulletHit g_dt s.sGameObjInstList bullet s.asteroids 0 with
    | some (ai, asteroid) =>
      let r := s.resolveBulletHit sqrtf bi bullet ai asteroid
      let rest := GameServer.bulletPass sqrtf g_dt r.1 bi
      (rest.1, r.2 :: rest.2)
    | none => GameServer.bulletPass sqrtf g_dt s (bi + 1)
  else (s, [])
termination_by s.bullets.length - bi
decreasing_by
  · have hb : (s.resolveBulletHit sqrtf bi bullet ai asteroid).1.bullets
        = s.bullets.eraseIdx bi := by
      simp only [GameServer.resolveBulletHit, GameServer.SplitAsteroid,
        GameServer.CreateAsteroid]
      repeat' split
      all_goals rfl
    rw [hb, List.length_eraseIdx]
    simp only [h, if_true]
    omega
  · omega

/-- Inner loop of the ship pass of `CheckForCollisions` (lines 552 to 577) for
one player whose ship `ship` is active: the first active asteroid that the
swept test reports as colliding costs one life (`lives--` on a `uint8_t`) and
ends the loop. -/
def shipAsteroidLoop (g_dt : ℚ) (ship : Nat) (player : PlayerData) (pool : Pool) :
    List Nat → PlayerData × Pool
  | [] => (player, pool)
  | asteroid :: rest =>
    if (pool asteroid).isActive &&
        (CollisionIntersection_RectRect g_dt (pool ship).boundingBox (pool ship).velCurr
          (pool asteroid).boundingBox (pool asteroid).velCurr 0).1 then
      -- Collision detected - player loses a life
      let lives := (player.lives + 255) % 256
      if lives ≤ 0 then
        -- Player is out of lives
        ({ player with lives := lives, isAlive := false }, pool)
      else
        -- Reset ship position
        ({ player with lives := lives },
         Function.update pool ship
           { pool ship with posCurr := ⟨0, 0⟩, velCurr := ⟨0, 0⟩, dirCurr := 0 })
    else shipAsteroidLoop g_dt ship player pool rest

/-- Ship pass of `GameServer::CheckForCollisions` (lines 548 to 579): the
range-for over the player map, in key order. -/
def shipPass (g_dt : ℚ) (asteroids : List Nat) :
    List (ClientID × PlayerData) → Pool → List (ClientID × PlayerData) × Pool
  | [], pool => ([], pool)
  | pair :: rest, pool =>
    let r :=
      match pair.2.ship with
      | some ship =>
        if (pool ship).isActive && pair.2.isAlive then
          shipAsteroidLoop g_dt ship pair.2 pool asteroids
        else (pair.2, pool)
      | none => (pair.2, pool)
    let done := shipPass g_dt asteroids rest r.2
    ((pair.1, r.1) :: done.1, done.2)

/-- `GameServer::CheckForCollisions`, as one sequential run with every lock
granted (the lock operations are in `CheckForCollisions_locks`).  `sqrtf` is
the C library function and `g_dt` the global tick duration read by the swept
test.  The second component lists, in order, the owner of the bullet for each
asteroid the bullet pass erased. -/
def GameServer.CheckForCollisions (sqrtf : ℚ → ℚ) (g_dt : ℚ) (s : GameServer) :
    GameServer × List ClientID :=
  -- Check bullet-asteroid collisions
  let b := s.bulletPass sqrtf g_dt 0
  -- Check ship-asteroid collisions
  let p := shipPass g_dt b.1.asteroids b.1.players b.1.sGameObjInstList
  ({ b.1 with players := p.1, sGameObjInstList := p.2 }, b.2)

/-! ## Vocabulary for the outcome of the ship pass -/

/-- The ship pointers of the entries are pairwise different. -/
def shipsDistinct (players : List (ClientID × PlayerData)) : Prop :=
  players.Pairwise (fun e e' => ∀ ship, e.2.ship = some ship → e'.2.ship ≠ some ship)

/-- The unused slots of the pool: the indices below `GAME_OBJ_INST_NUM_MAX`
whose flag is `0`. -/
def freeSlots (pool : Pool) : Finset Nat :=
  (Finset.range GAME_OBJ_INST_NUM_MAX).filter (fun i => (pool i).flag = 0)

/-- Every ship pointer of a player designates a slot in use that is neither in
the asteroid vector nor in the bullet vector. -/
def shipsInUse (s : GameServer) : Prop :=
  ∀ e ∈ s.players, ∀ ship, e.2.ship = some ship →
    (s.sGameObjInstList ship).flag ≠ 0 ∧ ship ∉ s.asteroids ∧ ship ∉ s.bullets

/-! ## GameServer.cpp: messages, end of game -/

/-- Constant `GAME_END_DURATION = 5.0f`. -/
def GAME_END_DURATION : ℚ := 5

/-- Constant `GAME_STATE_UPDATE_INTERVAL = 1.0f / 20.0f`. -/
def GAME_STATE_UPDATE_INTERVAL : ℚ := 1 / 20

/-- Constant `INITIAL_ASTEROID_COUNT = 4`. -/
def INITIAL_ASTEROID_COUNT : Nat := 4

/-- Constant `MAX_ASTEROID_COUNT = 20`. -/
def MAX_ASTEROID_COUNT : Nat := 20

/-- Constant `INITIAL_LIVES = 3`. -/
def INITIAL_LIVES : Nat := 3

/-- Constant `BULLET_LIFETIME = 2.0f`. -/
def BULLET_LIFETIME : ℚ := 2

/-- Constant `BULLET_SPEED = 400.0f`. -/
def BULLET_SPEED : ℚ := 400

/-- Update of the record stored under `clientID` in the player map, as done
through an iterator or a reference to the map node. -/
def modifyPlayer (clientID : ClientID) (f : PlayerData → PlayerData) :
    List (ClientID × PlayerData) → List (ClientID × PlayerData)
  | [] => []
  | pair :: rest =>
    if pair.1 = clientID then (pair.1, f pair.2) :: rest
    else pair :: modifyPlayer clientID f rest

/-- The `PlayerInputMessage` that the pointer `static_cast<const
PlayerInputMessage*>(data)` designates in a buffer of at least nine bytes
(packed struct, `sequence` little-endian): the five flag bytes are taken as
they are. -/
def decodePlayerInput (data : List Nat) : PlayerInputMessage :=
  { type := MessageType.PLAYER_INPUT,
    clientID := data.getD 1 0,
    sequence := data.getD 2 0 + 256 * data.getD 3 0,
    up := data.getD 4 0,
    down := data.getD 5 0,
    left := data.getD 6 0,
    right := data.getD 7 0,
    fire := data.getD 8 0 }

/-- `GameServer::ProcessPlayerInput`. -/
def GameServer.ProcessPlayerInput (s : GameServer) (clientID : ClientID)
    (inputMsg : PlayerInputMessage) : GameServer :=
  match playersFind clientID s.players with
  | none => s
  | some _ =>
    -- Store the input for use in the game update
    { s with players := modifyPlayer clientID (fun p => { p with lastInput := inputMsg }) s.players }

/-- `GameServer::OnMessage` for a buffer `data` whose length is `size`. -/
def GameServer.OnMessage (s : GameServer) (clientID : ClientID) (data : List Nat) : GameServer :=
  if data.length < sizeof_NetworkMessage then s
  else
    match decodeMessageType (data.getD 0 0) with
    | some MessageType.PLAYER_INPUT =>
      if data.length ≥ sizeof_PlayerInputMessage then
        s.ProcessPlayerInput clientID (decodePlayerInput data)
      else s
    | _ => s      -- Ignore other message types

/-- `UDPServer::BroadcastToAll`: one `sendto` per active entry, in map order;
`datagram dest` is the event of sending the buffer to `dest`. -/
def UDPServer.BroadcastToAll (srv : UDPServer) (datagram : sockaddr_in → NetEvent) :
    List NetEvent :=
  (srv.clients.filter (fun pair => pair.2.active)).map (fun pair => datagram pair.2.address)

/-- First loop of `GameServer::CheckGameEndConditions`: the number of players
with `isAlive` set (`activePlayers`). -/
def countActivePlayers (players : List (ClientID × PlayerData)) : Nat :=
  players.foldl (fun activePlayers pair => if pair.2.isAlive then activePlayers + 1
    else activePlayers) 0

/-- Local variables of the second loop of `CheckGameEndConditions`. -/
structure WinnerScan where
  i : Nat
  highestScore : Nat
  winnerID : ClientID
  scores : List Nat
deriving DecidableEq, Repr

/-- Second loop of `GameServer::CheckGameEndConditions` (lines 610 to 622). -/
def findWinner (players : List (ClientID × PlayerData)) (start : WinnerScan) : WinnerScan :=
  players.foldl
    (fun w pair =>
      { i := w.i + 1,
        -- Store scores in the message
        scores := if w.i < 4 then w.scores.set w.i pair.2.score else w.scores,
        highestScore := if pair.2.score > w.highestScore then pair.2.score else w.highestScore,
        winnerID := if pair.2.score > w.highestScore then pair.1 else w.winnerID })
    start

/-- The message built by `GameServer::CheckGameEndConditions` when the game
ends. -/
def GameServer.gameEndMessage (s : GameServer) : GameEndMessage :=
  let w := findWinner s.players { i := 0, highestScore := 0, winnerID := 0, scores := [0, 0, 0, 0] }
  { type := MessageType.GAME_END, clientID := 0, sequence := 0,
    winnerID := w.winnerID, winnerScore := w.highestScore, scores := w.scores }

/-- `GameServer::CheckGameEndConditions`: the state after the call and the
datagrams sent. -/
def GameServer.CheckGameEndConditions (s : GameServer) : GameServer × List NetEvent :=
  -- Count active players
  let activePlayers := countActivePlayers s.players
  -- Game ends if no players are alive or if only one player remains in multiplayer
  if activePlayers = 0 ∨ (s.server.GetClientCount > 1 ∧ activePlayers ≤ 1) then
    ({ s with gameInProgress := false, gameEndTimer := GAME_END_DURATION },
     s.server.BroadcastToAll (NetEvent.sendto_GameEnd s.gameEndMessage))
  else (s, [])

/-- A player record as `ResetGame` leaves it: no score, `INITIAL_LIVES` lives,
alive, with a ship instance that is active, made from the ship template and
tagged with the client id `k`. -/
def freshPlayer (pool : Pool) (k : ClientID) (pd : PlayerData) : Prop :=
  pd.score = 0 ∧ pd.lives = INITIAL_LIVES ∧ pd.isAlive = true ∧
    ∃ ship, pd.ship = some ship ∧ (pool ship).flag = FLAG_ACTIVE ∧
      (pool ship).pObject = some TYPE_SHIP ∧ (pool ship).clientID = k

/-! ## GameServer.cpp: the simulation tick -/

/-- Functions and values the simulation takes from the C library, from the
engine and from the compiler: `cosf`, `sinf`, `sqrtf`, the constant `PI`,
`AEWrap`, the window bounds, the matrix builders, `sGameObjList k`, the `type`
field of the `k`-th object template (read through `pInst->pObject->type`), and
the outcome of the tests `if (x)` and `if (!x)` on a `bool` member `x` of the
stored input message whose byte is `b`: `boolTest b` and `boolNot b`.  The
language fixes these two for the bytes 0 and 1 (`Engine.conforming`); for any
other byte they are what the compiled code does. -/
structure Engine where
  cosf : ℚ → ℚ
  sinf : ℚ → ℚ
  sqrtf : ℚ → ℚ
  PI : ℚ
  AEWrap : ℚ → ℚ → ℚ → ℚ
  AEGfxGetWinMinX : ℚ
  AEGfxGetWinMaxX : ℚ
  AEGfxGetWinMinY : ℚ
  AEGfxGetWinMaxY : ℚ
  AEMtx33Scale : ℚ → ℚ → AEMtx33
  AEMtx33Rot : ℚ → AEMtx33
  AEMtx33Trans : ℚ → ℚ → AEMtx33
  AEMtx33Concat : AEMtx33 → AEMtx33 → AEMtx33
  sGameObjList : Nat → Nat
  boolTest : Nat → Bool
  boolNot : Nat → Bool

/-- The inner test of the fire block fails whenever the outer one passes, for
the fire byte `b`.  This is so for the bytes 0 and 1 under every conforming
evaluation of the tests. -/
def Engine.deadFire (eng : Engine) (b : Nat) : Prop :=
  eng.boolTest b = true → eng.boolNot b = false

/-- Values produced by the random generator in the spawn block of one
`UpdateGameState` call: the raw `gen()` and the results of the distributions. -/
structure SpawnDraw where
  gen : Nat
  disX : ℚ
  disY : ℚ
  disVel1 : ℚ
  disVel2 : ℚ
  disScale : ℚ

/-- Values produced by the random generator in one `CreateInitialAsteroids`
call: the successive `(posX, posY)` pairs of the rejection loops, and for the
`i`-th asteroid the two velocity components and the scale factor. -/
structure InitDraws where
  disPos : List (ℚ × ℚ)
  disVelX : Nat → ℚ
  disVelY : Nat → ℚ
  disScale : Nat → ℚ

/-- Constant `SHIP_ACCEL_FORWARD = 100.0f`. -/
def SHIP_ACCEL_FORWARD : ℚ := 100

/-- Constant `SHIP_ACCEL_BACKWARD = 100.0f`. -/
def SHIP_ACCEL_BACKWARD : ℚ := 100

/-- Constant `SHIP_SCALE_X = 16.0f`. -/
def SHIP_SCALE_X : ℚ := 16

/-- Constant `SHIP_SCALE_Y = 16.0f`. -/
def SHIP_SCALE_Y : ℚ := 16

/-- Constant `BULLET_SCALE_X = 20.0f`. -/
def BULLET_SCALE_X : ℚ := 20

/-- Constant `BULLET_SCALE_Y = 3.0f`. -/
def BULLET_SCALE_Y : ℚ := 3

/-- Constant `ASTEROID_MAX_SCALE_X = 60.0f`. -/
def ASTEROID_MAX_SCALE_X : ℚ := 60

/-- Constant `BOUNDING_RECT_SIZE = 1.0f`. -/
def BOUNDING_RECT_SIZE : ℚ := 1

/-- Body of the first loop of `GameServer::UpdateGameState` (lines 334 to 396)
for the map entry `(clientID, player)`: controls, friction and the fire
block. -/
def GameServer.applyPlayerInput (eng : Engine) (dt : ℚ) (s : GameServer) (clientID : ClientID)
    (player : PlayerData) : GameServer :=
  match player.ship with
  | none => s
  | some ship =>
    if (s.sGameObjInstList ship).isActive && player.isAlive then
      let inst0 := s.sGameObjInstList ship
      -- Apply forward acceleration
      let inst1 :=
        if eng.boolTest player.lastInput.up then
          { inst0 with
            velCurr := ⟨inst0.velCurr.x + eng.cosf inst0.dirCurr * (SHIP_ACCEL_FORWARD * dt),
                        inst0.velCurr.y + eng.sinf inst0.dirCurr * (SHIP_ACCEL_FORWARD * dt)⟩ }
        else inst0
      -- Apply backward acceleration
      let inst2 :=
        if eng.boolTest player.lastInput.down then
          { inst1 with
            velCurr := ⟨inst1.velCurr.x + -eng.cosf inst1.dirCurr * (SHIP_ACCEL_BACKWARD * dt),
                        inst1.velCurr.y + -eng.sinf inst1.dirCurr * (SHIP_ACCEL_BACKWARD * dt)⟩ }
        else inst1
      -- Rotate left
      let inst3 :=
        if eng.boolTest player.lastInput.left then
          { inst2 with
            dirCurr := eng.AEWrap (inst2.dirCurr + 2 * eng.PI * dt) (-eng.PI) eng.PI }
        else inst2
      -- Rotate right
      let inst4 :=
        if eng.boolTest player.lastInput.right then
          { inst3 with
            dirCurr := eng.AEWrap (inst3.dirCurr - 2 * eng.PI * dt) (-eng.PI) eng.PI }
        else inst3
      -- Apply friction
      let inst5 :=
        { inst4 with velCurr := ⟨inst4.velCurr.x * (99 / 100), inst4.velCurr.y * (99 / 100)⟩ }
      let s1 := { s with sGameObjInstList := Function.update s.sGameObjInstList ship inst5 }
      -- Fire bullet if requested
      if eng.boolTest player.lastInput.fire then
        -- Only fire if the fire button was just pressed
        if eng.boolNot player.lastInput.fire then
          let bulletVel : AEVec2 :=
            ⟨eng.cosf inst5.dirCurr * BULLET_SPEED, eng.sinf inst5.dirCurr * BULLET_SPEED⟩
          let scale : AEVec2 := ⟨BULLET_SCALE_X, BULLET_SCALE_Y⟩
          match gameObjInstCreate s1.sGameObjInstList TYPE_BULLET scale (some inst5.posCurr)
              (some bulletVel) inst5.dirCurr with
          | (pool, some bullet) =>
            { s1 with
              sGameObjInstList :=
                Function.update pool bullet
                  { pool bullet with clientID := clientID, lifeTime := BULLET_LIFETIME },
              bullets := s1.bullets ++ [bullet] }
          | (pool, none) => { s1 with sGameObjInstList := pool }
        else s1
      else s1
    else s

/-- First loop of `GameServer::UpdateGameState`: the range-for over the player
map. -/
def GameServer.applyInputs (eng : Engine) (dt : ℚ) (s : GameServer) :
    List (ClientID × PlayerData) → GameServer
  | [] => s
  | pair :: rest =>
    GameServer.applyInputs eng dt (s.applyPlayerInput eng dt pair.1 pair.2) rest

/-- Body of the second loop of `GameServer::UpdateGameState` (lines 401 to
453) for slot `i`.  `pInst` is `sGameObjInstList + i` in `GameServer.cpp`, a
pointer into the array of that file.  The search of the bullet vector for
`pInst` (lines 417 to 422) compares it with pointers into the other array and
finds nothing, so the vector stays as it is. -/
def GameServer.updateInstance (eng : Engine) (dt : ℚ) (s : GameServer) (i : Nat) : GameServer :=
  let pInst := s.sGameObjInstListOwn i
  -- Skip non-active instances
  if pInst.flag &&& FLAG_ACTIVE = 0 then s
  else
    -- Save previous position, update position based on velocity
    let moved : GameObjInst :=
      { pInst with
        posPrev := pInst.posCurr,
        posCurr := ⟨pInst.posCurr.x + pInst.velCurr.x * dt, pInst.posCurr.y + pInst.velCurr.y * dt⟩ }
    let type := moved.pObject.map eng.sGameObjList
    -- Update bullet lifetime
    let aged : GameObjInst :=
      if type = some TYPE_BULLET then { moved with lifeTime := moved.lifeTime - dt } else moved
    if type = some TYPE_BULLET ∧ aged.lifeTime ≤ 0 then
      -- Remove expired bullet
      { s with
        sGameObjInstListOwn :=
          gameObjInstDestroy (Function.update s.sGameObjInstListOwn i aged) i }
    else
      -- Wrap position for ships and asteroids
      let wrapped : GameObjInst :=
        if type = some TYPE_SHIP ∨ type = some TYPE_ASTEROID then
          { aged with
            posCurr :=
              ⟨eng.AEWrap aged.posCurr.x (eng.AEGfxGetWinMinX - aged.scale.x)
                 (eng.AEGfxGetWinMaxX + aged.scale.x),
               eng.AEWrap aged.posCurr.y (eng.AEGfxGetWinMinY - aged.scale.y)
                 (eng.AEGfxGetWinMaxY + aged.scale.y)⟩ }
        else aged
      -- Update transformation matrix
      let scale := eng.AEMtx33Scale wrapped.scale.x wrapped.scale.y
      let rot := eng.AEMtx33Rot wrapped.dirCurr
      let trans := eng.AEMtx33Trans wrapped.posCurr.x wrapped.posCurr.y
      let temp := eng.AEMtx33Concat rot scale
      -- Update bounding box
      let tmp : AEVec2 :=
        ⟨wrapped.scale.x * (BOUNDING_RECT_SIZE / 2), wrapped.scale.y * (BOUNDING_RECT_SIZE / 2)⟩
      { s with
        sGameObjInstListOwn :=
          Function.update s.sGameObjInstListOwn i
            { wrapped with
              transform := eng.AEMtx33Concat trans temp,
              boundingBox :=
                ⟨⟨wrapped.posCurr.x - tmp.x, wrapped.posCurr.y - tmp.y⟩,
                 ⟨wrapped.posCurr.x + tmp.x, wrapped.posCurr.y + tmp.y⟩⟩ } }

/-- Second loop of `GameServer::UpdateGameState`: slots `i`, `i + 1`, ... with
`n` slots left to visit. -/
def GameServer.updateInstances (eng : Engine) (dt : ℚ) : Nat → Nat → GameServer → GameServer
  | 0, _, s => s
  | n + 1, i, s => GameServer.updateInstances eng dt n (i + 1) (s.updateInstance eng dt i)

/-- Spawn block of `GameServer::UpdateGameState` (lines 460 to 492). -/
def GameServer.spawnAsteroid (eng : Engine) (draw : SpawnDraw) (s : GameServer) : GameServer :=
  if s.asteroids.length < INITIAL_ASTEROID_COUNT ∧ s.asteroids.length < MAX_ASTEROID_COUNT then
    -- Random position at the edge of the screen
    let side := draw.gen % 4
    let pos : ℚ × ℚ :=
      if side = 0 then (draw.disX, eng.AEGfxGetWinMinY - 20)          -- Top
      else if side = 1 then (eng.AEGfxGetWinMaxX + 20, draw.disY)     -- Right
      else if side = 2 then (draw.disX, eng.AEGfxGetWinMaxY + 20)     -- Bottom
      else (eng.AEGfxGetWinMinX - 20, draw.disY)                      -- Left
    s.CreateAsteroid pos.1 pos.2 draw.disVel1 draw.disVel2 (ASTEROID_MAX_SCALE_X * draw.disScale)
  else s

/-- `GameServer::UpdateGameState`, as one sequential run with every lock
granted (the lock operations are in `UpdateGameState_locks`).  `g_dt` is the
global read by the swept test inside `CheckForCollisions`, `dt` the argument. -/
def GameServer.UpdateGameState (eng : Engine) (draw : SpawnDraw) (g_dt : ℚ) (s : GameServer)
    (dt : ℚ) : GameServer :=
  -- Process player inputs and update ships
  let s1 := s.applyInputs eng dt s.players
  -- Update all game objects
  let s2 := GameServer.updateInstances eng dt GAME_OBJ_INST_NUM_MAX 0 s1
  -- Check for collisions
  let s3 := (s2.CheckForCollisions eng.sqrtf g_dt).1
  -- Spawn new asteroids if needed
  s3.spawnAsteroid eng draw

/-! ## GameServer.cpp: snapshot, reset and the frame update -/

/-- Ship record written by `SendGameState` for one player. -/
def GameServer.shipStateOf (s : GameServer) (player : PlayerData) : ShipState :=
  let active : Bool :=
    player.isAlive &&
      (match player.ship with
       | some ship => (s.sGameObjInstList ship).isActive
       | none => false)
  match player.ship with
  | some ship =>
    if active then
      { posX := (s.sGameObjInstList ship).posCurr.x, posY := (s.sGameObjInstList ship).posCurr.y,
        dirCurr := (s.sGameObjInstList ship).dirCurr,
        velocityX := (s.sGameObjInstList ship).velCurr.x,
        velocityY := (s.sGameObjInstList ship).velCurr.y,
        active := active, score := player.score, lives := player.lives }
    else
      { posX := 0, posY := 0, dirCurr := 0, velocityX := 0, velocityY := 0,
        active := active, score := player.score, lives := player.lives }
  | none =>
    { posX := 0, posY := 0, dirCurr := 0, velocityX := 0, velocityY := 0,
      active := active, score := player.score, lives := player.lives }

/-- Asteroid record written by `SendGameState` for position `i` of the vector. -/
def GameServer.asteroidStateOf (s : GameServer) (i asteroid : Nat) : AsteroidState :=
  { id := i % 65536,
    active := (s.sGameObjInstList asteroid).isActive,
    posX := (s.sGameObjInstList asteroid).posCurr.x,
    posY := (s.sGameObjInstList asteroid).posCurr.y,
    velocityX := (s.sGameObjInstList asteroid).velCurr.x,
    velocityY := (s.sGameObjInstList asteroid).velCurr.y,
    scale := (s.sGameObjInstList asteroid).scale.x }

/-- Bullet record written by `SendGameState` for position `i` of the vector. -/
def GameServer.bulletStateOf (s : GameServer) (i bullet : Nat) : BulletState :=
  { id := i % 65536,
    active := (s.sGameObjInstList bullet).isActive,
    ownerID := (s.sGameObjInstList bullet).clientID,
    posX := (s.sGameObjInstList bullet).posCurr.x,
    posY := (s.sGameObjInstList bullet).posCurr.y,
    velocityX := (s.sGameObjInstList bullet).velCurr.x,
    velocityY := (s.sGameObjInstList bullet).velCurr.y }

/-- The buffer content built by `GameServer::SendGameState`. -/
def GameServer.gameStatePacket (s : GameServer) : GameStatePacket :=
  { header :=
      { type := MessageType.GAME_STATE, clientID := 0, sequence := 0,
        playerCount := s.players.length % 256,
        asteroidCount := s.asteroids.length % 65536,
        bulletCount := s.bullets.length % 65536,
        gameStatus := if s.gameInProgress then 1 else 0 },
    ships := s.players.map (fun pair => s.shipStateOf pair.2),
    asteroids := s.asteroids.enum.map (fun ia => s.asteroidStateOf ia.1 ia.2),
    bullets := s.bullets.enum.map (fun ib => s.bulletStateOf ib.1 ib.2) }

/-- `GameServer::SendGameState`: the datagrams sent. -/
def GameServer.SendGameState (s : GameServer) : List NetEvent :=
  s.server.BroadcastToAll (NetEvent.sendto_GameState s.gameStatePacket)

/-- `GameServer::CreatePlayerShip`. -/
def GameServer.CreatePlayerShip (eng : Engine) (s : GameServer) (clientID : ClientID) :
    GameServer :=
  match playersFind clientID s.players with
  | none => s
  | some _ =>
    -- Calculate spawn position based on player number
    let spawnAngle : ℚ := ((clientID : ℚ) - 1) * (2 * eng.PI / 4)
    let spawnDist : ℚ := 100
    let spawnX := eng.cosf spawnAngle * spawnDist
    let spawnY := eng.sinf spawnAngle * spawnDist
    -- Create ship
    let scale : AEVec2 := ⟨SHIP_SCALE_X * (5 / 2), SHIP_SCALE_Y * (5 / 2)⟩
    let pos : AEVec2 := ⟨spawnX, spawnY⟩
    match gameObjInstCreate s.sGameObjInstList TYPE_SHIP scale (some pos) none
        (spawnAngle + eng.PI) with
    | (pool, some ship) =>
      { s with
        -- Store client ID with the ship
        sGameObjInstList := Function.update pool ship { pool ship with clientID := clientID },
        -- Store ship in player data
        players := modifyPlayer clientID (fun p => { p with ship := some ship, isAlive := true })
          s.players }
    | (pool, none) => { s with sGameObjInstList := pool }

/-- The `do ... while` loop of `CreateInitialAsteroids`: the first drawn
position whose computed distance from the centre is not below 150, and the
draws left.  `none` when the draws run out before such a position comes up,
that is, when the loop does not end. -/
def drawSpawnPosition (sqrtf : ℚ → ℚ) : List (ℚ × ℚ) → Option ((ℚ × ℚ) × List (ℚ × ℚ))
  | [] => none
  | pos :: later =>
    let distFromCenter := sqrtf (pos.1 * pos.1 + pos.2 * pos.2)
    if distFromCenter < 150 then drawSpawnPosition sqrtf later
    else some (pos, later)

/-- Exit test of the rejection loop: the computed distance of `pos` from the
centre is not below 150. -/
def farFromCenter (sqrtf : ℚ → ℚ) (pos : ℚ × ℚ) : Bool :=
  !decide (sqrtf (pos.1 * pos.1 + pos.2 * pos.2) < 150)

/-- The `for` loop of `GameServer::CreateInitialAsteroids` from iteration `i`
on, with `n` iterations left. -/
def GameServer.createInitialLoop (eng : Engine) (draws : InitDraws) :
    Nat → Nat → List (ℚ × ℚ) → GameServer → Option GameServer
  | 0, _, _, s => some s
  | n + 1, i, disPos, s =>
    match drawSpawnPosition eng.sqrtf disPos with
    | none => none
    | some (pos, later) =>
      GameServer.createInitialLoop eng draws n (i + 1) later
        (s.CreateAsteroid pos.1 pos.2 (draws.disVelX i) (draws.disVelY i)
          (ASTEROID_MAX_SCALE_X * draws.disScale i))

/-- `GameServer::CreateInitialAsteroids`; `none` when a rejection loop does not
end on the given draws. -/
def GameServer.CreateInitialAsteroids (eng : Engine) (draws : InitDraws) (s : GameServer) :
    Option GameServer :=
  GameServer.createInitialLoop eng draws INITIAL_ASTEROID_COUNT 0 draws.disPos s

/-- Body of the player loop of `GameServer::ResetGame` (lines 748 to 761) for
the map entry with key `clientID`. -/
def GameServer.resetPlayer (eng : Engine) (s : GameServer) (clientID : ClientID) : GameServer :=
  match playersFind clientID s.players with
  | none => s
  | some player =>
    let pool :=
      match player.ship with
      | some ship => gameObjInstDestroy s.sGameObjInstList ship
      | none => s.sGameObjInstList
    let s1 :=
      { s with
        sGameObjInstList := pool,
        players :=
          modifyPlayer clientID
            (fun p => { p with ship := none, score := 0, lives := INITIAL_LIVES, isAlive := true })
            s.players }
    -- Create new ship for the player
    s1.CreatePlayerShip eng clientID

/-- Player loop of `GameServer::ResetGame`: the range-for over the map, by the
keys it visits. -/
def GameServer.resetPlayers (eng : Engine) : List ClientID → GameServer → GameServer
  | [], s => s
  | clientID :: rest, s => GameServer.resetPlayers eng rest (s.resetPlayer eng clientID)

/-- `GameServer::ResetGame`, as one sequential run with every lock granted (the
lock operations are in `ResetGame_locks`); `none` when the rejection loop of
`CreateInitialAsteroids` does not end. -/
def GameServer.ResetGame (eng : Engine) (draws : InitDraws) (s : GameServer) :
    Option GameServer :=
  -- Clear all game objects
  let s1 :=
    { s with
      sGameObjInstList := s.asteroids.foldl gameObjInstDestroy s.sGameObjInstList,
      asteroids := [] }
  let s2 :=
    { s1 with
      sGameObjInstList := s1.bullets.foldl gameObjInstDestroy s1.sGameObjInstList,
      bullets := [] }
  -- Reset player data and create ships
  let s3 := GameServer.resetPlayers eng (s2.players.map Prod.fst) s2
  -- Create initial asteroids
  match s3.CreateInitialAsteroids eng draws with
  | none => none
  | some s4 => some { s4 with gameStateTimer := 0 }

/-- An instance as `CreatePlayerShip` leaves it: active, made from the ship
template, with the ship scale, at rest at the spawn position of the client id
it is tagged with, heading towards the centre. -/
def createdShip (eng : Engine) (inst : GameObjInst) : Prop :=
  inst.flag = FLAG_ACTIVE ∧ inst.pObject = some TYPE_SHIP ∧
  inst.scale = ⟨SHIP_SCALE_X * (5 / 2), SHIP_SCALE_Y * (5 / 2)⟩ ∧
  inst.posCurr = ⟨eng.cosf (((inst.clientID : ℚ) - 1) * (2 * eng.PI / 4)) * 100,
                  eng.sinf (((inst.clientID : ℚ) - 1) * (2 * eng.PI / 4)) * 100⟩ ∧
  inst.velCurr = ⟨0, 0⟩ ∧
  inst.dirCurr = ((inst.clientID : ℚ) - 1) * (2 * eng.PI / 4) + eng.PI

/-- Slot `a` of the pool holds a ship as `CreatePlayerShip` leaves it and no
slot below `a` is unused. -/
def settledShip (eng : Engine) (pool : Pool) (a : Nat) : Prop :=
  createdShip eng (pool a) ∧ a < GAME_OBJ_INST_NUM_MAX ∧ ∀ j, j < a → (pool j).flag ≠ 0

/-- A player record as the player loop of `ResetGame` leaves it: no score,
`INITIAL_LIVES` lives, alive, with a pointer to a settled ship. -/
def resetRecord (eng : Engine) (pool : Pool) (pd : PlayerData) : Prop :=
  pd.score = 0 ∧ pd.lives = INITIAL_LIVES ∧ pd.isAlive = true ∧
    ∃ ship, pd.ship = some ship ∧ settledShip eng pool ship

/-- Random values consumed by one `GameServer::Update` call: the spawn block
of the tick and the two places that may call `ResetGame`. -/
structure UpdateDraws where
  spawn : SpawnDraw
  start : InitDraws
  restart : InitDraws

/-- `GameServer::Update`: the state after the call and the datagrams sent;
`none` when a `ResetGame` it calls does not return. -/
def GameServer.Update (eng : Engine) (draws : UpdateDraws) (g_dt : ℚ) (s : GameServer) (dt : ℚ) :
    Option (GameServer × List NetEvent) :=
  if !s.isRunning then some (s, [])
  else
    -- Update game state
    let first : Option (GameServer × List NetEvent) :=
      if s.gameInProgress then
        let s1 := s.UpdateGameState eng draws.spawn g_dt dt
        -- Send game state updates at fixed intervals
        let s2 := { s1 with gameStateTimer := s1.gameStateTimer + dt }
        let sent := if s2.gameStateTimer ≥ GAME_STATE_UPDATE_INTERVAL then s2.SendGameState else []
        let s3 :=
          if s2.gameStateTimer ≥ GAME_STATE_UPDATE_INTERVAL then { s2 with gameStateTimer := 0 }
          else s2
        -- Check for game end
        let r := s3.CheckGameEndConditions
        some (r.1, sent ++ r.2)
      else
        -- Check if we have enough players to start a new game
        if s.server.GetClientCount > 0 then
          -- Start a new game
          match s.ResetGame eng draws.start with
          | none => none
          | some s1 => some ({ s1 with gameInProgress := true }, [])
        else some (s, [])
    match first with
    | none => none
    | some (t, events) =>
      -- If game is over and timer expired, reset the game
      if !t.gameInProgress ∧ t.gameEndTimer > 0 then
        let t1 := { t with gameEndTimer := t.gameEndTimer - dt }
        if t1.gameEndTimer ≤ 0 then
          -- Reset and start a new game if we have players
          if t1.server.GetClientCount > 0 then
            match t1.ResetGame eng draws.restart with
            | none => none
            | some t2 => some ({ t2 with gameInProgress := true }, events)
          else some (t1, events)
        else some (t1, events)
      else some (t, events)

/-- State of `UDPClient` that the receive path reads and writes. -/
structure UDPClient where
  isRunning : Bool
  isConnected : Bool
  serverAddr : sockaddr_in
  clientID : ClientID
  sequenceNumber : Nat
deriving DecidableEq, Repr

/-- Callbacks invoked by the receive path of the client, in order. -/
inductive ClientEvent where
  | onConnect (id : ClientID)
  | onDisconnect
  | onMessage (data : List Nat)
deriving DecidableEq, Repr

/-- Size of the packed struct `ConnectAcceptMessage`: the four bytes of
`NetworkMessage`, one byte `assignedID`, one byte `totalPlayers`. -/
def sizeof_ConnectAcceptMessage : Nat := sizeof_NetworkMessage + 1 + 1

/-- Effect of `recvfrom` on the array `buffer` of `UDPClient::NetworkThread`:
the datagram `data` overwrites the first `data.length` bytes, the bytes behind
them stay as they were (`old` is the content before the call). -/
def recvInto (old data : List Nat) : List Nat :=
  data ++ old.drop data.length

/-- One iteration of the loop of `UDPClient::NetworkThread` in which `recvfrom`
returned the datagram `data` from `senderAddr` (lines 516 to 567); `old` is
the content of `buffer` before the call. -/
def UDPClient.receive (c : UDPClient) (old data : List Nat) (senderAddr : sockaddr_in) :
    UDPClient × List ClientEvent :=
  let buffer := recvInto old data
  let bytesReceived := data.length
  -- Must receive at least the header
  if bytesReceived < sizeof_NetworkMessage then (c, [])
  -- Check if message is from our server
  else if senderAddr.s_addr ≠ c.serverAddr.s_addr ∨ senderAddr.sin_port ≠ c.serverAddr.sin_port
  then (c, [])
  else
    match decodeMessageType (buffer.getD 0 0) with
    | some MessageType.CONNECT_ACCEPT =>
      if !c.isConnected then
        let assignedID := buffer.getD 4 0
        ({ c with clientID := assignedID, isConnected := true }, [ClientEvent.onConnect assignedID])
      else (c, [])
    | some MessageType.CONNECT_REJECT =>
      ({ c with isConnected := false }, [ClientEvent.onDisconnect])
    | some MessageType.DISCONNECT =>
      if c.isConnected then
        ({ c with isConnected := false, clientID := 0 }, [ClientEvent.onDisconnect])
      else (c, [])
    | _ =>
      -- Pass message to handler
      (c, [ClientEvent.onMessage (buffer.take bytesReceived)])

/-! ## UDPNetwork.h / GameServer.cpp: the bytes of a snapshot -/

/-- The four bytes of a `float`; `enc` is the encoding of the platform. -/
def floatBytes (enc : ℚ → Nat × Nat × Nat × Nat) (q : ℚ) : List Nat :=
  [(enc q).1, (enc q).2.1, (enc q).2.2.1, (enc q).2.2.2]

/-- The two bytes of a `uint16_t`, low byte first. -/
def u16Bytes (n : Nat) : List Nat :=
  [n % 256, n / 256 % 256]

/-- The four bytes of a `uint32_t`, low byte first. -/
def u32Bytes (n : Nat) : List Nat :=
  [n % 256, n / 256 % 256, n / 65536 % 256, n / 16777216 % 256]

/-- The byte of a `bool`. -/
def boolByte (b : Bool) : Nat :=
  if b then 1 else 0

/-- The enumerator values of `MessageType`. -/
def MessageType.toByte : MessageType → Nat
  | MessageType.CONNECT_REQUEST => 1
  | MessageType.CONNECT_ACCEPT => 2
  | MessageType.CONNECT_REJECT => 3
  | MessageType.DISCONNECT => 4
  | MessageType.GAME_STATE => 5
  | MessageType.PLAYER_INPUT => 6
  | MessageType.GAME_START => 7
  | MessageType.GAME_END => 8
  | MessageType.HEARTBEAT => 9

/-- Bytes of the packed struct `GameStateMessage`, in declaration order: the
base `NetworkMessage` (type, clientID, sequence), playerCount, asteroidCount,
bulletCount, gameStatus. -/
def GameStateMessage.bytes (m : GameStateMessage) : List Nat :=
  [m.type.toByte, m.clientID % 256] ++ u16Bytes m.sequence ++ [m.playerCount % 256]
    ++ u16Bytes m.asteroidCount ++ u16Bytes m.bulletCount ++ [m.gameStatus % 256]

/-- Bytes of the packed struct `ShipState`, in declaration order. -/
def ShipState.bytes (enc : ℚ → Nat × Nat × Nat × Nat) (st : ShipState) : List Nat :=
  floatBytes enc st.posX ++ floatBytes enc st.posY ++ floatBytes enc st.dirCurr
    ++ floatBytes enc st.velocityX ++ floatBytes enc st.velocityY
    ++ [boolByte st.active] ++ u32Bytes st.score ++ [st.lives % 256]

/-- Bytes of the packed struct `AsteroidState`, in declaration order. -/
def AsteroidState.bytes (enc : ℚ → Nat × Nat × Nat × Nat) (st : AsteroidState) : List Nat :=
  u16Bytes st.id ++ floatBytes enc st.posX ++ floatBytes enc st.posY
    ++ floatBytes enc st.velocityX ++ floatBytes enc st.velocityY ++ floatBytes enc st.scale
    ++ [boolByte st.active]

/-- Bytes of the packed struct `BulletState`, in declaration order. -/
def BulletState.bytes (enc : ℚ → Nat × Nat × Nat × Nat) (st : BulletState) : List Nat :=
  u16Bytes st.id ++ [st.ownerID % 256] ++ floatBytes enc st.posX ++ floatBytes enc st.posY
    ++ floatBytes enc st.velocityX ++ floatBytes enc st.velocityY ++ [boolByte st.active]

/-- Value of `sizeof(GameStateMessage)` under `#pragma pack(push, 1)`. -/
def sizeof_GameStateMessage : Nat := sizeof_NetworkMessage + 1 + 2 + 2 + 1

/-- Value of `sizeof(ShipState)` under `#pragma pack(push, 1)`. -/
def sizeof_ShipState : Nat := 4 + 4 + 4 + 4 + 4 + 1 + 4 + 1

/-- Value of `sizeof(AsteroidState)` under `#pragma pack(push, 1)`. -/
def sizeof_AsteroidState : Nat := 2 + 4 + 4 + 4 + 4 + 4 + 1

/-- Value of `sizeof(BulletState)` under `#pragma pack(push, 1)`. -/
def sizeof_BulletState : Nat := 2 + 1 + 4 + 4 + 4 + 4 + 1

/-- Store of the bytes `bytes` into `buffer` from position `offset` on. -/
def writeAt (buffer : List Nat) (offset : Nat) (bytes : List Nat) : List Nat :=
  buffer.take offset ++ bytes ++ buffer.drop (offset + bytes.length)

/-- A loop of `SendGameState` over an array of records in the buffer: record
number `i`, `i + 1`, ... is stored at `base + stride * i`. -/
def writeRecords (stride base : Nat) : List Nat → Nat → List (List Nat) → List Nat
  | buffer, _, [] => buffer
  | buffer, i, record :: rest =>
    writeRecords stride base (writeAt buffer (base + stride * i) record) (i + 1) rest

/-- The `std::vector<char> buffer` of `GameServer::SendGameState` when it is
handed to `BroadcastToAll`: `totalSize` zero bytes, then the header fields, the
ship records, the asteroid records and the bullet records stored at their
offsets (every field of every record is assigned). -/
def GameServer.gameStateBuffer (enc : ℚ → Nat × Nat × Nat × Nat) (s : GameServer) : List Nat :=
  -- Calculate total size needed for the message
  let playerStateSize := sizeof_ShipState * s.players.length
  let asteroidStateSize := sizeof_AsteroidState * s.asteroids.length
  let bulletStateSize := sizeof_BulletState * s.bullets.length
  let totalSize := sizeof_GameStateMessage + playerStateSize + asteroidStateSize + bulletStateSize
  -- Create buffer for the message
  let buffer0 := List.replicate totalSize 0
  -- Set header data
  let buffer1 := writeAt buffer0 0 s.gameStatePacket.header.bytes
  -- Add player ships data
  let buffer2 := writeRecords sizeof_ShipState sizeof_GameStateMessage buffer1 0
    (s.gameStatePacket.ships.map (ShipState.bytes enc))
  -- Add asteroids data
  let buffer3 := writeRecords sizeof_AsteroidState (sizeof_GameStateMessage + playerStateSize)
    buffer2 0 (s.gameStatePacket.asteroids.map (AsteroidState.bytes enc))
  -- Add bullets data
  writeRecords sizeof_BulletState (sizeof_GameStateMessage + playerStateSize + asteroidStateSize)
    buffer3 0 (s.gameStatePacket.bullets.map (BulletState.bytes enc))

/-! ## GameServer.cpp / UDPNetwork.cpp: the locks taken by the calling thread -/

/-- The three mutexes of the server. -/
inductive Mutex where
  | playersMutex
  | gameObjectsMutex
  | clientsMutex
deriving DecidableEq, Repr

/-- A lock operation of the calling thread. -/
inductive LockOp where
  | lock (m : Mutex)
  | unlock (m : Mutex)
deriving DecidableEq, Repr

/-- Scope of a `std::lock_guard` on `m`: lock, the operations `body` of the
scope, unlock. -/
def guarded (m : Mutex) (body : List LockOp) : List LockOp :=
  LockOp.lock m :: body ++ [LockOp.unlock m]

/-- Walk through the lock operations of one thread with the list `held` of
mutexes it holds: the first mutex that is locked while the thread already
holds it, if there is one. -/
def firstRelock : List Mutex → List LockOp → Option Mutex
  | _, [] => none
  | held, LockOp.lock m :: rest => if m ∈ held then some m else firstRelock (m :: held) rest
  | held, LockOp.unlock m :: rest => firstRelock (held.erase m) rest

/-- Lock operations of `GameServer::CreateAsteroid` (line 838). -/
def CreateAsteroid_locks : List LockOp :=
  guarded Mutex.gameObjectsMutex []

/-- Lock operations of `GameServer::SplitAsteroid`: none of its own; when it
splits (`splits`), the two `CreateAsteroid` calls. -/
def SplitAsteroid_locks (splits : Bool) : List LockOp :=
  if splits then CreateAsteroid_locks ++ CreateAsteroid_locks else []

/-- Lock operations of `GameServer::CheckForCollisions` (lines 496 and 497);
`splits` has one entry for every `SplitAsteroid` call of the bullet pass. -/
def CheckForCollisions_locks (splits : List Bool) : List LockOp :=
  guarded Mutex.playersMutex
    (guarded Mutex.gameObjectsMutex ((splits.map SplitAsteroid_locks).flatten))

/-- Lock operations of `GameServer::UpdateGameState` (lines 329 and 330, the
call of `CheckForCollisions` at line 457 and the spawn block); `spawns` tells
whether the spawn block calls `CreateAsteroid`. -/
def UpdateGameState_locks (splits : List Bool) (spawns : Bool) : List LockOp :=
  guarded Mutex.playersMutex
    (guarded Mutex.gameObjectsMutex
      (CheckForCollisions_locks splits ++ (if spawns then CreateAsteroid_locks else [])))

/-- Lock operations of `GameServer::CreatePlayerShip` (line 771). -/
def CreatePlayerShip_locks : List LockOp :=
  guarded Mutex.playersMutex []

/-- Lock operations of `GameServer::RemovePlayerShip`. -/
def RemovePlayerShip_locks : List LockOp :=
  guarded Mutex.playersMutex []

/-- Lock operations of `GameServer::CreateInitialAsteroids` (line 813 and the
`INITIAL_ASTEROID_COUNT` calls of `CreateAsteroid`). -/
def CreateInitialAsteroids_locks : List LockOp :=
  guarded Mutex.gameObjectsMutex ((List.replicate 4 CreateAsteroid_locks).flatten)

/-- Lock operations of `GameServer::ResetGame` (lines 728 and 729, one
`CreatePlayerShip` call for each of the `nPlayers` map entries, then
`CreateInitialAsteroids`). -/
def ResetGame_locks (nPlayers : Nat) : List LockOp :=
  guarded Mutex.playersMutex
    (guarded Mutex.gameObjectsMutex
      ((List.replicate nPlayers CreatePlayerShip_locks).flatten ++ CreateInitialAsteroids_locks))

/-- Lock operations of `UDPServer::GetClientCount` (line 321). -/
def GetClientCount_locks : List LockOp :=
  guarded Mutex.clientsMutex []

/-- Lock operations of `GameServer::OnClientConnect`: the block around the map
insertion, then `CreatePlayerShip` when a game is in progress, else
`GetClientCount` and, for the first player (`first`), `ResetGame`. -/
def OnClientConnect_locks (gameInProgress first : Bool) (nPlayers : Nat) : List LockOp :=
  guarded Mutex.playersMutex []
    ++ (if gameInProgress then CreatePlayerShip_locks
        else GetClientCount_locks ++ (if first then ResetGame_locks nPlayers else []))

/-- Lock operations of `GameServer::OnClientDisconnect`: `RemovePlayerShip`,
the block around the erase, `GetClientCount`. -/
def OnClientDisconnect_locks : List LockOp :=
  RemovePlayerShip_locks ++ guarded Mutex.playersMutex [] ++ GetClientCount_locks

/-- Lock operations of `UDPServer::HandleConnectionRequest` on the path that
accepts a new client: the `lock_guard` of line 207 is in scope up to the end of
the function, so also around the call of the connect callback at line 269,
which `GameServer::Initialize` sets to `OnClientConnect`. -/
def HandleConnectionRequest_accept_locks (gameInProgress first : Bool) (nPlayers : Nat) :
    List LockOp :=
  guarded Mutex.clientsMutex (OnClientConnect_locks gameInProgress first nPlayers)

/-- Lock operations of `UDPServer::CheckClientTimeouts` when `n` entries time
out: the `lock_guard` of line 278 is in scope around every call of the
disconnect callback, which is `OnClientDisconnect`. -/
def CheckClientTimeouts_locks (n : Nat) : List LockOp :=
  guarded Mutex.clientsMutex ((List.replicate n OnClientDisconnect_locks).flatten)

/-! ## Concrete states used in the evaluations below -/

/-- A message with every input flag clear. -/
def noInput : PlayerInputMessage :=
  { type := MessageType.PLAYER_INPUT, clientID := 0, sequence := 0,
    up := 0, down := 0, left := 0, right := 0, fire := 0 }

/-- Pool with an active bullet of client 1 in slot 0 and an active asteroid of
scale 12 in slot 1, both with bounding boxes around the origin; every other
slot is unused. -/
def duelPool : Pool := fun i =>
  if i = 0 then
    { unusedInst with
      pObject := some TYPE_BULLET, flag := FLAG_ACTIVE, scale := ⟨20, 3⟩,
      boundingBox := ⟨⟨-10, -3 / 2⟩, ⟨10, 3 / 2⟩⟩, clientID := 1, lifeTime := 2 }
  else if i = 1 then
    { unusedInst with
      pObject := some TYPE_ASTEROID, flag := FLAG_ACTIVE, scale := ⟨12, 12⟩,
      boundingBox := ⟨⟨-6, -6⟩, ⟨6, 6⟩⟩ }
  else unusedInst

/-- Server state with one player, client 1, whose score is `score`, one bullet
(slot 0) and one asteroid (slot 1) over `duelPool`. -/
def duelServer (score : Nat) : GameServer :=
  { server := { isRunning := true, clients := [], nextClientID := 2 },
    isRunning := true, gameInProgress := true, gameStateTimer := 0, gameEndTimer := 0,
    players := [(1, { ship := none, isAlive := true, score := score, lives := 3,
                      lastInput := noInput })],
    asteroids := [1], bullets := [0], sGameObjInstList := duelPool }

/-- Pool in which every slot is in use. -/
def fullPool : Pool := fun _ => { unusedInst with pObject := some TYPE_ASTEROID, flag := FLAG_ACTIVE }

/-- Client table entry with the given id, port, address and liveness flag. -/
def peerEntry (id port addr : Nat) (active : Bool) : ClientID × ClientConnection :=
  (id, { address := ⟨2, port, addr⟩, ip := "", port := port, id := id, active := active,
         lastReceivedSequence := 0, lastHeartbeatTime := 0 })

/-- Clock at tick 1000, empty address strings and the byte swap of a
little-endian host for `ntohs`. -/
def sampleEnv : NetEnv :=
  { now := 1000, inet_ntop := fun _ => "", ntohs := fun p => (p % 256) * 256 + p / 256 }

/-- Client table entry as the admission code of `sampleEnv` creates it at clock
reading `time`. -/
def peerEntryAt (time id port addr : Nat) (active : Bool) : ClientID × ClientConnection :=
  (id, { address := ⟨2, port, addr⟩, ip := "", port := sampleEnv.ntohs port, id := id,
         active := active, lastReceivedSequence := 0, lastHeartbeatTime := time })

/-- Server state at the end of a round nobody scored in: peer 1 is connected,
its player has score 0, no lives left and is not alive; there are no
instances. -/
def scorelessServer : GameServer :=
  { server := { isRunning := true, clients := [peerEntryAt 1000 1 5001 11 true],
                nextClientID := 2 },
    isRunning := true, gameInProgress := true, gameStateTimer := 0, gameEndTimer := 0,
    players := [(1, { ship := none, isAlive := false, score := 0, lives := 0,
                      lastInput := noInput })],
    asteroids := [], bullets := [], sGameObjInstList := fun _ => unusedInst }

/-- Server with the four peers 1 to 4, all active. -/
def fourPeers : UDPServer :=
  { isRunning := true,
    clients := [peerEntry 1 5001 11 true, peerEntry 2 5002 12 true,
                peerEntry 3 5003 13 true, peerEntry 4 5004 14 true],
    nextClientID := 5 }

/-- Server whose table holds the four peers 1 to 4, all inactive. -/
def fourGone : UDPServer :=
  { isRunning := true,
    clients := [peerEntry 1 5001 11 false, peerEntry 2 5002 12 false,
                peerEntry 3 5003 13 false, peerEntry 4 5004 14 false],
    nextClientID := 5 }

/-- Product of two matrices given as lists of rows. -/
def mtxMul (a b : List (List ℚ)) : List (List ℚ) :=
  a.map (fun row =>
    (List.range 3).map (fun j => ((row.zip b).map (fun rb => rb.1 * rb.2.getD j 0)).sum))

/-- An engine over the rationals: Taylor polynomials for `cosf` and `sinf`, the
square root cut off after three decimals, 355/113 for `PI`, an 800 by 600
window, the object templates in the order in which `GameStateAsteroidsLoad`
creates them, and the tests on a `bool` byte as gcc compiles them without
optimisation: `if (x)` compares the byte with zero, `if (!x)` flips bit 0 of
the byte and compares the result with zero. -/
def sampleEngine : Engine :=
  { cosf := fun x => 1 - x ^ 2 / 2 + x ^ 4 / 24,
    sinf := fun x => x - x ^ 3 / 6 + x ^ 5 / 120,
    sqrtf := fun q => (Nat.sqrt (Int.toNat ⌊q * 1000000⌋) : ℚ) / 1000,
    PI := 355 / 113,
    AEWrap := fun x lo hi => if x < lo then x + (hi - lo) else if x > hi then x - (hi - lo) else x,
    AEGfxGetWinMinX := -400,
    AEGfxGetWinMaxX := 400,
    AEGfxGetWinMinY := -300,
    AEGfxGetWinMaxY := 300,
    AEMtx33Scale := fun x y => ⟨[[x, 0, 0], [0, y, 0], [0, 0, 1]]⟩,
    AEMtx33Rot := fun a =>
      ⟨[[1 - a ^ 2 / 2 + a ^ 4 / 24, -(a - a ^ 3 / 6 + a ^ 5 / 120), 0],
        [a - a ^ 3 / 6 + a ^ 5 / 120, 1 - a ^ 2 / 2 + a ^ 4 / 24, 0],
        [0, 0, 1]]⟩,
    AEMtx33Trans := fun x y => ⟨[[1, 0, x], [0, 1, y], [0, 0, 1]]⟩,
    AEMtx33Concat := fun a b => ⟨mtxMul a.m b.m⟩,
    sGameObjList := fun k => k,
    boolTest := fun b => b != 0,
    boolNot := fun b => b ^^^ 1 != 0 }

/-- Draws of a spawn block: left edge, heading right. -/
def sampleSpawn : SpawnDraw :=
  { gen := 3, disX := 0, disY := 120, disVel1 := 30, disVel2 := -10, disScale := 1 }

/-- Draws of a `CreateInitialAsteroids` call: one position too close to the
centre, then four positions 200 away from it. -/
def sampleInit : InitDraws :=
  { disPos := [(10, 20), (200, 0), (0, 200), (-200, 0), (0, -200)],
    disVelX := fun _ => 30, disVelY := fun _ => -10, disScale := fun _ => 1 }

/-- Draws of one `Update` call. -/
def sampleDraws : UpdateDraws :=
  { spawn := sampleSpawn, start := sampleInit, restart := sampleInit }

/-- Pool with the ship of client 1 in slot 0, at position (100, 0) with
bounding box of side 40, and an asteroid of scale 60 in slot 1 whose bounding
box overlaps it; every other slot is unused. -/
def shipPool : Pool := fun i =>
  if i = 0 then
    { unusedInst with
      pObject := some TYPE_SHIP, flag := FLAG_ACTIVE, scale := ⟨40, 40⟩, posCurr := ⟨100, 0⟩,
      boundingBox := ⟨⟨80, -20⟩, ⟨120, 20⟩⟩, clientID := 1 }
  else if i = 1 then
    { unusedInst with
      pObject := some TYPE_ASTEROID, flag := FLAG_ACTIVE, scale := ⟨60, 60⟩, posCurr := ⟨130, 0⟩,
      boundingBox := ⟨⟨100, -30⟩, ⟨160, 30⟩⟩ }
  else unusedInst

/-- Running game with peer 1 connected; its player is alive with `lives` lives,
owns the ship in slot 0 of `shipPool` and has the input flags `input`; the
asteroid vector is `asteroids` and there are no bullets. -/
def soloServer (lives : Nat) (input : PlayerInputMessage) (asteroids : List Nat) : GameServer :=
  { server := { isRunning := true, clients := [peerEntryAt 1000 1 5001 11 true],
                nextClientID := 2 },
    isRunning := true, gameInProgress := true, gameStateTimer := 0, gameEndTimer := 0,
    players := [(1, { ship := some 0, isAlive := true, score := 0, lives := lives,
                      lastInput := input })],
    asteroids := asteroids, bullets := [], sGameObjInstList := shipPool }

/-- The state `scorelessServer` after its game has ended: `gameInProgress` is
cleared and `gameEndTimer` holds `GAME_END_DURATION`. -/
def endingServer : GameServer :=
  { scorelessServer with gameInProgress := false, gameEndTimer := GAME_END_DURATION }

/-- Input message of client 1 with only the fire flag set. -/
def fireInput : PlayerInputMessage :=
  { type := MessageType.PLAYER_INPUT, clientID := 1, sequence := 7,
    up := 0, down := 0, left := 0, right := 0, fire := 1 }

/-- The environment `sampleEnv` with the clock reading `now`. -/
def envAt (now : Nat) : NetEnv :=
  { sampleEnv with now := now }

/-- Client table after peer 1 connected from endpoint (5001, 11) at second 1,
disconnected at second 2 and connected again from the same endpoint at second
3, which made it peer 2: the old entry is still in the table, inactive. -/
def reconnectedServer : UDPServer :=
  { isRunning := true,
    clients := [peerEntryAt 1000000000 1 5001 11 false, peerEntryAt 3000000000 2 5001 11 true],
    nextClientID := 3 }

/-! ## GameServer.cpp: the callbacks of the network layer, reachable states -/

/-- Erasure `players.erase(clientID)` on a `std::map`. -/
def mapErase {V : Type} (k : ClientID) (l : List (ClientID × V)) : List (ClientID × V) :=
  l.filter (fun pair => pair.1 != k)

/-- `GameServer::RemovePlayerShip`. -/
def GameServer.RemovePlayerShip (s : GameServer) (clientID : ClientID) : GameServer :=
  match playersFind clientID s.players with
  | none => s
  | some player =>
    match player.ship with
    | none => s
    | some ship =>
      { s with
        sGameObjInstList := gameObjInstDestroy s.sGameObjInstList ship,
        players := modifyPlayer clientID (fun p => { p with ship := none, isAlive := false })
          s.players }

/-- `GameServer::OnClientDisconnect`. -/
def GameServer.OnClientDisconnect (s : GameServer) (clientID : ClientID) : GameServer :=
  -- Remove player ship and data
  let s1 := s.RemovePlayerShip clientID
  let s2 := { s1 with players := mapErase clientID s1.players }
  -- If no players left, end game
  if s2.server.GetClientCount = 0 then { s2 with gameInProgress := false, gameEndTimer := 0 }
  else s2

/-- `GameServer::OnClientConnect`; `none` when the `ResetGame` it calls does not
return.  The `lastInput` of the new record is the default-constructed
`PlayerInputMessage`. -/
def GameServer.OnClientConnect (eng : Engine) (draws : InitDraws) (s : GameServer)
    (clientID : ClientID) : Option GameServer :=
  -- Create player data
  let newPlayer : PlayerData :=
    { ship := none, isAlive := true, score := 0, lives := INITIAL_LIVES,
      lastInput :=
        { type := MessageType.PLAYER_INPUT, clientID := 0, sequence := 0,
          up := 0, down := 0, left := 0, right := 0, fire := 0 } }
  -- Add to players map
  let s1 := { s with players := mapAssign clientID newPlayer s.players }
  -- If game is in progress, add the player to the game
  if s1.gameInProgress then some (s1.CreatePlayerShip eng clientID)
  else if s1.server.GetClientCount = 1 then
    -- First player - start the game
    match s1.ResetGame eng draws with
    | none => none
    | some s2 => some { s2 with gameInProgress := true }
  else some s1

/-- The `GameServer` as its constructor leaves it, over the zero-initialised
static instance array. -/
def GameServer.initial : GameServer :=
  { server := { isRunning := false, clients := [], nextClientID := 1 },
    isRunning := false, gameInProgress := false, gameStateTimer := 0, gameEndTimer := 0,
    players := [], asteroids := [], bullets := [], sGameObjInstList := fun _ => unusedInst }

/-- The server states that sequences of events lead to from the constructed
server.  Between two events the network thread may have changed the `UDPServer`
part in any way (`network`); `start` is what `Initialize` sets; the other
events are the connect and disconnect callbacks for any client id, the message
callback for any buffer, an `Update` call with any `dt` and any random draws,
and a `ResetGame` call. -/
inductive GameServer.Reachable (eng : Engine) : GameServer → Prop
  | initial : GameServer.Reachable eng GameServer.initial
  | network (s : GameServer) (srv : UDPServer) :
      GameServer.Reachable eng s → GameServer.Reachable eng { s with server := srv }
  | start (s : GameServer) :
      GameServer.Reachable eng s →
      GameServer.Reachable eng { s with isRunning := true, gameInProgress := false }
  | connect (s s' : GameServer) (draws : InitDraws) (clientID : ClientID) :
      GameServer.Reachable eng s → s.OnClientConnect eng draws clientID = some s' →
      GameServer.Reachable eng s'
  | disconnect (s : GameServer) (clientID : ClientID) :
      GameServer.Reachable eng s → GameServer.Reachable eng (s.OnClientDisconnect clientID)
  | message (s : GameServer) (clientID : ClientID) (data : List Nat) :
      GameServer.Reachable eng s → GameServer.Reachable eng (s.OnMessage clientID data)
  | tick (s s' : GameServer) (draws : UpdateDraws) (g_dt dt : ℚ) (events : List NetEvent) :
      GameServer.Reachable eng s → s.Update eng draws g_dt dt = some (s', events) →
      GameServer.Reachable eng s'
  | reset (s s' : GameServer) (draws : InitDraws) :
      GameServer.Reachable eng s → s.ResetGame eng draws = some s' →
      GameServer.Reachable eng s'

/-- The constructed server after the connect callback for client 1 while the
client table is still empty: the player is tracked, no game has started. -/
def lobbyServer : GameServer :=
  { GameServer.initial with
    players :=
      [(1, { ship := none, isAlive := true, score := 0, lives := INITIAL_LIVES,
             lastInput :=
               { type := MessageType.PLAYER_INPUT, clientID := 0, sequence := 0,
                 up := 0, down := 0, left := 0, right := 0, fire := 0 } })] }

/-- A player that is alive has between one and `INITIAL_LIVES` lives. -/
def playerLives (pd : PlayerData) : Prop :=
  pd.isAlive = true → 1 ≤ pd.lives ∧ pd.lives ≤ INITIAL_LIVES

/-- A property `P` of player records that the record updates of the server
keep: it holds of the record that `OnClientConnect` inserts; it is kept when
`CreatePlayerShip` stores a ship in the record of a player that is alive, when
`ResetGame` resets a record, when `RemovePlayerShip` clears one, and when the
ship pass of `CheckForCollisions` takes a life from a player that is alive. -/
structure RecordInvariant (P : PlayerData → Prop) : Prop where
  connect :
    P { ship := none, isAlive := true, score := 0, lives := INITIAL_LIVES,
        lastInput :=
          { type := MessageType.PLAYER_INPUT, clientID := 0, sequence := 0,
            up := 0, down := 0, left := 0, right := 0, fire := 0 } }
  ship : ∀ (pd : PlayerData) (ship : Nat), P pd → pd.isAlive = true →
    P { pd with ship := some ship, isAlive := true }
  reset : ∀ pd : PlayerData, P pd →
    P { pd with ship := none, score := 0, lives := INITIAL_LIVES, isAlive := true }
  remove : ∀ pd : PlayerData, P pd → P { pd with ship := none, isAlive := false }
  lastLife : ∀ pd : PlayerData, P pd → pd.isAlive = true → (pd.lives + 255) % 256 ≤ 0 →
    P { pd with lives := (pd.lives + 255) % 256, isAlive := false }
  life : ∀ pd : PlayerData, P pd → pd.isAlive = true → ¬ (pd.lives + 255) % 256 ≤ 0 →
    P { pd with lives := (pd.lives + 255) % 256 }

/-- The property `I` of server states depends on the game data only: the player
map, the two vectors and the two instance arrays. -/
def GameServer.gameOnly (I : GameServer → Prop) : Prop :=
  ∀ s t : GameServer, t.players = s.players → t.asteroids = s.asteroids →
    t.bullets = s.bullets → t.sGameObjInstList = s.sGameObjInstList →
    t.sGameObjInstListOwn = s.sGameObjInstListOwn → I s → I t

/-- The bullet vector of the state satisfies `B`, every tracked player record
satisfies `P`, and the instance array of `GameServer.cpp` is as zero-filled as
static storage starts. -/
@[reducible] def GameServer.keeps (B : List Nat → Prop) (P : PlayerData → Prop) (s : GameServer) : Prop :=
  B s.bullets ∧ (∀ e ∈ s.players, P e.2) ∧ ∀ j, s.sGameObjInstListOwn j = unusedInst

/-- The constructed server after `Initialize`, when the network layer has
entered peer 1 in its client table and the connect callback has not run yet. -/
def listeningServer : GameServer :=
  { GameServer.initial with
    isRunning := true,
    server := { isRunning := true, clients := [peerEntryAt 1000 1 5001 11 true],
                nextClientID := 2 } }

/-- The ship pointers stored in the player map, with multiplicity. -/
def shipPointers (players : List (ClientID × PlayerData)) : Multiset Nat :=
  ((players.filterMap (fun e => e.2.ship) : List Nat) : Multiset Nat)

/-- All instance pointers that the server holds, with multiplicity: the ship
pointers of the players, the asteroid vector and the bullet vector. -/
def GameServer.pointers (s : GameServer) : Multiset Nat :=
  shipPointers s.players + (s.asteroids : Multiset Nat) + (s.bullets : Multiset Nat)

/-- No pointer of `M` occurs twice and each designates a slot of `pool` that is
in use. -/
def Tidy (M : Multiset Nat) (pool : Pool) : Prop :=
  M.Nodup ∧ ∀ i ∈ M, (pool i).flag ≠ 0

/-- Pointer hygiene of a server state: no instance pointer is held twice (no
two players share a ship, no ship is in the asteroid or bullet vector, no
vector holds a pointer twice, no pointer is in both vectors) and every pointer
held designates a slot in use. -/
@[reducible] def GameServer.tidy (s : GameServer) : Prop :=
  Tidy s.pointers s.sGameObjInstList

theorem sweepAxis_none_of_separatedNotClosing (min1 max1 min2 max2 v : ℚ) (t : ℚ × ℚ)
    (h : separatedNotClosing min1 max1 min2 max2 v) :
    sweepAxis min1 max1 min2 max2 v t = none := by
  unfold sweepAxis
  rcases h with ⟨hs, hv⟩ | ⟨hs, hv⟩
  · have h1 : ¬ v < 0 := not_lt.mpr hv
    simp only [h1, if_false]
    split_ifs <;> rfl
  · have h2 : ¬ v > 0 := not_lt.mpr hv
    simp only [h2, if_false]
    split_ifs <;> rfl

/-- C1: boxes that overlap or touch at time zero give `(true, 0)`, for every
pair of velocities, every tick duration and every prior value of the output. -/
theorem C1_static_overlap_true_zero (g_dt : ℚ) (aabb1 aabb2 : AABB) (vel1 vel2 : AEVec2)
    (firstTimeOfCollision : ℚ)
    (h1 : aabb1.max.x ≥ aabb2.min.x) (h2 : aabb1.max.y ≥ aabb2.min.y)
    (h3 : aabb1.min.x ≤ aabb2.max.x) (h4 : aabb1.min.y ≤ aabb2.max.y) :
    CollisionIntersection_RectRect g_dt aabb1 vel1 aabb2 vel2 firstTimeOfCollision
      = (true, 0) := by
  have hns : ¬ staticSeparated aabb1 aabb2 := by
    unfold staticSeparated
    push_neg
    exact ⟨h1, h2, h3, h4⟩
  simp [CollisionIntersection_RectRect, hns]

/-- In the dynamic branch the output variable is never assigned: whenever the
boxes are separated at time zero the value passed out is the value passed in. -/
theorem CollisionIntersection_RectRect_output_untouched (g_dt : ℚ) (aabb1 aabb2 : AABB)
    (vel1 vel2 : AEVec2) (firstTimeOfCollision : ℚ) (hs : staticSeparated aabb1 aabb2) :
    (CollisionIntersection_RectRect g_dt aabb1 vel1 aabb2 vel2 firstTimeOfCollision).2
      = firstTimeOfCollision := by
  simp only [CollisionIntersection_RectRect, hs, if_true]
  split
  · rfl
  · split_ifs
    · rfl
    · split
      · rfl
      · split_ifs <;> rfl

/-- C2 (failing input): box `[0,1]²` at rest, box `[2,3]×[0,1]` approaching with
velocity `(-2,0)`, tick `1`, output variable holding `7` on entry.  The boxes
meet at time `1/2`; the function returns `true` and the output variable still
holds `7`, which is outside `[0, 1]`. -/
theorem C2_output_left_unset :
    CollisionIntersection_RectRect 1 ⟨⟨0, 0⟩, ⟨1, 1⟩⟩ ⟨0, 0⟩ ⟨⟨2, 0⟩, ⟨3, 1⟩⟩ ⟨-2, 0⟩ 7
        = (true, 7) ∧
      ¬ ((0 : ℚ) ≤ 7 ∧ (7 : ℚ) ≤ 1) := by
  constructor
  · norm_num [CollisionIntersection_RectRect, staticSeparated, sweepAxis]
  · norm_num

/-- C3 (failing input): box `[0,1]²` at rest, box `[-1,0]×[2,3]` moving with
velocity `(-1,-1)`, tick `2`.  On the x axis the boxes touch at time zero and
separate at once, on the y axis they do not meet before time `1`; the function
returns `true` although the boxes overlap at no time of the tick. -/
theorem C3_true_without_overlap :
    (CollisionIntersection_RectRect 2 ⟨⟨0, 0⟩, ⟨1, 1⟩⟩ ⟨0, 0⟩ ⟨⟨-1, 2⟩, ⟨0, 3⟩⟩ ⟨-1, -1⟩ 0).1
        = true ∧
      ∀ t : ℚ, 0 ≤ t → t ≤ 2 →
        ¬ overlapAt ⟨⟨0, 0⟩, ⟨1, 1⟩⟩ ⟨0, 0⟩ ⟨⟨-1, 2⟩, ⟨0, 3⟩⟩ ⟨-1, -1⟩ t := by
  constructor
  · norm_num [CollisionIntersection_RectRect, staticSeparated, sweepAxis]
  · intro t h0 _
    simp only [overlapAt, staticSeparated, AABB.translate, not_not]
    by_cases ht : t < 1
    · right; left
      show (1 : ℚ) + 0 * t < 2 + -1 * t
      linarith
    · right; right; left
      show (0 : ℚ) + 0 * t > 0 + -1 * t
      linarith

theorem sweepAxis_window (min1 max1 min2 max2 v : ℚ) (t r : ℚ × ℚ)
    (h : sweepAxis min1 max1 min2 max2 v t = some r)
    (hedge : ¬ touchingAndParting min1 max1 min2 max2 v) :
    t.1 ≤ r.1 ∧ r.2 ≤ t.2 ∧
      ∀ u : ℚ, 0 ≤ u → r.1 ≤ u → u ≤ r.2 → min1 - max2 ≤ v * u ∧ v * u ≤ max1 - min2 := by
  unfold touchingAndParting at hedge
  push_neg at hedge
  obtain ⟨he1, he2⟩ := hedge
  unfold sweepAxis at h
  by_cases hv : v < 0
  · simp only [hv, if_true] at h
    by_cases h1 : min1 > max2
    · simp [h1] at h
    · simp only [h1, if_false, Option.some.injEq] at h
      subst h
      have hne : min1 ≠ max2 := he1 hv
      have h1lt : min1 < max2 := lt_of_le_of_ne (not_lt.mp h1) hne
      simp only [h1lt, if_true]
      refine ⟨?_, min_le_right _ _, ?_⟩
      · split_ifs
        · exact le_max_right _ _
        · exact le_refl _
      · intro u hu0 hu1 hu2
        constructor
        · have : u ≤ (min1 - max2) / v := le_trans hu2 (min_le_left _ _)
          have := (le_div_iff_of_neg hv).mp this
          linarith
        · by_cases h2 : max1 < min2
          · simp only [h2, if_true] at hu1
            have : (max1 - min2) / v ≤ u := le_trans (le_max_left _ _) hu1
            have := (div_le_iff_of_neg hv).mp this
            linarith
          · have : v * u ≤ 0 := mul_nonpos_of_nonpos_of_nonneg (le_of_lt hv) hu0
            linarith [not_lt.mp h2]
  · simp only [hv, if_false] at h
    by_cases hv2 : v > 0
    · simp only [hv2, if_true] at h
      by_cases h2 : max1 < min2
      · simp [h2] at h
      · simp only [h2, if_false, Option.some.injEq] at h
        subst h
        have hne : max1 ≠ min2 := he2 hv2
        have h2lt : max1 > min2 := lt_of_le_of_ne (not_lt.mp h2) (Ne.symm hne)
        simp only [h2lt, if_true]
        refine ⟨?_, min_le_right _ _, ?_⟩
        · split_ifs
          · exact le_max_right _ _
          · exact le_refl _
        · intro u hu0 hu1 hu2
          constructor
          · by_cases h1 : min1 > max2
            · simp only [h1, if_true] at hu1
              have : (min1 - max2) / v ≤ u := le_trans (le_max_left _ _) hu1
              have := (div_le_iff₀ hv2).mp this
              linarith
            · have : 0 ≤ v * u := mul_nonneg (le_of_lt hv2) hu0
              linarith [not_lt.mp h1]
          · have : u ≤ (max1 - min2) / v := le_trans hu2 (min_le_left _ _)
            have := (le_div_iff₀ hv2).mp this
            linarith
    · simp only [hv2, if_false] at h
      have hv0 : v = 0 := le_antisymm (not_lt.mp hv2) (not_lt.mp hv)
      by_cases h2 : max1 < min2
      · simp [h2] at h
      · by_cases h1 : min1 > max2
        · simp [h1, h2] at h
        · simp only [h1, h2, if_false, Option.some.injEq] at h
          subst h
          refine ⟨le_refl _, le_refl _, fun u _ _ _ => ?_⟩
          subst hv0
          constructor <;> linarith [not_lt.mp h1, not_lt.mp h2]

/-- What the swept test does guarantee: for `g_dt ≥ 0`, a `true` result comes
with a time of the tick at which the moving boxes overlap, provided that on
neither axis the boxes touch exactly at time zero while the relative velocity
pulls them apart. -/
theorem CollisionIntersection_RectRect_sound_off_edge (g_dt : ℚ) (aabb1 aabb2 : AABB)
    (vel1 vel2 : AEVec2) (firstTimeOfCollision : ℚ) (hdt : 0 ≤ g_dt)
    (hx : ¬ touchingAndParting aabb1.min.x aabb1.max.x aabb2.min.x aabb2.max.x
      (vel2.x - vel1.x))
    (hy : ¬ touchingAndParting aabb1.min.y aabb1.max.y aabb2.min.y aabb2.max.y
      (vel2.y - vel1.y))
    (h : (CollisionIntersection_RectRect g_dt aabb1 vel1 aabb2 vel2 firstTimeOfCollision).1
      = true) :
    ∃ t : ℚ, 0 ≤ t ∧ t ≤ g_dt ∧ overlapAt aabb1 vel1 aabb2 vel2 t := by
  by_cases hs : staticSeparated aabb1 aabb2
  · simp only [CollisionIntersection_RectRect, hs, if_true] at h
    cases hsx : sweepAxis aabb1.min.x aabb1.max.x aabb2.min.x aabb2.max.x (vel2.x - vel1.x)
        (0, g_dt) with
    | none => rw [hsx] at h; simp at h
    | some tx =>
      rw [hsx] at h
      simp only at h
      by_cases h6 : tx.1 > tx.2
      · simp [h6] at h
      · simp only [h6, if_false] at h
        cases hsy : sweepAxis aabb1.min.y aabb1.max.y aabb2.min.y aabb2.max.y (vel2.y - vel1.y)
            tx with
        | none => rw [hsy] at h; simp at h
        | some ty =>
          rw [hsy] at h
          simp only at h
          by_cases h6y : ty.1 > ty.2
          · simp [h6y] at h
          · obtain ⟨hx1, hx2, hxw⟩ := sweepAxis_window _ _ _ _ _ _ _ hsx hx
            obtain ⟨hy1, hy2, hyw⟩ := sweepAxis_window _ _ _ _ _ _ _ hsy hy
            simp only at hx1 hx2
            have h0 : 0 ≤ ty.1 := le_trans hx1 hy1
            have hle : ty.1 ≤ ty.2 := not_lt.mp h6y
            obtain ⟨hxa, hxb⟩ := hxw ty.1 h0 hy1 (le_trans hle hy2)
            obtain ⟨hya, hyb⟩ := hyw ty.1 h0 (le_refl _) hle
            refine ⟨ty.1, h0, le_trans hle (le_trans hy2 hx2), ?_⟩
            simp only [overlapAt, staticSeparated, AABB.translate, not_or, not_lt]
            refine ⟨?_, ?_, ?_, ?_⟩ <;> nlinarith
  · refine ⟨0, le_refl _, hdt, ?_⟩
    simpa [overlapAt, staticSeparated, AABB.translate] using hs

/-- C4: when on some axis the boxes are strictly separated and the relative
velocity `vel2 - vel1` on that axis is zero or widens the gap (so the boxes do
not overlap at time zero either), the function returns `false`, for every
tick duration, and leaves the output variable as it was. -/
theorem C4_separating_false (g_dt : ℚ) (aabb1 aabb2 : AABB) (vel1 vel2 : AEVec2)
    (firstTimeOfCollision : ℚ)
    (h : separatedNotClosing aabb1.min.x aabb1.max.x aabb2.min.x aabb2.max.x (vel2.x - vel1.x) ∨
         separatedNotClosing aabb1.min.y aabb1.max.y aabb2.min.y aabb2.max.y (vel2.y - vel1.y)) :
    CollisionIntersection_RectRect g_dt aabb1 vel1 aabb2 vel2 firstTimeOfCollision
      = (false, firstTimeOfCollision) := by
  have hs : staticSeparated aabb1 aabb2 := by
    unfold staticSeparated
    rcases h with (⟨h1, _⟩ | ⟨h1, _⟩) | (⟨h1, _⟩ | ⟨h1, _⟩)
    · exact Or.inl h1
    · exact Or.inr (Or.inr (Or.inl h1))
    · exact Or.inr (Or.inl h1)
    · exact Or.inr (Or.inr (Or.inr h1))
  simp only [CollisionIntersection_RectRect, hs, if_true]
  rcases h with hx | hy
  · rw [sweepAxis_none_of_separatedNotClosing _ _ _ _ _ _ hx]
  · split
    · rfl
    · split_ifs
      · rfl
      · rw [sweepAxis_none_of_separatedNotClosing _ _ _ _ _ _ hy]

/-! ### Instance pool -/

theorem findUnusedInst_some (pool : Pool) (n i k : Nat)
    (h : findUnusedInst pool n i = some k) :
    i ≤ k ∧ k < i + n ∧ (pool k).flag = 0 ∧ ∀ j, i ≤ j → j < k → (pool j).flag ≠ 0 := by
  induction n generalizing i with
  | zero => simp [findUnusedInst] at h
  | succ n ih =>
    unfold findUnusedInst at h
    by_cases hf : (pool i).flag = 0
    · simp only [hf, if_true, Option.some.injEq] at h
      subst h
      exact ⟨le_refl _, by omega, hf, fun j h1 h2 => by omega⟩
    · simp only [hf, if_false] at h
      obtain ⟨h1, h2, h3, h4⟩ := ih (i + 1) h
      refine ⟨by omega, by omega, h3, fun j hj1 hj2 => ?_⟩
      by_cases hji : j = i
      · subst hji; exact hf
      · exact h4 j (by omega) hj2

theorem findUnusedInst_none (pool : Pool) (n i : Nat) :
    findUnusedInst pool n i = none ↔ ∀ j, i ≤ j → j < i + n → (pool j).flag ≠ 0 := by
  induction n generalizing i with
  | zero =>
    simp only [findUnusedInst, true_iff]
    intro j h1 h2
    omega
  | succ n ih =>
    unfold findUnusedInst
    by_cases hf : (pool i).flag = 0
    · simp only [hf, if_true]
      constructor
      · intro h; cases h
      · intro h; exact absurd hf (h i (le_refl _) (by omega))
    · simp only [hf, if_false]
      rw [ih]
      constructor
      · intro h j h1 h2
        by_cases hji : j = i
        · subst hji; exact hf
        · exact h j (by omega) (by omega)
      · intro h j h1 h2
        exact h j (by omega) (by omega)

/-- C5: with an unused slot in the pool, `gameObjInstCreate` returns the
lowest-index slot whose flag is `0`, makes it active with the given template,
scale, direction, position and velocity (zero for a null pointer), and leaves
every other slot as it was.  This holds for every `type`, in particular for
those below `sGameObjNum`. -/
theorem C5_create_uses_first_unused (pool : Pool) (type : Nat) (scale : AEVec2)
    (pPos pVel : Option AEVec2) (dir : ℚ)
    (h : ∃ k, k < GAME_OBJ_INST_NUM_MAX ∧ (pool k).flag = 0) :
    ∃ i, i < GAME_OBJ_INST_NUM_MAX ∧ (pool i).flag = 0 ∧ (∀ j, j < i → (pool j).flag ≠ 0) ∧
      (gameObjInstCreate pool type scale pPos pVel dir).2 = some i ∧
      ((gameObjInstCreate pool type scale pPos pVel dir).1 i).flag = FLAG_ACTIVE ∧
      ((gameObjInstCreate pool type scale pPos pVel dir).1 i).pObject = some type ∧
      ((gameObjInstCreate pool type scale pPos pVel dir).1 i).scale = scale ∧
      ((gameObjInstCreate pool type scale pPos pVel dir).1 i).dirCurr = dir ∧
      ((gameObjInstCreate pool type scale pPos pVel dir).1 i).posCurr
        = (match pPos with | some v => v | none => ⟨0, 0⟩) ∧
      ((gameObjInstCreate pool type scale pPos pVel dir).1 i).velCurr
        = (match pVel with | some v => v | none => ⟨0, 0⟩) ∧
      ∀ j, j ≠ i → (gameObjInstCreate pool type scale pPos pVel dir).1 j = pool j := by
  obtain ⟨k, hk, hkf⟩ := h
  cases hfind : findUnusedInst pool GAME_OBJ_INST_NUM_MAX 0 with
  | none =>
    have := (findUnusedInst_none pool GAME_OBJ_INST_NUM_MAX 0).mp hfind k (Nat.zero_le _)
      (by omega)
    exact absurd hkf this
  | some i =>
    obtain ⟨_, h2, h3, h4⟩ := findUnusedInst_some pool _ _ _ hfind
    refine ⟨i, by omega, h3, fun j hj => h4 j (Nat.zero_le _) hj, ?_⟩
    simp only [gameObjInstCreate, hfind, Function.update_same, true_and]
    refine ⟨?_, ?_, fun j hj => Function.update_noteq hj _ _⟩
    · cases pPos <;> rfl
    · cases pVel <;> rfl

/-- C6: when none of the `GAME_OBJ_INST_NUM_MAX` slots has flag `0`,
`gameObjInstCreate` returns the null pointer and the pool is unchanged. -/
theorem C6_create_on_full_pool (pool : Pool) (type : Nat) (scale : AEVec2)
    (pPos pVel : Option AEVec2) (dir : ℚ)
    (h : ∀ i, i < GAME_OBJ_INST_NUM_MAX → (pool i).flag ≠ 0) :
    gameObjInstCreate pool type scale pPos pVel dir = (pool, none) := by
  have hfind : findUnusedInst pool GAME_OBJ_INST_NUM_MAX 0 = none :=
    (findUnusedInst_none pool GAME_OBJ_INST_NUM_MAX 0).mpr
      (fun j _ hj => h j (by omega))
  simp only [gameObjInstCreate, hfind]

theorem gameObjInstDestroy_of_unused (pool : Pool) (pInst : Nat)
    (h : (pool pInst).flag = 0) : gameObjInstDestroy pool pInst = pool := by
  simp [gameObjInstDestroy, h]

/-- C7: `gameObjInstDestroy` changes nothing on a slot whose flag is `0`; on
any other slot it sets that slot's flag to `0` and nothing else; it never
touches another slot; and destroying twice equals destroying once. -/
theorem C7_destroy_idempotent_local (pool : Pool) (pInst : Nat) :
    ((pool pInst).flag = 0 → gameObjInstDestroy pool pInst = pool) ∧
    ((pool pInst).flag ≠ 0 →
      gameObjInstDestroy pool pInst pInst = { pool pInst with flag := 0 }) ∧
    (∀ j, j ≠ pInst → gameObjInstDestroy pool pInst j = pool j) ∧
    gameObjInstDestroy (gameObjInstDestroy pool pInst) pInst
      = gameObjInstDestroy pool pInst := by
  refine ⟨?_, ?_, ?_, ?_⟩
  · intro h
    simp [gameObjInstDestroy, h]
  · intro h
    simp [gameObjInstDestroy, h]
  · intro j hj
    unfold gameObjInstDestroy
    split_ifs
    · rfl
    · exact Function.update_noteq hj _ _
  · by_cases h : (pool pInst).flag = 0
    · simp [gameObjInstDestroy, h]
    · have h2 : (gameObjInstDestroy pool pInst pInst).flag = 0 := by
        simp [gameObjInstDestroy, h]
      exact gameObjInstDestroy_of_unused _ _ h2

/-! ### Connection admission -/

theorem countActive_le (l : List (ClientID × ClientConnection)) (n : Nat) :
    l.foldl (fun count pair => if pair.2.active then count + 1 else count) n ≤ n + l.length := by
  induction l generalizing n with
  | nil => simp
  | cons pair rest ih =>
    simp only [List.foldl_cons, List.length_cons]
    split_ifs
    · have := ih (n + 1); omega
    · have := ih n; omega

theorem findConnected_none (clientAddr : sockaddr_in) (l : List (ClientID × ClientConnection))
    (h : ∀ pair ∈ l, ¬ (pair.2.address.s_addr = clientAddr.s_addr ∧
        pair.2.address.sin_port = clientAddr.sin_port ∧ pair.2.active = true)) :
    findConnected clientAddr l = none := by
  induction l with
  | nil => rfl
  | cons pair rest ih =>
    have hp := h pair (List.mem_cons_self _ _)
    have hm : matchesActive clientAddr pair.2 = false := by
      simp only [matchesActive, Bool.and_eq_false_imp, Bool.and_eq_true, decide_eq_true_eq]
      intro ⟨ha, hb⟩
      by_contra hc
      exact hp ⟨ha, hb, by simpa using hc⟩
    simp only [findConnected, hm]
    exact ih (fun q hq => h q (List.mem_cons_of_mem _ hq))

/-- C9: with four active peers in the table, a connection request from an
address that matches no active peer is answered with one `CONNECT_REJECT`
datagram and `false`; the table and `nextClientID` are unchanged and no
callback is invoked. -/
theorem C9_fifth_peer_rejected (env : NetEnv) (srv : UDPServer) (clientAddr : sockaddr_in)
    (hfour : srv.GetClientCount = 4)
    (hnew : ∀ pair ∈ srv.clients, ¬ (pair.2.address.s_addr = clientAddr.s_addr ∧
        pair.2.address.sin_port = clientAddr.sin_port ∧ pair.2.active = true)) :
    srv.HandleConnectionRequest env clientAddr
      = (srv,
         [NetEvent.sendto_NetworkMessage
            { type := MessageType.CONNECT_REJECT, clientID := 0, sequence := 0 } clientAddr],
         false) := by
  have hlen : srv.clients.length ≥ 4 := by
    have := countActive_le srv.clients 0
    unfold UDPServer.GetClientCount at hfour
    omega
  simp only [UDPServer.HandleConnectionRequest, findConnected_none clientAddr _ hnew, hlen,
    if_true]

/-- What the admission code does guarantee: when the table holds fewer than
four entries, active or not, a request from an address that matches no active
peer is accepted under the id `nextClientID`. -/
theorem HandleConnectionRequest_accepts_below_table_cap (env : NetEnv) (srv : UDPServer)
    (clientAddr : sockaddr_in) (hlen : srv.clients.length < 4)
    (hnew : ∀ pair ∈ srv.clients, ¬ (pair.2.address.s_addr = clientAddr.s_addr ∧
        pair.2.address.sin_port = clientAddr.sin_port ∧ pair.2.active = true)) :
    ∃ newClient : ClientConnection,
      newClient.address = clientAddr ∧ newClient.id = srv.nextClientID ∧
      newClient.active = true ∧ newClient.lastHeartbeatTime = env.now ∧
      srv.HandleConnectionRequest env clientAddr
        = ({ srv with
             clients := mapAssign srv.nextClientID newClient srv.clients,
             nextClientID := (srv.nextClientID + 1) % 256 },
           [NetEvent.sendto_ConnectAccept
              { type := MessageType.CONNECT_ACCEPT, clientID := 0, sequence := 0,
                assignedID := srv.nextClientID,
                totalPlayers := (mapAssign srv.nextClientID newClient srv.clients).length % 256 }
              clientAddr,
            NetEvent.onClientConnect srv.nextClientID],
           true) := by
  have hcap : ¬ srv.clients.length ≥ 4 := by omega
  refine ⟨{ address := clientAddr, id := srv.nextClientID, active := true,
             lastReceivedSequence := 0, lastHeartbeatTime := env.now,
             ip := env.inet_ntop clientAddr.s_addr, port := env.ntohs clientAddr.sin_port },
    rfl, rfl, rfl, rfl, ?_⟩
  simp only [UDPServer.HandleConnectionRequest, findConnected_none clientAddr _ hnew, hcap,
    if_false]

/-- C10 (failing input): the table holds four entries, all inactive (peers with
ids 1 to 4 that disconnected), and `nextClientID` is 5.  No peer is active, yet
a request from a new address is answered with `CONNECT_REJECT` and `false`, the
table is unchanged and no callback is invoked. -/
theorem C10_rejects_with_no_active_peer (env : NetEnv) :
    fourGone.GetClientCount = 0 ∧
    fourGone.HandleConnectionRequest env ⟨2, 6000, 99⟩
      = (fourGone,
         [NetEvent.sendto_NetworkMessage
            { type := MessageType.CONNECT_REJECT, clientID := 0, sequence := 0 } ⟨2, 6000, 99⟩],
         false) := by
  constructor
  · rfl
  · rfl

/-! ### Scoring in the bullet pass -/

theorem playersFind_awardPoints (P c : ClientID) (l : List (ClientID × PlayerData)) :
    playersFind P (awardPoints c l)
      = if P = c then
          (playersFind P l).map (fun pd => { pd with score := (pd.score + 100) % 2 ^ 32 })
        else playersFind P l := by
  induction l with
  | nil => simp [playersFind, awardPoints]
  | cons pair rest ih =>
    unfold awardPoints
    by_cases h1 : pair.1 = c
    · by_cases h2 : P = c
      · subst h2
        simp [playersFind, h1]
      · have h3 : ¬ pair.1 = P := fun h => h2 (h ▸ h1)
        have h4 : ¬ c = P := fun h => h2 h.symm
        simp [playersFind, h1, h2, h4]
    · simp only [h1, if_false, playersFind]
      by_cases h3 : pair.1 = P
      · have h2 : ¬ P = c := fun h => h1 (h ▸ h3)
        simp [h3, h2]
      · simp only [h3, if_false, ih]

theorem awardPoints_keys (c : ClientID) (l : List (ClientID × PlayerData)) :
    (awardPoints c l).map Prod.fst = l.map Prod.fst := by
  induction l with
  | nil => rfl
  | cons pair rest ih =>
    unfold awardPoints
    split_ifs
    · rfl
    · simp only [List.map_cons, ih]

theorem gameObjInstCreate_clientID (pool : Pool) (type : Nat) (scale : AEVec2)
    (pPos pVel : Option AEVec2) (dir : ℚ) (j : Nat) :
    ((gameObjInstCreate pool type scale pPos pVel dir).1 j).clientID = (pool j).clientID := by
  unfold gameObjInstCreate
  split
  · rename_i i _
    by_cases hj : j = i
    · subst hj; simp
    · simp [Function.update_noteq hj]
  · rfl

theorem CreateAsteroid_players (s : GameServer) (x y velX velY scale : ℚ) :
    (s.CreateAsteroid x y velX velY scale).players = s.players := by
  dsimp only [GameServer.CreateAsteroid]
  split <;> rfl

theorem CreateAsteroid_clientID (s : GameServer) (x y velX velY scale : ℚ) (j : Nat) :
    ((s.CreateAsteroid x y velX velY scale).sGameObjInstList j).clientID
      = (s.sGameObjInstList j).clientID := by
  have h := gameObjInstCreate_clientID s.sGameObjInstList TYPE_ASTEROID ⟨scale, scale⟩
    (some ⟨x, y⟩) (some ⟨velX, velY⟩) 0 j
  dsimp only [GameServer.CreateAsteroid]
  split
  · rename_i pool asteroid heq
    simp only
    rw [heq] at h
    exact h
  · rename_i pool heq
    simp only
    rw [heq] at h
    exact h

theorem SplitAsteroid_players (sqrtf : ℚ → ℚ) (s : GameServer) (asteroid : Option Nat) :
    (s.SplitAsteroid sqrtf asteroid).players = s.players := by
  dsimp only [GameServer.SplitAsteroid]
  split
  · rfl
  · split_ifs <;> first | rfl | simp only [CreateAsteroid_players]

theorem SplitAsteroid_clientID (sqrtf : ℚ → ℚ) (s : GameServer) (asteroid : Option Nat)
    (j : Nat) :
    ((s.SplitAsteroid sqrtf asteroid).sGameObjInstList j).clientID
      = (s.sGameObjInstList j).clientID := by
  dsimp only [GameServer.SplitAsteroid]
  split
  · rfl
  · split_ifs <;> first | rfl | simp only [CreateAsteroid_clientID]

theorem resolveBulletHit_players (sqrtf : ℚ → ℚ) (s : GameServer) (bi bullet ai asteroid : Nat) :
    (s.resolveBulletHit sqrtf bi bullet ai asteroid).1.players
      = awardPoints (s.sGameObjInstList bullet).clientID s.players := by
  simp only [GameServer.resolveBulletHit]
  split_ifs
  · simp only [SplitAsteroid_players]
  · rfl

theorem resolveBulletHit_owner (sqrtf : ℚ → ℚ) (s : GameServer) (bi bullet ai asteroid : Nat) :
    (s.resolveBulletHit sqrtf bi bullet ai asteroid).2
      = (s.sGameObjInstList bullet).clientID := by
  simp only [GameServer.resolveBulletHit]
  split_ifs
  · simp only [SplitAsteroid_clientID]
  · rfl

theorem resolveBulletHit_bullets (sqrtf : ℚ → ℚ) (s : GameServer) (bi bullet ai asteroid : Nat) :
    (s.resolveBulletHit sqrtf bi bullet ai asteroid).1.bullets = s.bullets.eraseIdx bi := by
  simp only [GameServer.resolveBulletHit, GameServer.SplitAsteroid, GameServer.CreateAsteroid]
  repeat' split
  all_goals rfl

theorem bulletPass_unfold (sqrtf : ℚ → ℚ) (g_dt : ℚ) (s : GameServer) (bi : Nat) :
    s.bulletPass sqrtf g_dt bi
      = if h : bi < s.bullets.length then
          match findBulletHit g_dt s.sGameObjInstList (s.bullets.get ⟨bi, h⟩) s.asteroids 0 with
          | some (ai, asteroid) =>
            (((s.resolveBulletHit sqrtf bi (s.bullets.get ⟨bi, h⟩) ai asteroid).1.bulletPass
                sqrtf g_dt bi).1,
             (s.resolveBulletHit sqrtf bi (s.bullets.get ⟨bi, h⟩) ai asteroid).2 ::
               ((s.resolveBulletHit sqrtf bi (s.bullets.get ⟨bi, h⟩) ai asteroid).1.bulletPass
                sqrtf g_dt bi).2)
          | none => s.bulletPass sqrtf g_dt (bi + 1)
        else (s, []) := by
  rw [GameServer.bulletPass]
  rfl

theorem bulletPass_scores (sqrtf : ℚ → ℚ) (g_dt : ℚ) (n : Nat) :
    ∀ (s : GameServer) (bi : Nat), s.bullets.length - bi ≤ n →
      ∀ (P : ClientID) (pd : PlayerData), playersFind P s.players = some pd →
        ∃ pd', playersFind P (s.bulletPass sqrtf g_dt bi).1.players = some pd' ∧
          pd'.score % 2 ^ 32
            = (pd.score + 100 * (s.bulletPass sqrtf g_dt bi).2.count P) % 2 ^ 32 ∧
          (pd.score < 2 ^ 32 → pd'.score < 2 ^ 32) := by
  induction n with
  | zero =>
    intro s bi hn P pd hP
    have hlt : ¬ bi < s.bullets.length := by omega
    rw [bulletPass_unfold]
    simp only [hlt, dif_neg, not_false_eq_true]
    exact ⟨pd, hP, by simp, fun h => h⟩
  | succ n ih =>
    intro s bi hn P pd hP
    rw [bulletPass_unfold]
    by_cases hlt : bi < s.bullets.length
    · simp only [hlt, dif_pos]
      split
      · rename_i ai asteroid hhit
        have hlen : (s.resolveBulletHit sqrtf bi (s.bullets.get ⟨bi, hlt⟩) ai asteroid).1.bullets.length
            - bi ≤ n := by
          rw [resolveBulletHit_bullets, List.length_eraseIdx]
          simp only [hlt, if_true]
          omega
        have hfind := playersFind_awardPoints P
          (s.sGameObjInstList (s.bullets.get ⟨bi, hlt⟩)).clientID s.players
        rw [← resolveBulletHit_players sqrtf s bi _ ai asteroid, hP] at hfind
        by_cases hown : P = (s.sGameObjInstList (s.bullets.get ⟨bi, hlt⟩)).clientID
        · simp only [hown, if_true, Option.map_some'] at hfind
          rw [← hown] at hfind
          obtain ⟨pd', h1, h2, h3⟩ := ih _ bi hlen P _ hfind
          refine ⟨pd', h1, ?_, fun hb => h3 (Nat.mod_lt _ (by norm_num))⟩
          rw [h2, resolveBulletHit_owner, ← hown, List.count_cons_self]
          simp only
          omega
        · simp only [hown, if_false] at hfind
          obtain ⟨pd', h1, h2, h3⟩ := ih _ bi hlen P _ hfind
          refine ⟨pd', h1, ?_, h3⟩
          rw [h2, resolveBulletHit_owner]
          simp only [List.count_cons_of_ne hown]
      · exact ih s (bi + 1) (by omega) P pd hP
    · simp only [hlt, dif_neg, not_false_eq_true]
      exact ⟨pd, hP, by simp, fun h => h⟩

theorem bulletPass_keys (sqrtf : ℚ → ℚ) (g_dt : ℚ) (n : Nat) :
    ∀ (s : GameServer) (bi : Nat), s.bullets.length - bi ≤ n →
      (s.bulletPass sqrtf g_dt bi).1.players.map Prod.fst = s.players.map Prod.fst := by
  induction n with
  | zero =>
    intro s bi hn
    have hlt : ¬ bi < s.bullets.length := by omega
    rw [bulletPass_unfold]
    simp only [hlt, dif_neg, not_false_eq_true]
  | succ n ih =>
    intro s bi hn
    rw [bulletPass_unfold]
    by_cases hlt : bi < s.bullets.length
    · simp only [hlt, dif_pos]
      split
      · rename_i ai asteroid hhit
        have hlen : (s.resolveBulletHit sqrtf bi (s.bullets.get ⟨bi, hlt⟩) ai asteroid).1.bullets.length
            - bi ≤ n := by
          rw [resolveBulletHit_bullets, List.length_eraseIdx]
          simp only [hlt, if_true]
          omega
        simp only
        rw [ih _ bi hlen, resolveBulletHit_players, awardPoints_keys]
      · exact ih s (bi + 1) (by omega)
    · simp only [hlt, dif_neg, not_false_eq_true]

/-! ### Scoring in the ship pass -/

theorem shipAsteroidLoop_score (g_dt : ℚ) (ship : Nat) (player : PlayerData) (pool : Pool)
    (asteroids : List Nat) :
    (shipAsteroidLoop g_dt ship player pool asteroids).1.score = player.score := by
  induction asteroids with
  | nil => rfl
  | cons asteroid rest ih =>
    simp only [shipAsteroidLoop]
    split_ifs
    · rfl
    · rfl
    · exact ih

theorem shipPass_keys (g_dt : ℚ) (asteroids : List Nat) (l : List (ClientID × PlayerData))
    (pool : Pool) :
    (shipPass g_dt asteroids l pool).1.map Prod.fst = l.map Prod.fst := by
  induction l generalizing pool with
  | nil => rfl
  | cons pair rest ih =>
    simp only [shipPass, List.map_cons, ih]

theorem shipPass_score (g_dt : ℚ) (asteroids : List Nat) (P : ClientID)
    (l : List (ClientID × PlayerData)) (pool : Pool) (pd : PlayerData)
    (h : playersFind P l = some pd) :
    ∃ pd', playersFind P (shipPass g_dt asteroids l pool).1 = some pd' ∧
      pd'.score = pd.score := by
  induction l generalizing pool with
  | nil => simp [playersFind] at h
  | cons pair rest ih =>
    simp only [shipPass, playersFind]
    simp only [playersFind] at h
    by_cases hk : pair.1 = P
    · simp only [hk, if_true, Option.some.injEq] at h ⊢
      subst h
      refine ⟨_, rfl, ?_⟩
      split
      · split_ifs
        · exact shipAsteroidLoop_score _ _ _ _ _
        · rfl
      · rfl
    · simp only [hk, if_false] at h ⊢
      exact ih _ h

/-! ### Scoring of one run of `CheckForCollisions` -/

theorem CheckForCollisions_score_mod (sqrtf : ℚ → ℚ) (g_dt : ℚ) (s : GameServer)
    (P : ClientID) (pd : PlayerData) (hP : playersFind P s.players = some pd) :
    ∃ pd', playersFind P (s.CheckForCollisions sqrtf g_dt).1.players = some pd' ∧
      pd'.score % 2 ^ 32
        = (pd.score + 100 * (s.CheckForCollisions sqrtf g_dt).2.count P) % 2 ^ 32 ∧
      (pd.score < 2 ^ 32 → pd'.score < 2 ^ 32) := by
  obtain ⟨pd1, h1, h2, h3⟩ := bulletPass_scores sqrtf g_dt _ s 0 (le_refl _) P pd hP
  obtain ⟨pd2, h4, h5⟩ := shipPass_score g_dt (s.bulletPass sqrtf g_dt 0).1.asteroids P _
    (s.bulletPass sqrtf g_dt 0).1.sGameObjInstList pd1 h1
  refine ⟨pd2, h4, ?_, ?_⟩
  · rw [h5]; exact h2
  · rw [h5]; exact h3

theorem CheckForCollisions_keys (sqrtf : ℚ → ℚ) (g_dt : ℚ) (s : GameServer) :
    (s.CheckForCollisions sqrtf g_dt).1.players.map Prod.fst = s.players.map Prod.fst := by
  simp only [GameServer.CheckForCollisions, shipPass_keys]
  exact bulletPass_keys sqrtf g_dt _ s 0 (le_refl _)

/-- The statements of `CheckForCollisions`, run one after the other: the set of
tracked players is kept, and the score of each tracked player `P` becomes the
old score plus 100 times the number of hits of bullets whose `clientID` is `P`,
reduced modulo `2 ^ 32` (the score is a `uint32_t`). -/
theorem CheckForCollisions_score_credit (sqrtf : ℚ → ℚ) (g_dt : ℚ) (s : GameServer)
    (P : ClientID) (pd : PlayerData) (hP : playersFind P s.players = some pd)
    (hty : pd.score < 2 ^ 32) :
    (s.CheckForCollisions sqrtf g_dt).1.players.map Prod.fst = s.players.map Prod.fst ∧
    ∃ pd', playersFind P (s.CheckForCollisions sqrtf g_dt).1.players = some pd' ∧
      pd'.score = (pd.score + 100 * (s.CheckForCollisions sqrtf g_dt).2.count P) % 2 ^ 32 ∧
      (pd.score + 100 * (s.CheckForCollisions sqrtf g_dt).2.count P < 2 ^ 32 →
        pd'.score = pd.score + 100 * (s.CheckForCollisions sqrtf g_dt).2.count P) := by
  refine ⟨CheckForCollisions_keys sqrtf g_dt s, ?_⟩
  obtain ⟨pd', h1, h2, h3⟩ := CheckForCollisions_score_mod sqrtf g_dt s P pd hP
  have h4 : pd'.score = (pd.score + 100 * (s.CheckForCollisions sqrtf g_dt).2.count P) % 2 ^ 32 := by
    rw [← h2]
    exact (Nat.mod_eq_of_lt (h3 hty)).symm
  exact ⟨pd', h1, h4, fun hlt => by rw [h4]; exact Nat.mod_eq_of_lt hlt⟩

/-! ### Instances of the theorems that carry hypotheses -/

/-- C1 at a concrete input: box `[0,2]²` and box `[2,3]×[1,4]` touch along an
edge; the result is `(true, 0)` although the output variable held `5`. -/
theorem C1_witness :
    CollisionIntersection_RectRect (1 / 60) ⟨⟨0, 0⟩, ⟨2, 2⟩⟩ ⟨3, -1⟩ ⟨⟨2, 1⟩, ⟨3, 4⟩⟩ ⟨0, 7⟩ 5
      = (true, 0) :=
  C1_static_overlap_true_zero (1 / 60) ⟨⟨0, 0⟩, ⟨2, 2⟩⟩ ⟨⟨2, 1⟩, ⟨3, 4⟩⟩ ⟨3, -1⟩ ⟨0, 7⟩ 5
    (by norm_num) (by norm_num) (by norm_num) (by norm_num)

/-- C4 at a concrete input: box `[0,1]²` lies left of box `[2,3]×[0,1]`, which
moves right; the result is `false`. -/
theorem C4_witness :
    CollisionIntersection_RectRect 10 ⟨⟨0, 0⟩, ⟨1, 1⟩⟩ ⟨0, 0⟩ ⟨⟨2, 0⟩, ⟨3, 1⟩⟩ ⟨1, 0⟩ 5
      = (false, 5) :=
  C4_separating_false 10 ⟨⟨0, 0⟩, ⟨1, 1⟩⟩ ⟨⟨2, 0⟩, ⟨3, 1⟩⟩ ⟨0, 0⟩ ⟨1, 0⟩ 5
    (Or.inl (Or.inl ⟨by norm_num, by norm_num⟩))

/-- C5 at a concrete input: in `duelPool` slots 0 and 1 are in use and slot 2
is the first unused one; creating an asteroid without position and velocity
returns slot 2. -/
theorem C5_witness :
    (gameObjInstCreate duelPool TYPE_ASTEROID ⟨12, 12⟩ none none 0).2 = some 2 ∧
    ((gameObjInstCreate duelPool TYPE_ASTEROID ⟨12, 12⟩ none none 0).1 2).flag = FLAG_ACTIVE ∧
    ((gameObjInstCreate duelPool TYPE_ASTEROID ⟨12, 12⟩ none none 0).1 2).posCurr = ⟨0, 0⟩ ∧
    (gameObjInstCreate duelPool TYPE_ASTEROID ⟨12, 12⟩ none none 0).1 0 = duelPool 0 := by
  obtain ⟨i, _, hfree, hlow, hret, hflag, _, _, _, hpos, _, hother⟩ :=
    C5_create_uses_first_unused duelPool TYPE_ASTEROID ⟨12, 12⟩ none none 0
      ⟨2, by decide, rfl⟩
  have hi : i = 2 := by
    rcases Nat.lt_trichotomy i 2 with h | h | h
    · interval_cases i
      · simp [duelPool, FLAG_ACTIVE] at hfree
      · simp [duelPool, FLAG_ACTIVE] at hfree
    · exact h
    · exact absurd rfl (hlow 2 h)
  subst hi
  exact ⟨hret, hflag, hpos, hother 0 (by decide)⟩

/-- C6 at a concrete input: on the pool whose slots are all in use the call
returns the null pointer and the same pool. -/
theorem C6_witness :
    gameObjInstCreate fullPool TYPE_BULLET ⟨20, 3⟩ (some ⟨1, 2⟩) none 0 = (fullPool, none) :=
  C6_create_on_full_pool fullPool TYPE_BULLET ⟨20, 3⟩ (some ⟨1, 2⟩) none 0
    (fun _ _ => by simp [fullPool, FLAG_ACTIVE])

/-- C9 at a concrete input: peers 1 to 4 are active and a fifth address asks
to connect. -/
theorem C9_witness :
    fourPeers.HandleConnectionRequest sampleEnv ⟨2, 6000, 99⟩
      = (fourPeers,
         [NetEvent.sendto_NetworkMessage
            { type := MessageType.CONNECT_REJECT, clientID := 0, sequence := 0 } ⟨2, 6000, 99⟩],
         false) :=
  C9_fifth_peer_rejected sampleEnv fourPeers ⟨2, 6000, 99⟩ rfl (by decide)

/-! ### Repeated connection requests -/

theorem findConnected_of_unique (clientAddr : sockaddr_in)
    (l : List (ClientID × ClientConnection)) (k : ClientID)
    (hex : ∃ pair ∈ l, pair.1 = k ∧ pair.2.address.s_addr = clientAddr.s_addr ∧
        pair.2.address.sin_port = clientAddr.sin_port ∧ pair.2.active = true)
    (huniq : ∀ pair ∈ l, pair.2.address.s_addr = clientAddr.s_addr →
        pair.2.address.sin_port = clientAddr.sin_port → pair.2.active = true → pair.1 = k) :
    findConnected clientAddr l = some k := by
  induction l with
  | nil =>
    obtain ⟨pair, hmem, _⟩ := hex
    cases hmem
  | cons head rest ih =>
    unfold findConnected
    by_cases hm : matchesActive clientAddr head.2 = true
    · simp only [hm, if_true, Option.some.injEq]
      simp only [matchesActive, Bool.and_eq_true, decide_eq_true_eq] at hm
      exact huniq head (List.mem_cons_self _ _) hm.1.1 hm.1.2 hm.2
    · simp only [hm, if_false]
      apply ih
      · obtain ⟨pair, hmem, hk, ha, hp, hact⟩ := hex
        rcases List.mem_cons.mp hmem with heq | hin
        · subst heq
          exact absurd (by simp [matchesActive, ha, hp, hact]) hm
        · exact ⟨pair, hin, hk, ha, hp, hact⟩
      · exact fun pair hin => huniq pair (List.mem_cons_of_mem _ hin)

theorem HandleConnectionRequest_of_connected (env : NetEnv) (srv : UDPServer)
    (clientAddr : sockaddr_in) (k : ClientID)
    (h : findConnected clientAddr srv.clients = some k) :
    srv.HandleConnectionRequest env clientAddr
      = (srv,
         [NetEvent.sendto_ConnectAccept
            { type := MessageType.CONNECT_ACCEPT, clientID := 0, sequence := 0,
              assignedID := k, totalPlayers := srv.clients.length % 256 } clientAddr],
         true) := by
  simp only [UDPServer.HandleConnectionRequest, h]

theorem requestRepeatedly_of_connected (envs : Nat → NetEnv) (srv : UDPServer)
    (clientAddr : sockaddr_in) (k : ClientID)
    (h : findConnected clientAddr srv.clients = some k) (n : Nat) :
    requestRepeatedly envs clientAddr n srv
      = (srv,
         List.replicate n
           (NetEvent.sendto_ConnectAccept
              { type := MessageType.CONNECT_ACCEPT, clientID := 0, sequence := 0,
                assignedID := k, totalPlayers := srv.clients.length % 256 } clientAddr)) := by
  induction n with
  | zero => rfl
  | succ n ih =>
    simp only [requestRepeatedly, HandleConnectionRequest_of_connected _ srv clientAddr k h, ih,
      List.replicate_succ, List.singleton_append]

theorem mem_mapAssign {V : Type} (k : ClientID) (v : V) (l : List (ClientID × V))
    (q : ClientID × V) (h : q ∈ mapAssign k v l) : q = (k, v) ∨ q ∈ l := by
  induction l with
  | nil =>
    simp only [mapAssign, List.mem_singleton] at h
    exact Or.inl h
  | cons head rest ih =>
    unfold mapAssign at h
    split_ifs at h with h1 h2
    · rcases List.mem_cons.mp h with heq | hin
      · exact Or.inl heq
      · exact Or.inr hin
    · rcases List.mem_cons.mp h with heq | hin
      · exact Or.inl heq
      · exact Or.inr (List.mem_cons_of_mem _ hin)
    · rcases List.mem_cons.mp h with heq | hin
      · exact Or.inr (heq ▸ List.mem_cons_self _ _)
      · rcases ih hin with h3 | h3
        · exact Or.inl h3
        · exact Or.inr (List.mem_cons_of_mem _ h3)

theorem findConnected_some_mem (clientAddr : sockaddr_in)
    (l : List (ClientID × ClientConnection)) (k : ClientID)
    (h : findConnected clientAddr l = some k) :
    ∃ pair ∈ l, pair.1 = k ∧ matchesActive clientAddr pair.2 = true := by
  induction l with
  | nil => simp [findConnected] at h
  | cons head rest ih =>
    unfold findConnected at h
    by_cases hm : matchesActive clientAddr head.2 = true
    · simp only [hm, if_true, Option.some.injEq] at h
      exact ⟨head, List.mem_cons_self _ _, h, hm⟩
    · simp only [hm, if_false] at h
      obtain ⟨pair, hin, hk, hp⟩ := ih h
      exact ⟨pair, List.mem_cons_of_mem _ hin, hk, hp⟩

theorem findConnected_none_iff (clientAddr : sockaddr_in)
    (l : List (ClientID × ClientConnection)) :
    findConnected clientAddr l = none ↔ ∀ pair ∈ l, matchesActive clientAddr pair.2 = false := by
  induction l with
  | nil => simp [findConnected]
  | cons head rest ih =>
    unfold findConnected
    by_cases hm : matchesActive clientAddr head.2 = true
    · simp [hm]
    · rw [if_neg hm, ih]
      have hm2 : matchesActive clientAddr head.2 = false := by simpa using hm
      constructor
      · intro h pair hp
        rcases List.mem_cons.mp hp with heq | hin
        · rw [heq]; exact hm2
        · exact h pair hin
      · exact fun h pair hin => h pair (List.mem_cons_of_mem _ hin)

/-- The admission code keeps the table invariant `activeEndpointsDistinct`. -/
theorem HandleConnectionRequest_keeps_endpoints_distinct (env : NetEnv) (srv : UDPServer)
    (clientAddr : sockaddr_in) (hinv : activeEndpointsDistinct srv.clients) :
    activeEndpointsDistinct (srv.HandleConnectionRequest env clientAddr).1.clients := by
  unfold UDPServer.HandleConnectionRequest
  cases hf : findConnected clientAddr srv.clients with
  | some k => exact hinv
  | none =>
    simp only
    split_ifs with hcap
    · exact hinv
    · have hnone := (findConnected_none_iff clientAddr srv.clients).mp hf
      intro p hp q hq hpa hqa haddr hport
      simp only at hp hq
      rcases mem_mapAssign _ _ _ p hp with hp1 | hp1 <;>
        rcases mem_mapAssign _ _ _ q hq with hq1 | hq1
      · rw [hp1, hq1]
      · exfalso
        have := hnone q hq1
        rw [hp1] at haddr hport
        simp only at haddr hport
        simp [matchesActive, ← haddr, ← hport, hqa] at this
      · exfalso
        have := hnone p hp1
        rw [hq1] at haddr hport
        simp only at haddr hport
        simp [matchesActive, haddr, hport, hpa] at this
      · exact hinv p hp1 q hq1 hpa hqa haddr hport

/-- C11: when the source address is that of an active peer with id `k` (every
active entry with that endpoint has the id `k`, as in every table the admission
code builds), the request is answered with one `CONNECT_ACCEPT` whose
`assignedID` is `k`; the table and `nextClientID` are unchanged and no callback
is invoked; and `n` such requests in a row give `n` such answers and the same
state. -/
theorem C11_resend_same_id (envs : Nat → NetEnv) (srv : UDPServer) (clientAddr : sockaddr_in)
    (k : ClientID) (c : ClientConnection) (hmem : (k, c) ∈ srv.clients)
    (haddr : c.address.s_addr = clientAddr.s_addr)
    (hport : c.address.sin_port = clientAddr.sin_port) (hact : c.active = true)
    (huniq : ∀ q ∈ srv.clients, q.2.active = true →
      q.2.address.s_addr = clientAddr.s_addr → q.2.address.sin_port = clientAddr.sin_port →
      q.1 = k) :
    (∀ env : NetEnv,
      srv.HandleConnectionRequest env clientAddr
        = (srv,
           [NetEvent.sendto_ConnectAccept
              { type := MessageType.CONNECT_ACCEPT, clientID := 0, sequence := 0,
                assignedID := k, totalPlayers := srv.clients.length % 256 } clientAddr],
           true)) ∧
    ∀ n : Nat,
      requestRepeatedly envs clientAddr n srv
        = (srv,
           List.replicate n
             (NetEvent.sendto_ConnectAccept
                { type := MessageType.CONNECT_ACCEPT, clientID := 0, sequence := 0,
                  assignedID := k, totalPlayers := srv.clients.length % 256 } clientAddr)) := by
  have hfind : findConnected clientAddr srv.clients = some k := by
    apply findConnected_of_unique
    · exact ⟨(k, c), hmem, rfl, haddr, hport, hact⟩
    · intro pair hin ha hp hpa
      exact huniq pair hin hpa ha hp
  exact ⟨fun env => HandleConnectionRequest_of_connected env srv clientAddr k hfind,
    fun n => requestRepeatedly_of_connected envs srv clientAddr k hfind n⟩

/-! ### Disconnect datagrams and timeout scans -/

/-- C12 (failing input): a server with an empty table receives a connection
request, a `DISCONNECT` datagram and the same `DISCONNECT` datagram again, all
from one endpoint.  Peer 1 goes from active to inactive once, at the first
`DISCONNECT`; the second one finds the entry already inactive and the
disconnect callback for id 1 is invoked a second time. -/
theorem C12_disconnect_fires_twice :
    (UDPServer.ProcessIncomingMessages { isRunning := true, clients := [], nextClientID := 1 }
        [(sampleEnv, [1, 0, 0, 0], ⟨2, 5001, 11⟩),
         (sampleEnv, [4, 1, 0, 0], ⟨2, 5001, 11⟩)]).1.clients
      = [peerEntryAt 1000 1 5001 11 false] ∧
    UDPServer.processDatagram sampleEnv
        { isRunning := true, clients := [peerEntryAt 1000 1 5001 11 false], nextClientID := 2 }
        [4, 1, 0, 0] ⟨2, 5001, 11⟩
      = ({ isRunning := true, clients := [peerEntryAt 1000 1 5001 11 false], nextClientID := 2 },
         [NetEvent.onClientDisconnect 1]) ∧
    ((UDPServer.ProcessIncomingMessages { isRunning := true, clients := [], nextClientID := 1 }
        [(sampleEnv, [1, 0, 0, 0], ⟨2, 5001, 11⟩),
         (sampleEnv, [4, 1, 0, 0], ⟨2, 5001, 11⟩),
         (sampleEnv, [4, 1, 0, 0], ⟨2, 5001, 11⟩)]).2.count (NetEvent.onClientDisconnect 1)
      = 2) := by
  refine ⟨?_, ?_, ?_⟩
  · rfl
  · rfl
  · rfl

theorem timeoutLoop_keys (now : Nat) (l : List (ClientID × ClientConnection)) :
    (timeoutLoop now l).1.map Prod.fst = l.map Prod.fst := by
  induction l with
  | nil => rfl
  | cons pair rest ih =>
    unfold timeoutLoop
    split_ifs <;> simp only [List.map_cons, ih]

theorem timeoutLoop_count_of_absent (now : Nat) (l : List (ClientID × ClientConnection))
    (k : ClientID) (h : k ∉ l.map Prod.fst) :
    (timeoutLoop now l).2.count (NetEvent.onClientDisconnect k) = 0 := by
  induction l with
  | nil => rfl
  | cons pair rest ih =>
    simp only [List.map_cons, List.mem_cons, not_or] at h
    unfold timeoutLoop
    split_ifs
    · have hne : NetEvent.onClientDisconnect k ≠ NetEvent.onClientDisconnect pair.1 := by
        intro heq
        injection heq with heq
        exact h.1 heq
      simp only [List.count_cons_of_ne hne]
      exact ih h.2
    · exact ih h.2

theorem timeoutLoop_entry (now : Nat) (l : List (ClientID × ClientConnection))
    (k : ClientID) (c : ClientConnection) (hmem : (k, c) ∈ l)
    (hkeys : (l.map Prod.fst).Nodup) :
    (if c.active = true ∧ (now : Int) - (c.lastHeartbeatTime : Int) > TIMEOUT_DURATION then
        (k, { c with active := false }) ∈ (timeoutLoop now l).1 ∧
          (timeoutLoop now l).2.count (NetEvent.onClientDisconnect k) = 1
      else
        (k, c) ∈ (timeoutLoop now l).1 ∧
          (timeoutLoop now l).2.count (NetEvent.onClientDisconnect k) = 0) := by
  induction l with
  | nil => cases hmem
  | cons pair rest ih =>
    simp only [List.map_cons, List.nodup_cons] at hkeys
    rcases List.mem_cons.mp hmem with heq | hin
    · subst heq
      have habs := timeoutLoop_count_of_absent now rest k hkeys.1
      unfold timeoutLoop
      by_cases ht : c.active = true ∧ (now : Int) - (c.lastHeartbeatTime : Int) > TIMEOUT_DURATION
      · simp only [ht, and_self, if_true, List.mem_cons, true_or, List.count_cons_self, habs,
          true_and]
      · simp only [ht, if_false, List.mem_cons, true_or, habs, and_self]
    · have hne : pair.1 ≠ k := by
        intro heq
        apply hkeys.1
        rw [heq]
        exact List.mem_map_of_mem Prod.fst hin
      have hrec := ih hin hkeys.2
      have hev : NetEvent.onClientDisconnect k ≠ NetEvent.onClientDisconnect pair.1 := by
        intro heq
        injection heq with heq
        exact hne heq.symm
      unfold timeoutLoop
      by_cases hp : pair.2.active = true ∧
          (now : Int) - (pair.2.lastHeartbeatTime : Int) > TIMEOUT_DURATION
      · simp only [hp, and_self, if_true, List.mem_cons, List.count_cons_of_ne hev]
        split_ifs at hrec ⊢ with ht
        · exact ⟨Or.inr hrec.1, hrec.2⟩
        · exact ⟨Or.inr hrec.1, hrec.2⟩
      · simp only [hp, if_false, List.mem_cons]
        split_ifs at hrec ⊢ with ht
        · exact ⟨Or.inr hrec.1, hrec.2⟩
        · exact ⟨Or.inr hrec.1, hrec.2⟩

theorem timeoutScans_inactive (times : List Nat) :
    ∀ (srv : UDPServer) (k : ClientID) (c : ClientConnection), (k, c) ∈ srv.clients →
      (srv.clients.map Prod.fst).Nodup → c.active = false →
      (k, c) ∈ (srv.timeoutScans times).1.clients ∧
        (srv.timeoutScans times).2.count (NetEvent.onClientDisconnect k) = 0 := by
  induction times with
  | nil =>
    intro srv k c hmem _ _
    exact ⟨hmem, rfl⟩
  | cons now later ih =>
    intro srv k c hmem hkeys hact
    have hstep := timeoutLoop_entry now srv.clients k c hmem hkeys
    simp only [hact, Bool.false_eq_true, false_and, if_false] at hstep
    have hkeys2 : ((srv.CheckClientTimeouts now).1.clients.map Prod.fst).Nodup := by
      simp only [UDPServer.CheckClientTimeouts, timeoutLoop_keys]
      exact hkeys
    obtain ⟨h1, h2⟩ := ih (srv.CheckClientTimeouts now).1 k c hstep.1 hkeys2 hact
    refine ⟨h1, ?_⟩
    simp only [UDPServer.timeoutScans, List.count_append]
    rw [h2]
    simp only [UDPServer.CheckClientTimeouts, hstep.2]

/-- C13: for a peer `k` of a table with distinct keys, a timeout scan at clock
reading `now` marks an active peer inactive and invokes its disconnect
callback exactly once when `now - lastHeartbeatTime` exceeds five seconds, and
otherwise leaves its entry as it is and invokes no callback for it; the keys of
the table are unchanged; and an inactive peer stays as it is and gets no
callback through any sequence of later scans. -/
theorem C13_timeout_once (now : Nat) (srv : UDPServer) (k : ClientID) (c : ClientConnection)
    (hmem : (k, c) ∈ srv.clients) (hkeys : (srv.clients.map Prod.fst).Nodup) :
    (srv.CheckClientTimeouts now).1.clients.map Prod.fst = srv.clients.map Prod.fst ∧
    (c.active = true → (now : Int) - (c.lastHeartbeatTime : Int) > TIMEOUT_DURATION →
      (k, { c with active := false }) ∈ (srv.CheckClientTimeouts now).1.clients ∧
        (srv.CheckClientTimeouts now).2.count (NetEvent.onClientDisconnect k) = 1) ∧
    (c.active = true → ¬ (now : Int) - (c.lastHeartbeatTime : Int) > TIMEOUT_DURATION →
      (k, c) ∈ (srv.CheckClientTimeouts now).1.clients ∧
        (srv.CheckClientTimeouts now).2.count (NetEvent.onClientDisconnect k) = 0) ∧
    (c.active = false → ∀ times : List Nat,
      (k, c) ∈ (srv.timeoutScans times).1.clients ∧
        (srv.timeoutScans times).2.count (NetEvent.onClientDisconnect k) = 0) := by
  have hstep := timeoutLoop_entry now srv.clients k c hmem hkeys
  refine ⟨?_, ?_, ?_, ?_⟩
  · simp only [UDPServer.CheckClientTimeouts, timeoutLoop_keys]
  · intro hact ht
    simp only [hact, ht, and_self, if_true] at hstep
    exact hstep
  · intro hact ht
    simp only [hact, ht, and_false, if_false] at hstep
    exact hstep
  · intro hact times
    exact timeoutScans_inactive times srv k c hmem hkeys hact

/-! ### Truncated datagrams -/

theorem processDatagram_truncated (env : NetEnv) (srv : UDPServer) (buffer : List Nat)
    (clientAddr : sockaddr_in) (h : buffer.length < sizeof_NetworkMessage) :
    srv.processDatagram env buffer clientAddr = (srv, []) := by
  simp only [UDPServer.processDatagram, h, if_true]

/-- C20: a datagram shorter than the four bytes of `NetworkMessage` leaves the
`UDPServer` state as it is and produces no effect (no callback, nothing sent);
and `GameServer::OnMessage` on a buffer shorter than the nine bytes of
`PlayerInputMessage`, whatever its type byte, returns the server state
unchanged, every `lastInput` included. -/
theorem C20_truncated_discarded :
    (∀ (env : NetEnv) (srv : UDPServer) (buffer : List Nat) (clientAddr : sockaddr_in),
      buffer.length < 4 → srv.processDatagram env buffer clientAddr = (srv, [])) ∧
    (∀ (s : GameServer) (clientID : ClientID) (data : List Nat),
      data.length < 9 → s.OnMessage clientID data = s) := by
  constructor
  · intro env srv buffer clientAddr h
    exact processDatagram_truncated env srv buffer clientAddr h
  · intro s clientID data h
    have h9 : ¬ data.length ≥ sizeof_PlayerInputMessage := by
      simp only [sizeof_PlayerInputMessage]; omega
    unfold GameServer.OnMessage
    split_ifs
    · rfl
    · split
      · simp only [h9, if_false]
      · rfl

/-! ### End of game -/

theorem foldl_count_alive (l : List (ClientID × PlayerData)) (n : Nat) :
    l.foldl (fun activePlayers pair => if pair.2.isAlive then activePlayers + 1
      else activePlayers) n
      = n + (l.filter (fun pair => pair.2.isAlive)).length := by
  induction l generalizing n with
  | nil => simp
  | cons pair rest ih =>
    by_cases h : pair.2.isAlive = true
    · have hf : (pair :: rest).filter (fun pair => pair.2.isAlive)
          = pair :: rest.filter (fun pair => pair.2.isAlive) := by
        simp [List.filter_cons, h]
      rw [hf, List.foldl_cons, if_pos h, ih (n + 1), List.length_cons]
      omega
    · have hf : (pair :: rest).filter (fun pair => pair.2.isAlive)
          = rest.filter (fun pair => pair.2.isAlive) := by
        simp [List.filter_cons, h]
      rw [hf, List.foldl_cons, if_neg h, ih n]

theorem countActivePlayers_eq (players : List (ClientID × PlayerData)) :
    countActivePlayers players = (players.filter (fun pair => pair.2.isAlive)).length := by
  simp only [countActivePlayers, foldl_count_alive, Nat.zero_add]

/-- C16: `CheckGameEndConditions` ends the game, that is, clears
`gameInProgress`, sets `gameEndTimer` to `GAME_END_DURATION` and broadcasts one
`GAME_END` message, exactly when no tracked player is alive, or more than one
peer is connected and at most one tracked player is alive; otherwise the state
is unchanged and nothing is sent. -/
theorem C16_end_condition (s : GameServer) :
    (((s.players.filter (fun pair => pair.2.isAlive)).length = 0 ∨
        (s.server.GetClientCount > 1 ∧
          (s.players.filter (fun pair => pair.2.isAlive)).length ≤ 1)) →
      s.CheckGameEndConditions
        = ({ s with gameInProgress := false, gameEndTimer := GAME_END_DURATION },
           s.server.BroadcastToAll (NetEvent.sendto_GameEnd s.gameEndMessage))) ∧
    (¬ ((s.players.filter (fun pair => pair.2.isAlive)).length = 0 ∨
        (s.server.GetClientCount > 1 ∧
          (s.players.filter (fun pair => pair.2.isAlive)).length ≤ 1)) →
      s.CheckGameEndConditions = (s, [])) := by
  constructor
  · intro h
    simp only [GameServer.CheckGameEndConditions, countActivePlayers_eq, h, if_true]
  · intro h
    simp only [GameServer.CheckGameEndConditions, countActivePlayers_eq, h, if_false]

theorem findWinner_spec (l : List (ClientID × PlayerData)) :
    ∀ start : WinnerScan,
      start.highestScore ≤ (findWinner l start).highestScore ∧
      (∀ pair ∈ l, pair.2.score ≤ (findWinner l start).highestScore) ∧
      (((findWinner l start).highestScore = start.highestScore ∧
          (findWinner l start).winnerID = start.winnerID) ∨
        (start.highestScore < (findWinner l start).highestScore ∧
          ∃ pair ∈ l, pair.1 = (findWinner l start).winnerID ∧
            pair.2.score = (findWinner l start).highestScore)) := by
  induction l with
  | nil =>
    intro start
    refine ⟨le_refl _, ?_, Or.inl ⟨rfl, rfl⟩⟩
    intro pair h
    cases h
  | cons head rest ih =>
    intro start
    simp only [findWinner, List.foldl_cons]
    simp only [findWinner] at ih
    by_cases hgt : head.2.score > start.highestScore
    · simp only [hgt, if_true]
      obtain ⟨h1, h2, h3⟩ := ih
        { i := start.i + 1,
          scores := if start.i < 4 then start.scores.set start.i head.2.score else start.scores,
          highestScore := head.2.score, winnerID := head.1 }
      simp only at h1 h3
      refine ⟨by omega, ?_, ?_⟩
      · intro pair hp
        rcases List.mem_cons.mp hp with heq | hin
        · rw [heq]; exact h1
        · exact h2 pair hin
      · right
        refine ⟨by omega, ?_⟩
        rcases h3 with ⟨h3a, h3b⟩ | ⟨_, pair, hin, hk, hs⟩
        · exact ⟨head, List.mem_cons_self _ _, h3b.symm, h3a.symm⟩
        · exact ⟨pair, List.mem_cons_of_mem _ hin, hk, hs⟩
    · simp only [hgt, if_false]
      obtain ⟨h1, h2, h3⟩ := ih
        { i := start.i + 1,
          scores := if start.i < 4 then start.scores.set start.i head.2.score else start.scores,
          highestScore := start.highestScore, winnerID := start.winnerID }
      simp only at h1 h3
      refine ⟨h1, ?_, ?_⟩
      · intro pair hp
        rcases List.mem_cons.mp hp with heq | hin
        · rw [heq]; omega
        · exact h2 pair hin
      · rcases h3 with h3 | ⟨hlt, pair, hin, hk, hs⟩
        · exact Or.inl h3
        · exact Or.inr ⟨hlt, pair, List.mem_cons_of_mem _ hin, hk, hs⟩

/-- What the winner computation does guarantee: `winnerScore` bounds every
tracked score; when it is positive, `winnerID` is the id of a tracked player
with that score; and when it is zero, `winnerID` is 0. -/
theorem gameEndMessage_winner (s : GameServer) :
    (∀ pair ∈ s.players, pair.2.score ≤ s.gameEndMessage.winnerScore) ∧
    (s.gameEndMessage.winnerScore > 0 →
      ∃ pair ∈ s.players, pair.1 = s.gameEndMessage.winnerID ∧
        pair.2.score = s.gameEndMessage.winnerScore) ∧
    (s.gameEndMessage.winnerScore = 0 → s.gameEndMessage.winnerID = 0) := by
  obtain ⟨_, h2, h3⟩ := findWinner_spec s.players
    { i := 0, highestScore := 0, winnerID := 0, scores := [0, 0, 0, 0] }
  simp only at h3
  refine ⟨h2, ?_, ?_⟩
  · intro hpos
    simp only [GameServer.gameEndMessage] at hpos ⊢
    rcases h3 with ⟨h3a, _⟩ | ⟨_, h3⟩
    · omega
    · exact h3
  · intro hzero
    simp only [GameServer.gameEndMessage] at hzero ⊢
    rcases h3 with ⟨_, h3b⟩ | ⟨hlt, _⟩
    · exact h3b
    · omega

/-- C17 (failing input): peer 1 is connected and its player, the only one, has
score 0 and is not alive.  The game ends; the message carries `winnerScore` 0,
the maximum, but `winnerID` 0, and no tracked player has id 0. -/
theorem C17_winner_is_nobody :
    scorelessServer.CheckGameEndConditions
      = ({ scorelessServer with gameInProgress := false, gameEndTimer := GAME_END_DURATION },
         [NetEvent.sendto_GameEnd
            { type := MessageType.GAME_END, clientID := 0, sequence := 0,
              winnerID := 0, winnerScore := 0, scores := [0, 0, 0, 0] } ⟨2, 5001, 11⟩]) ∧
    scorelessServer.players.map Prod.fst = [1] ∧
    ¬ ∃ pair ∈ scorelessServer.players, pair.1 = 0 := by
  refine ⟨?_, rfl, ?_⟩
  · rfl
  · simp [scorelessServer]

/-! ### The fire block of the tick -/

/-- When the inner test of the fire block negates the outer one, as it does
for a fire byte that is 0 or 1, the block does not run: handling the input of
the player leaves the bullet vector as it was. -/
theorem applyPlayerInput_bullets (eng : Engine) (dt : ℚ) (s : GameServer) (clientID : ClientID)
    (player : PlayerData) (hf : eng.deadFire player.lastInput.fire) :
    (s.applyPlayerInput eng dt clientID player).bullets = s.bullets := by
  unfold GameServer.applyPlayerInput
  split
  · rfl
  · rename_i ship _
    by_cases hact : ((s.sGameObjInstList ship).isActive && player.isAlive) = true
    · by_cases ht : eng.boolTest player.lastInput.fire = true
      · simp only [hact, ht, hf ht, if_true, Bool.false_eq_true, if_false]
      · simp only [hact, ht, if_true, Bool.false_eq_true, if_false]
    · rw [if_neg hact]

theorem applyInputs_bullets (eng : Engine) (dt : ℚ) (l : List (ClientID × PlayerData))
    (hl : ∀ pair ∈ l, eng.deadFire pair.2.lastInput.fire) :
    ∀ s : GameServer, (s.applyInputs eng dt l).bullets = s.bullets := by
  induction l with
  | nil => intro s; rfl
  | cons pair rest ih =>
    intro s
    simp only [GameServer.applyInputs]
    rw [ih (fun q hq => hl q (List.mem_cons_of_mem _ hq)),
      applyPlayerInput_bullets _ _ _ _ _ (hl pair (List.mem_cons_self _ _))]

theorem updateInstance_bullets_nil (eng : Engine) (dt : ℚ) (s : GameServer) (i : Nat)
    (h : s.bullets = []) : (s.updateInstance eng dt i).bullets = [] := by
  unfold GameServer.updateInstance
  simp only
  split_ifs <;> exact h

theorem updateInstances_bullets_nil (eng : Engine) (dt : ℚ) (n : Nat) :
    ∀ (i : Nat) (s : GameServer), s.bullets = [] →
      (GameServer.updateInstances eng dt n i s).bullets = [] := by
  induction n with
  | zero => intro i s h; exact h
  | succ n ih =>
    intro i s h
    exact ih (i + 1) _ (updateInstance_bullets_nil eng dt s i h)

theorem bulletPass_of_no_bullets (sqrtf : ℚ → ℚ) (g_dt : ℚ) (s : GameServer)
    (h : s.bullets = []) : s.bulletPass sqrtf g_dt 0 = (s, []) := by
  rw [bulletPass_unfold]
  have hlen : ¬ 0 < s.bullets.length := by simp [h]
  simp only [hlen, dif_neg, not_false_eq_true]

theorem CreateAsteroid_bullets (s : GameServer) (x y velX velY scale : ℚ) :
    (s.CreateAsteroid x y velX velY scale).bullets = s.bullets := by
  dsimp only [GameServer.CreateAsteroid]
  split <;> rfl

theorem spawnAsteroid_bullets (eng : Engine) (draw : SpawnDraw) (s : GameServer) :
    (s.spawnAsteroid eng draw).bullets = s.bullets := by
  unfold GameServer.spawnAsteroid
  by_cases hc : s.asteroids.length < INITIAL_ASTEROID_COUNT ∧
      s.asteroids.length < MAX_ASTEROID_COUNT
  · rw [if_pos hc]
    exact CreateAsteroid_bullets _ _ _ _ _ _
  · rw [if_neg hc]

theorem collide_then_spawn_bullets_nil (eng : Engine) (draw : SpawnDraw) (g_dt : ℚ)
    (t : GameServer) (h : t.bullets = []) :
    ((t.CheckForCollisions eng.sqrtf g_dt).1.spawnAsteroid eng draw).bullets = [] := by
  rw [spawnAsteroid_bullets]
  simp only [GameServer.CheckForCollisions, bulletPass_of_no_bullets _ _ _ h]
  exact h

/-- A tick that starts without bullets ends without bullets, when for the
fire byte of every tracked player the inner test of the fire block negates the
outer one. -/
theorem UpdateGameState_bullets_nil (eng : Engine) (draw : SpawnDraw) (g_dt : ℚ)
    (s : GameServer) (dt : ℚ) (h : s.bullets = [])
    (hfire : ∀ pair ∈ s.players, eng.deadFire pair.2.lastInput.fire) :
    (s.UpdateGameState eng draw g_dt dt).bullets = [] := by
  have h1 : (s.applyInputs eng dt s.players).bullets = [] := by
    rw [applyInputs_bullets eng dt s.players hfire]; exact h
  unfold GameServer.UpdateGameState
  exact collide_then_spawn_bullets_nil eng draw g_dt _
    (updateInstances_bullets_nil eng dt _ 0 _ h1)

/-- The test `if (x)` of `sampleEngine` passes for the byte 1 and the test
`if (!x)` fails for it. -/
theorem sampleEngine_deadFire_one : sampleEngine.deadFire 1 := fun _ => rfl

/-- C14 (failing input): player 1 is alive, its ship in slot 0 is active, its
last input has the fire flag set (byte 1, the value `true`) and slot 2 of the
pool is unused.  The input loop of the tick appends no bullet, and after the
whole tick the bullet vector is still empty. -/
theorem C14_fire_creates_no_bullet :
    playersFind 1 (soloServer 3 fireInput []).players
      = some { ship := some 0, isAlive := true, score := 0, lives := 3, lastInput := fireInput } ∧
    fireInput.fire = 1 ∧ sampleEngine.boolTest fireInput.fire = true ∧
    ((soloServer 3 fireInput []).sGameObjInstList 0).isActive = true ∧
    ((soloServer 3 fireInput []).sGameObjInstList 2).flag = 0 ∧
    ((soloServer 3 fireInput []).applyInputs sampleEngine (1 / 60)
        (soloServer 3 fireInput []).players).bullets = [] ∧
    ((soloServer 3 fireInput []).UpdateGameState sampleEngine sampleSpawn (1 / 60)
        (1 / 60)).bullets = [] := by
  have hfire : ∀ pair ∈ (soloServer 3 fireInput []).players,
      sampleEngine.deadFire pair.2.lastInput.fire := by
    intro pair hp
    rw [List.mem_singleton.mp hp]
    exact sampleEngine_deadFire_one
  refine ⟨rfl, rfl, rfl, rfl, rfl, ?_, ?_⟩
  · rw [applyInputs_bullets _ _ _ hfire]; rfl
  · exact UpdateGameState_bullets_nil _ _ _ _ _ rfl hfire

/-! ### Restart after the end of a game -/

theorem drawSpawnPosition_of_far (sqrtf : ℚ → ℚ) (l : List (ℚ × ℚ))
    (h : 1 ≤ (l.filter (farFromCenter sqrtf)).length) :
    ∃ pos later, drawSpawnPosition sqrtf l = some (pos, later) ∧
      farFromCenter sqrtf pos = true ∧
      (l.filter (farFromCenter sqrtf)).length
        = (later.filter (farFromCenter sqrtf)).length + 1 := by
  induction l with
  | nil => simp at h
  | cons pos rest ih =>
    unfold drawSpawnPosition
    by_cases hnear : sqrtf (pos.1 * pos.1 + pos.2 * pos.2) < 150
    · have hf : farFromCenter sqrtf pos = false := by simp [farFromCenter, hnear]
      have hfl : (pos :: rest).filter (farFromCenter sqrtf) = rest.filter (farFromCenter sqrtf) := by
        simp [List.filter_cons, hf]
      rw [hfl] at h ⊢
      simp only [hnear, if_true]
      exact ih h
    · have hf : farFromCenter sqrtf pos = true := by simp [farFromCenter, hnear]
      have hfl : (pos :: rest).filter (farFromCenter sqrtf)
          = pos :: rest.filter (farFromCenter sqrtf) := by
        simp [List.filter_cons, hf]
      rw [hfl]
      simp only [hnear, if_false]
      exact ⟨pos, rest, rfl, hf, rfl⟩

theorem createInitialLoop_returns (eng : Engine) (draws : InitDraws) (n : Nat) :
    ∀ (i : Nat) (disPos : List (ℚ × ℚ)) (s : GameServer),
      n ≤ (disPos.filter (farFromCenter eng.sqrtf)).length →
      ∃ s', GameServer.createInitialLoop eng draws n i disPos s = some s' := by
  induction n with
  | zero => intro i disPos s _; exact ⟨s, rfl⟩
  | succ n ih =>
    intro i disPos s h
    obtain ⟨pos, later, hd, _, hlen⟩ := drawSpawnPosition_of_far eng.sqrtf disPos (by omega)
    simp only [GameServer.createInitialLoop, hd]
    exact ih _ _ _ (by omega)

theorem ResetGame_returns (eng : Engine) (draws : InitDraws) (s : GameServer)
    (h : INITIAL_ASTEROID_COUNT ≤ (draws.disPos.filter (farFromCenter eng.sqrtf)).length) :
    ∃ s', s.ResetGame eng draws = some s' := by
  unfold GameServer.ResetGame GameServer.CreateInitialAsteroids
  simp only
  obtain ⟨s4, h4⟩ := createInitialLoop_returns eng draws INITIAL_ASTEROID_COUNT 0 draws.disPos
    (GameServer.resetPlayers eng (s.players.map Prod.fst)
      { s with
        sGameObjInstList :=
          s.bullets.foldl gameObjInstDestroy (s.asteroids.foldl gameObjInstDestroy s.sGameObjInstList),
        asteroids := [], bullets := [] }) h
  rw [h4]
  exact ⟨_, rfl⟩

/-- In the state left by the end of a game, with a peer still connected, the
next `Update` call takes the branch for a game that is not in progress and
starts a new round at once, whatever `dt` and `gameEndTimer` are. -/
theorem Update_restarts_at_once (eng : Engine) (draws : UpdateDraws) (g_dt : ℚ) (s : GameServer)
    (dt : ℚ) (s1 : GameServer) (hrun : s.isRunning = true) (hprog : s.gameInProgress = false)
    (hpeer : s.server.GetClientCount > 0) (hreset : s.ResetGame eng draws.start = some s1) :
    s.Update eng draws g_dt dt = some ({ s1 with gameInProgress := true }, []) := by
  simp [GameServer.Update, hrun, hprog, hpeer, hreset]

theorem sampleEngine_sqrtf_lt (n : ℕ) : sampleEngine.sqrtf (n : ℚ) < 150 ↔ n < 22500 := by
  simp only [sampleEngine]
  have h1 : ⌊(n : ℚ) * 1000000⌋ = ((n * 1000000 : ℕ) : ℤ) := by
    have : (n : ℚ) * 1000000 = ((n * 1000000 : ℕ) : ℚ) := by push_cast; ring
    rw [this]
    exact Int.floor_natCast _
  rw [h1, Int.toNat_natCast, div_lt_iff₀ (by norm_num : (0 : ℚ) < 1000)]
  have h2 : ((150 : ℚ) * 1000) = ((150000 : ℕ) : ℚ) := by norm_num
  rw [h2, Nat.cast_lt, Nat.sqrt_lt']
  constructor <;> intro h <;> omega

theorem sampleInit_far :
    sampleInit.disPos.filter (farFromCenter sampleEngine.sqrtf)
      = [(200, 0), (0, 200), (-200, 0), (0, -200)] := by
  have hnear : farFromCenter sampleEngine.sqrtf (10, 20) = false := by
    have h := (sampleEngine_sqrtf_lt 500).mpr (by norm_num)
    have he : ((10 : ℚ) * 10 + 20 * 20) = ((500 : ℕ) : ℚ) := by norm_num
    simp only [farFromCenter, he, h, decide_True, Bool.not_true]
  have hfar : ∀ pos : ℚ × ℚ, pos.1 * pos.1 + pos.2 * pos.2 = ((40000 : ℕ) : ℚ) →
      farFromCenter sampleEngine.sqrtf pos = true := by
    intro pos he
    have h : ¬ sampleEngine.sqrtf ((40000 : ℕ) : ℚ) < 150 := by
      rw [sampleEngine_sqrtf_lt]; norm_num
    simp only [farFromCenter, he, h, decide_False, Bool.not_false]
  simp only [sampleInit, List.filter_cons, hnear, hfar (200, 0) (by norm_num),
    hfar (0, 200) (by norm_num), hfar (-200, 0) (by norm_num), hfar (0, -200) (by norm_num),
    List.filter_nil, if_true, Bool.false_eq_true, if_false]

/-- C15 (failing input): the game of peer 1 has just ended (`gameInProgress` is
false, `gameEndTimer` is 5) and peer 1 is still connected.  The next
`Update` call, with `dt = 1/60`, runs `ResetGame` and sets `gameInProgress`:
a new round starts one sixtieth of a second after the end, not after five
seconds. -/
theorem C15_restart_ignores_timer :
    endingServer.isRunning = true ∧ endingServer.gameInProgress = false ∧
    endingServer.gameEndTimer = GAME_END_DURATION ∧
    endingServer.server.GetClientCount = 1 ∧ (1 / 60 : ℚ) < GAME_END_DURATION ∧
    ∃ s1, endingServer.ResetGame sampleEngine sampleInit = some s1 ∧
      endingServer.Update sampleEngine sampleDraws (1 / 60) (1 / 60)
        = some ({ s1 with gameInProgress := true }, []) := by
  refine ⟨rfl, rfl, rfl, rfl, by norm_num [GAME_END_DURATION], ?_⟩
  obtain ⟨s1, h1⟩ := ResetGame_returns sampleEngine sampleInit endingServer
    (by rw [sampleInit_far]; decide)
  exact ⟨s1, h1, Update_restarts_at_once sampleEngine sampleDraws _ endingServer _ s1 rfl rfl
    (by decide) h1⟩

/-! ### The ship pass -/

theorem freeSlots_mono (pool pool' : Pool)
    (h : ∀ j, (pool j).flag = 0 → (pool' j).flag = 0) :
    (freeSlots pool).card ≤ (freeSlots pool').card := by
  apply Finset.card_le_card
  intro j hj
  simp only [freeSlots, Finset.mem_filter] at hj ⊢
  exact ⟨hj.1, h j hj.2⟩

theorem freeSlots_destroy (pool : Pool) (p : Nat) :
    (freeSlots pool).card ≤ (freeSlots (gameObjInstDestroy pool p)).card := by
  apply freeSlots_mono
  intro j hj
  unfold gameObjInstDestroy
  split_ifs with h0
  · exact hj
  · by_cases hjp : j = p
    · subst hjp; simp
    · rw [Function.update_noteq hjp]; exact hj

theorem destroy_other (pool : Pool) (p j : Nat) (h : j ≠ p) :
    gameObjInstDestroy pool p j = pool j := by
  unfold gameObjInstDestroy
  split_ifs
  · rfl
  · exact Function.update_noteq h _ _

theorem foldl_destroy_spec (l : List Nat) :
    ∀ pool : Pool,
      (freeSlots pool).card ≤ (freeSlots (l.foldl gameObjInstDestroy pool)).card ∧
      ∀ j, j ∉ l → l.foldl gameObjInstDestroy pool j = pool j := by
  induction l with
  | nil => intro pool; exact ⟨le_refl _, fun _ _ => rfl⟩
  | cons p rest ih =>
    intro pool
    obtain ⟨h1, h2⟩ := ih (gameObjInstDestroy pool p)
    simp only [List.foldl_cons]
    refine ⟨le_trans (freeSlots_destroy pool p) h1, ?_⟩
    intro j hj
    simp only [List.mem_cons, not_or] at hj
    rw [h2 j hj.2, destroy_other pool p j hj.1]

/-- With an unused slot in the pool, `gameObjInstCreate` takes a slot whose
flag was `0`, writes the new instance there and uses up exactly that slot. -/
theorem gameObjInstCreate_spec (pool : Pool) (type : Nat) (scale : AEVec2)
    (pPos pVel : Option AEVec2) (dir : ℚ) (h : 1 ≤ (freeSlots pool).card) :
    ∃ i, (pool i).flag = 0 ∧
      gameObjInstCreate pool type scale pPos pVel dir
        = (Function.update pool i
            { pool i with
              pObject := some type, flag := FLAG_ACTIVE, scale := scale,
              posCurr := pPos.getD ⟨0, 0⟩, velCurr := pVel.getD ⟨0, 0⟩, dirCurr := dir },
           some i) ∧
      (freeSlots pool).card
        ≤ (freeSlots (gameObjInstCreate pool type scale pPos pVel dir).1).card + 1 := by
  have hne : (freeSlots pool).Nonempty := Finset.card_pos.mp (by omega)
  obtain ⟨k, hk⟩ := hne
  simp only [freeSlots, Finset.mem_filter, Finset.mem_range] at hk
  cases hfind : findUnusedInst pool GAME_OBJ_INST_NUM_MAX 0 with
  | none =>
    have := (findUnusedInst_none pool GAME_OBJ_INST_NUM_MAX 0).mp hfind k (Nat.zero_le _)
      (by omega)
    exact absurd hk.2 this
  | some i =>
    obtain ⟨_, h2, h3, _⟩ := findUnusedInst_some pool _ _ _ hfind
    have heq : gameObjInstCreate pool type scale pPos pVel dir
        = (Function.update pool i
            { pool i with
              pObject := some type, flag := FLAG_ACTIVE, scale := scale,
              posCurr := pPos.getD ⟨0, 0⟩, velCurr := pVel.getD ⟨0, 0⟩, dirCurr := dir },
           some i) := by
      simp only [gameObjInstCreate, hfind]
    refine ⟨i, h3, heq, ?_⟩
    rw [heq]
    have hsub : (freeSlots pool).erase i ⊆ freeSlots (Function.update pool i
        { pool i with
          pObject := some type, flag := FLAG_ACTIVE, scale := scale,
          posCurr := pPos.getD ⟨0, 0⟩, velCurr := pVel.getD ⟨0, 0⟩, dirCurr := dir }) := by
      intro j hj
      simp only [freeSlots, Finset.mem_erase, Finset.mem_filter] at hj ⊢
      refine ⟨hj.2.1, ?_⟩
      rw [Function.update_noteq hj.1]
      exact hj.2.2
    have hcard := Finset.card_le_card hsub
    have hmem : i ∈ freeSlots pool := by
      simp only [freeSlots, Finset.mem_filter, Finset.mem_range]
      exact ⟨by omega, h3⟩
    rw [Finset.card_erase_of_mem hmem] at hcard
    dsimp only at hcard ⊢
    omega

/-! ### The player map -/

theorem playersFind_modifyPlayer_same (k : ClientID) (f : PlayerData → PlayerData)
    (l : List (ClientID × PlayerData)) :
    playersFind k (modifyPlayer k f l) = (playersFind k l).map f := by
  induction l with
  | nil => rfl
  | cons pair rest ih =>
    unfold modifyPlayer
    by_cases h : pair.1 = k
    · simp only [h, if_true, playersFind, Option.map_some']
    · simp only [h, if_false, playersFind, ih]

theorem playersFind_modifyPlayer_other (k k' : ClientID) (f : PlayerData → PlayerData)
    (l : List (ClientID × PlayerData)) (hne : k' ≠ k) :
    playersFind k' (modifyPlayer k f l) = playersFind k' l := by
  induction l with
  | nil => rfl
  | cons pair rest ih =>
    unfold modifyPlayer
    by_cases h : pair.1 = k
    · have h2 : ¬ pair.1 = k' := fun h3 => hne (h3 ▸ h)
      simp only [h, if_true, playersFind]
      rw [← h]
      simp only [h2, if_false]
    · simp only [h, if_false, playersFind, ih]

theorem modifyPlayer_keys (k : ClientID) (f : PlayerData → PlayerData)
    (l : List (ClientID × PlayerData)) :
    (modifyPlayer k f l).map Prod.fst = l.map Prod.fst := by
  induction l with
  | nil => rfl
  | cons pair rest ih =>
    unfold modifyPlayer
    split_ifs
    · rfl
    · simp only [List.map_cons, ih]

theorem modifyPlayer_modifyPlayer (k : ClientID) (f g : PlayerData → PlayerData)
    (l : List (ClientID × PlayerData)) :
    modifyPlayer k g (modifyPlayer k f l) = modifyPlayer k (fun p => g (f p)) l := by
  induction l with
  | nil => rfl
  | cons pair rest ih =>
    by_cases h : pair.1 = k
    · simp only [modifyPlayer, h, if_true]
    · simp only [modifyPlayer, h, if_false, ih]

theorem playersFind_of_mem (l : List (ClientID × PlayerData)) (k : ClientID) (pd : PlayerData)
    (hkeys : (l.map Prod.fst).Nodup) (hmem : (k, pd) ∈ l) : playersFind k l = some pd := by
  induction l with
  | nil => cases hmem
  | cons pair rest ih =>
    simp only [List.map_cons, List.nodup_cons] at hkeys
    rcases List.mem_cons.mp hmem with heq | hin
    · subst heq
      simp only [playersFind, if_true]
    · have hne : ¬ pair.1 = k := by
        intro heq
        apply hkeys.1
        rw [heq]
        exact List.mem_map_of_mem Prod.fst hin
      simp only [playersFind, hne, if_false]
      exact ih hkeys.2 hin

theorem playersFind_some_mem (l : List (ClientID × PlayerData)) (k : ClientID) (pd : PlayerData)
    (h : playersFind k l = some pd) : (k, pd) ∈ l := by
  induction l with
  | nil => simp [playersFind] at h
  | cons pair rest ih =>
    unfold playersFind at h
    by_cases hk : pair.1 = k
    · simp only [hk, if_true, Option.some.injEq] at h
      rw [← hk, ← h]
      exact List.mem_cons_self _ _
    · simp only [hk, if_false] at h
      exact List.mem_cons_of_mem _ (ih h)

theorem playersFind_of_key (l : List (ClientID × PlayerData)) (k : ClientID)
    (h : k ∈ l.map Prod.fst) : ∃ pd, playersFind k l = some pd := by
  induction l with
  | nil => cases h
  | cons pair rest ih =>
    unfold playersFind
    by_cases hk : pair.1 = k
    · exact ⟨pair.2, by simp only [hk, if_true]⟩
    · simp only [hk, if_false]
      simp only [List.map_cons, List.mem_cons] at h
      rcases h with h | h
      · exact absurd h.symm hk
      · exact ih h

/-! ### Creation of ships and asteroids -/

theorem CreatePlayerShip_spec (eng : Engine) (s : GameServer) (k : ClientID) (pd : PlayerData)
    (hfind : playersFind k s.players = some pd) (hfree : 1 ≤ (freeSlots s.sGameObjInstList).card) :
    ∃ ship, (s.sGameObjInstList ship).flag = 0 ∧
      (s.CreatePlayerShip eng k).players
        = modifyPlayer k (fun p => { p with ship := some ship, isAlive := true }) s.players ∧
      ((s.CreatePlayerShip eng k).sGameObjInstList ship).flag = FLAG_ACTIVE ∧
      ((s.CreatePlayerShip eng k).sGameObjInstList ship).pObject = some TYPE_SHIP ∧
      ((s.CreatePlayerShip eng k).sGameObjInstList ship).clientID = k ∧
      (∀ j, j ≠ ship → (s.CreatePlayerShip eng k).sGameObjInstList j = s.sGameObjInstList j) ∧
      (freeSlots s.sGameObjInstList).card
        ≤ (freeSlots (s.CreatePlayerShip eng k).sGameObjInstList).card + 1 ∧
      (s.CreatePlayerShip eng k).asteroids = s.asteroids ∧
      (s.CreatePlayerShip eng k).bullets = s.bullets := by
  obtain ⟨ship, hflag, hcreate, hcard⟩ := gameObjInstCreate_spec s.sGameObjInstList TYPE_SHIP
    ⟨SHIP_SCALE_X * (5 / 2), SHIP_SCALE_Y * (5 / 2)⟩
    (some ⟨eng.cosf (((k : ℚ) - 1) * (2 * eng.PI / 4)) * 100,
           eng.sinf (((k : ℚ) - 1) * (2 * eng.PI / 4)) * 100⟩)
    none (((k : ℚ) - 1) * (2 * eng.PI / 4) + eng.PI) hfree
  rw [hcreate] at hcard
  refine ⟨ship, hflag, ?_⟩
  simp only [GameServer.CreatePlayerShip, hfind, hcreate, Function.update_same, true_and]
  refine ⟨fun j hj => ?_, ?_⟩
  · rw [Function.update_noteq hj, Function.update_noteq hj]
  · dsimp only at hcard
    refine ⟨le_trans hcard (Nat.add_le_add_right ?_ 1), trivial⟩
    apply freeSlots_mono
    intro j hj
    by_cases hjs : j = ship
    · subst hjs
      simp only [Function.update_same] at hj ⊢
      exact hj
    · rw [Function.update_noteq hjs]
      exact hj

theorem CreateAsteroid_spec (s : GameServer) (x y velX velY scale : ℚ)
    (hfree : 1 ≤ (freeSlots s.sGameObjInstList).card) :
    ∃ a, (s.sGameObjInstList a).flag = 0 ∧
      (s.CreateAsteroid x y velX velY scale).asteroids = s.asteroids ++ [a] ∧
      ((s.CreateAsteroid x y velX velY scale).sGameObjInstList a).flag = FLAG_ACTIVE ∧
      ((s.CreateAsteroid x y velX velY scale).sGameObjInstList a).pObject = some TYPE_ASTEROID ∧
      ((s.CreateAsteroid x y velX velY scale).sGameObjInstList a).posCurr = ⟨x, y⟩ ∧
      (∀ j, j ≠ a →
        (s.CreateAsteroid x y velX velY scale).sGameObjInstList j = s.sGameObjInstList j) ∧
      (freeSlots s.sGameObjInstList).card
        ≤ (freeSlots (s.CreateAsteroid x y velX velY scale).sGameObjInstList).card + 1 := by
  obtain ⟨a, hflag, hcreate, hcard⟩ := gameObjInstCreate_spec s.sGameObjInstList TYPE_ASTEROID
    ⟨scale, scale⟩ (some ⟨x, y⟩) (some ⟨velX, velY⟩) 0 hfree
  rw [hcreate] at hcard
  refine ⟨a, hflag, ?_⟩
  simp only [GameServer.CreateAsteroid, hcreate, Function.update_same, Option.getD_some, true_and]
  exact ⟨fun j hj => Function.update_noteq hj _ _, hcard⟩

theorem resetPlayer_spec (eng : Engine) (s : GameServer) (k : ClientID) (pd : PlayerData)
    (hfind : playersFind k s.players = some pd) (hfree : 1 ≤ (freeSlots s.sGameObjInstList).card) :
    ∃ ship, ((s.sGameObjInstList ship).flag = 0 ∨ pd.ship = some ship) ∧
      (s.resetPlayer eng k).players
        = modifyPlayer k
            (fun p => { p with ship := some ship, score := 0, lives := INITIAL_LIVES,
                               isAlive := true })
            s.players ∧
      ((s.resetPlayer eng k).sGameObjInstList ship).flag = FLAG_ACTIVE ∧
      ((s.resetPlayer eng k).sGameObjInstList ship).pObject = some TYPE_SHIP ∧
      ((s.resetPlayer eng k).sGameObjInstList ship).clientID = k ∧
      (∀ j, j ≠ ship → pd.ship ≠ some j →
        (s.resetPlayer eng k).sGameObjInstList j = s.sGameObjInstList j) ∧
      (freeSlots s.sGameObjInstList).card
        ≤ (freeSlots (s.resetPlayer eng k).sGameObjInstList).card + 1 ∧
      (s.resetPlayer eng k).asteroids = s.asteroids ∧
      (s.resetPlayer eng k).bullets = s.bullets := by
  have hstep : ∀ pool1 : Pool,
      (freeSlots s.sGameObjInstList).card ≤ (freeSlots pool1).card →
      (∀ j, pd.ship ≠ some j → pool1 j = s.sGameObjInstList j) →
      s.resetPlayer eng k
        = GameServer.CreatePlayerShip eng
            { s with
              sGameObjInstList := pool1,
              players :=
                modifyPlayer k
                  (fun p => { p with ship := none, score := 0, lives := INITIAL_LIVES,
                                     isAlive := true })
                  s.players } k →
      ∃ ship, ((s.sGameObjInstList ship).flag = 0 ∨ pd.ship = some ship) ∧
        (s.resetPlayer eng k).players
          = modifyPlayer k
              (fun p => { p with ship := some ship, score := 0, lives := INITIAL_LIVES,
                                 isAlive := true })
              s.players ∧
        ((s.resetPlayer eng k).sGameObjInstList ship).flag = FLAG_ACTIVE ∧
        ((s.resetPlayer eng k).sGameObjInstList ship).pObject = some TYPE_SHIP ∧
        ((s.resetPlayer eng k).sGameObjInstList ship).clientID = k ∧
        (∀ j, j ≠ ship → pd.ship ≠ some j →
          (s.resetPlayer eng k).sGameObjInstList j = s.sGameObjInstList j) ∧
        (freeSlots s.sGameObjInstList).card
          ≤ (freeSlots (s.resetPlayer eng k).sGameObjInstList).card + 1 ∧
        (s.resetPlayer eng k).asteroids = s.asteroids ∧
        (s.resetPlayer eng k).bullets = s.bullets := by
    intro pool1 hcard hframe heq
    have hfind1 : playersFind k
        (modifyPlayer k
          (fun p => { p with ship := none, score := 0, lives := INITIAL_LIVES, isAlive := true })
          s.players)
        = some { pd with ship := none, score := 0, lives := INITIAL_LIVES, isAlive := true } := by
      rw [playersFind_modifyPlayer_same, hfind]
      rfl
    obtain ⟨ship, h0, hpl, hfl, hob, hcl, hfr, hcd, hast, hbul⟩ :=
      CreatePlayerShip_spec eng
        { s with
          sGameObjInstList := pool1,
          players :=
            modifyPlayer k
              (fun p => { p with ship := none, score := 0, lives := INITIAL_LIVES,
                                 isAlive := true })
              s.players } k _ hfind1 (by dsimp only; omega)
    rw [heq]
    dsimp only at h0 hpl hfr hcd hast hbul
    refine ⟨ship, ?_, ?_, hfl, hob, hcl, ?_, by omega, hast, hbul⟩
    · by_cases hs : pd.ship = some ship
      · exact Or.inr hs
      · left
        rw [← hframe ship hs]
        exact h0
    · rw [hpl, modifyPlayer_modifyPlayer]
    · intro j hj hjs
      rw [hfr j hj, hframe j hjs]
  have hcases : pd.ship = none ∨ ∃ old, pd.ship = some old := by
    cases pd.ship with
    | none => exact Or.inl rfl
    | some old => exact Or.inr ⟨old, rfl⟩
  rcases hcases with hsh | ⟨old, hsh⟩
  · apply hstep s.sGameObjInstList (le_refl _) (fun _ _ => rfl)
    simp only [GameServer.resetPlayer, hfind, hsh]
  · apply hstep (gameObjInstDestroy s.sGameObjInstList old) (freeSlots_destroy _ _)
    · intro j hj
      apply destroy_other
      intro h
      apply hj
      rw [hsh, h]
    · simp only [GameServer.resetPlayer, hfind, hsh]

theorem resetPlayers_spec (eng : Engine) (m : Nat) :
    ∀ (ks : List ClientID) (s : GameServer),
      ks.Nodup →
      (∀ k ∈ ks, ∃ pd, playersFind k s.players = some pd ∧
        ∀ ship, pd.ship = some ship → (s.sGameObjInstList ship).flag ≠ 0) →
      (∀ k ∈ ks, ∀ k' ∈ ks, k ≠ k' → ∀ pd pd' ship, playersFind k s.players = some pd →
        playersFind k' s.players = some pd' → pd.ship = some ship → pd'.ship ≠ some ship) →
      ks.length + m ≤ (freeSlots s.sGameObjInstList).card →
      (GameServer.resetPlayers eng ks s).players.map Prod.fst = s.players.map Prod.fst ∧
      (∀ k ∈ ks, ∃ pd', playersFind k (GameServer.resetPlayers eng ks s).players = some pd' ∧
        freshPlayer (GameServer.resetPlayers eng ks s).sGameObjInstList k pd') ∧
      (∀ k, k ∉ ks →
        playersFind k (GameServer.resetPlayers eng ks s).players = playersFind k s.players) ∧
      (∀ j, (s.sGameObjInstList j).flag ≠ 0 →
        (∀ k ∈ ks, ∀ pd, playersFind k s.players = some pd → pd.ship ≠ some j) →
        (GameServer.resetPlayers eng ks s).sGameObjInstList j = s.sGameObjInstList j) ∧
      m ≤ (freeSlots (GameServer.resetPlayers eng ks s).sGameObjInstList).card ∧
      (GameServer.resetPlayers eng ks s).asteroids = s.asteroids ∧
      (GameServer.resetPlayers eng ks s).bullets = s.bullets := by
  intro ks
  induction ks with
  | nil =>
    intro s _ _ _ hfree
    refine ⟨rfl, ?_, fun _ _ => rfl, fun _ _ _ => rfl, by simpa using hfree, rfl, rfl⟩
    intro k hk
    cases hk
  | cons k rest ih =>
    intro s hnodup huse hdist hfree
    have hnd := List.nodup_cons.mp hnodup
    obtain ⟨pd, hfind, hpduse⟩ := huse k (List.mem_cons_self _ _)
    simp only [List.length_cons] at hfree
    obtain ⟨ship, hnew, hpl, hfl, hob, hcl, hfr, hcd, hast, hbul⟩ :=
      resetPlayer_spec eng s k pd hfind (by omega)
    have hother : ∀ k', k' ≠ k →
        playersFind k' (s.resetPlayer eng k).players = playersFind k' s.players := by
      intro k' hne
      rw [hpl, playersFind_modifyPlayer_other k k' _ _ hne]
    have hrestne : ∀ k' ∈ rest, k' ≠ k := fun k' hk' h => hnd.1 (h ▸ hk')
    have hX : ∀ k' ∈ rest, ∀ pd' ship', playersFind k' s.players = some pd' →
        pd'.ship = some ship' → ship' ≠ ship ∧ pd.ship ≠ some ship' := by
      intro k' hk' pd' ship' hf' hs'
      have h1 : pd.ship ≠ some ship' :=
        hdist k' (List.mem_cons_of_mem _ hk') k (List.mem_cons_self _ _) (hrestne k' hk')
          pd' pd ship' hf' hfind hs'
      refine ⟨?_, h1⟩
      intro heq
      rcases hnew with h0 | h0
      · obtain ⟨pd2, hf2, huse2⟩ := huse k' (List.mem_cons_of_mem _ hk')
        rw [hf'] at hf2
        cases hf2
        exact huse2 ship' hs' (heq ▸ h0)
      · exact h1 (heq ▸ h0)
    have huse1 : ∀ k' ∈ rest, ∃ pd', playersFind k' (s.resetPlayer eng k).players = some pd' ∧
        ∀ ship', pd'.ship = some ship' →
          ((s.resetPlayer eng k).sGameObjInstList ship').flag ≠ 0 := by
      intro k' hk'
      obtain ⟨pd', hf', huse'⟩ := huse k' (List.mem_cons_of_mem _ hk')
      refine ⟨pd', by rw [hother k' (hrestne k' hk')]; exact hf', ?_⟩
      intro ship' hs'
      obtain ⟨hne1, hne2⟩ := hX k' hk' pd' ship' hf' hs'
      rw [hfr ship' hne1 hne2]
      exact huse' ship' hs'
    have hdist1 : ∀ a ∈ rest, ∀ b ∈ rest, a ≠ b → ∀ pa pb ship',
        playersFind a (s.resetPlayer eng k).players = some pa →
        playersFind b (s.resetPlayer eng k).players = some pb →
        pa.ship = some ship' → pb.ship ≠ some ship' := by
      intro a ha b hb hab pa pb ship' hfa hfb
      rw [hother a (hrestne a ha)] at hfa
      rw [hother b (hrestne b hb)] at hfb
      exact hdist a (List.mem_cons_of_mem _ ha) b (List.mem_cons_of_mem _ hb) hab pa pb ship'
        hfa hfb
    obtain ⟨i1, i2, i3, i4, i5, i6, i7⟩ := ih (s.resetPlayer eng k) hnd.2 huse1 hdist1 (by omega)
    have hshipkept : (GameServer.resetPlayers eng rest (s.resetPlayer eng k)).sGameObjInstList ship
        = (s.resetPlayer eng k).sGameObjInstList ship := by
      apply i4 ship
      · rw [hfl]; decide
      · intro k' hk' pd' hf' hs'
        rw [hother k' (hrestne k' hk')] at hf'
        exact (hX k' hk' pd' ship hf' hs').1 rfl
    simp only [GameServer.resetPlayers]
    refine ⟨?_, ?_, ?_, ?_, i5, by rw [i6, hast], by rw [i7, hbul]⟩
    · rw [i1, hpl, modifyPlayer_keys]
    · intro k0 hk0
      rcases List.mem_cons.mp hk0 with heq | hin
      · subst heq
        refine ⟨{ pd with ship := some ship, score := 0, lives := INITIAL_LIVES, isAlive := true },
          ?_, rfl, rfl, rfl, ship, rfl, ?_, ?_, ?_⟩
        · rw [i3 k0 hnd.1, hpl, playersFind_modifyPlayer_same, hfind]
          rfl
        · rw [hshipkept, hfl]
        · rw [hshipkept, hob]
        · rw [hshipkept, hcl]
      · exact i2 k0 hin
    · intro k0 hk0
      simp only [List.mem_cons, not_or] at hk0
      rw [i3 k0 hk0.2, hother k0 hk0.1]
    · intro j hj hnot
      have hjs : pd.ship ≠ some j := hnot k (List.mem_cons_self _ _) pd hfind
      have hjne : j ≠ ship := by
        intro heq
        rcases hnew with h0 | h0
        · exact hj (heq ▸ h0)
        · exact hjs (heq ▸ h0)
      have hj1 : (s.resetPlayer eng k).sGameObjInstList j = s.sGameObjInstList j :=
        hfr j hjne hjs
      rw [← hj1]
      apply i4 j
      · rw [hj1]; exact hj
      · intro k' hk' pd' hf'
        rw [hother k' (hrestne k' hk')] at hf'
        exact hnot k' (List.mem_cons_of_mem _ hk') pd' hf'

/-- With enough accepted draws and enough unused slots, the loop of
`CreateInitialAsteroids` returns, appends `n` distinct slots that were unused
before, each now an active asteroid whose computed distance from the centre is
not below 150, and touches no slot that was in use. -/
theorem createInitialLoop_spec (eng : Engine) (draws : InitDraws) (n : Nat) :
    ∀ (i : Nat) (disPos : List (ℚ × ℚ)) (s : GameServer),
      n ≤ (disPos.filter (farFromCenter eng.sqrtf)).length →
      n ≤ (freeSlots s.sGameObjInstList).card →
      ∃ s' new, GameServer.createInitialLoop eng draws n i disPos s = some s' ∧
        s'.players = s.players ∧ s'.bullets = s.bullets ∧
        s'.asteroids = s.asteroids ++ new ∧ new.length = n ∧ new.Nodup ∧
        (∀ a ∈ new, (s.sGameObjInstList a).flag = 0 ∧
          (s'.sGameObjInstList a).flag = FLAG_ACTIVE ∧
          (s'.sGameObjInstList a).pObject = some TYPE_ASTEROID ∧
          150 ≤ eng.sqrtf ((s'.sGameObjInstList a).posCurr.x * (s'.sGameObjInstList a).posCurr.x
                  + (s'.sGameObjInstList a).posCurr.y * (s'.sGameObjInstList a).posCurr.y)) ∧
        (∀ j, (s.sGameObjInstList j).flag ≠ 0 → s'.sGameObjInstList j = s.sGameObjInstList j) := by
  induction n with
  | zero =>
    intro i disPos s _ _
    refine ⟨s, [], rfl, rfl, rfl, by simp, rfl, List.nodup_nil, ?_, fun _ _ => rfl⟩
    intro a ha
    cases ha
  | succ n ih =>
    intro i disPos s hfar hfree
    obtain ⟨pos, later, hd, hposfar, hlen⟩ := drawSpawnPosition_of_far eng.sqrtf disPos (by omega)
    obtain ⟨a, ha0, hast, hafl, haob, hapos, hfr, hcd⟩ :=
      CreateAsteroid_spec s pos.1 pos.2 (draws.disVelX i) (draws.disVelY i)
        (ASTEROID_MAX_SCALE_X * draws.disScale i) (by omega)
    obtain ⟨s', new, hrun, hpl, hbul, hasts, hnlen, hnd, hnew, hframe⟩ :=
      ih (i + 1) later
        (s.CreateAsteroid pos.1 pos.2 (draws.disVelX i) (draws.disVelY i)
          (ASTEROID_MAX_SCALE_X * draws.disScale i)) (by omega) (by omega)
    have hact : FLAG_ACTIVE ≠ 0 := by decide
    have hakept : s'.sGameObjInstList a
        = (s.CreateAsteroid pos.1 pos.2 (draws.disVelX i) (draws.disVelY i)
            (ASTEROID_MAX_SCALE_X * draws.disScale i)).sGameObjInstList a := by
      apply hframe
      rw [hafl]
      exact hact
    have hanew : a ∉ new := by
      intro hin
      have h0 := (hnew a hin).1
      rw [hafl] at h0
      exact hact h0
    refine ⟨s', a :: new, ?_, ?_, ?_, ?_, ?_, ?_, ?_, ?_⟩
    · simp only [GameServer.createInitialLoop, hd]
      exact hrun
    · rw [hpl, CreateAsteroid_players]
    · rw [hbul, CreateAsteroid_bullets]
    · rw [hasts, hast, List.append_assoc]
      rfl
    · simp only [List.length_cons, hnlen]
    · exact List.nodup_cons.mpr ⟨hanew, hnd⟩
    · intro b hb
      rcases List.mem_cons.mp hb with heq | hin
      · subst heq
        refine ⟨ha0, ?_, ?_, ?_⟩
        · rw [hakept, hafl]
        · rw [hakept, haob]
        · rw [hakept, hapos]
          have hnot : ¬ eng.sqrtf (pos.1 * pos.1 + pos.2 * pos.2) < 150 := by
            simpa [farFromCenter] using hposfar
          exact not_lt.mp hnot
      · obtain ⟨hb0, hbrest⟩ := hnew b hin
        have hba : b ≠ a := fun h => hanew (h ▸ hin)
        refine ⟨?_, hbrest⟩
        rw [← hfr b hba]
        exact hb0
    · intro j hj
      have hja : j ≠ a := fun h => hj (h ▸ ha0)
      rw [← hfr j hja]
      apply hframe
      rw [hfr j hja]
      exact hj

/-- `GameServer::ResetGame` in a state whose players hold distinct ship
instances that are in use and are neither asteroids nor bullets: every player
ends with score 0, `INITIAL_LIVES` lives, alive, and an active ship instance
tagged with the id of that very player; there are no bullets and
`INITIAL_ASTEROID_COUNT` distinct active asteroids, each at computed distance
at least 150 from the origin. -/
theorem ResetGame_ships_tagged (eng : Engine) (draws : InitDraws) (s : GameServer)
    (hkeys : (s.players.map Prod.fst).Nodup)
    (hdist : shipsDistinct s.players)
    (huse : shipsInUse s)
    (hfree : s.players.length + INITIAL_ASTEROID_COUNT ≤ (freeSlots s.sGameObjInstList).card)
    (hfar : INITIAL_ASTEROID_COUNT ≤ (draws.disPos.filter (farFromCenter eng.sqrtf)).length) :
    ∃ s', s.ResetGame eng draws = some s' ∧
      s'.players.map Prod.fst = s.players.map Prod.fst ∧
      (∀ e ∈ s'.players, e.2.score = 0 ∧ e.2.lives = 3 ∧ e.2.isAlive = true ∧
        freshPlayer s'.sGameObjInstList e.1 e.2) ∧
      s'.bullets = [] ∧
      s'.asteroids.length = 4 ∧ s'.asteroids.Nodup ∧
      (∀ a ∈ s'.asteroids,
        (s'.sGameObjInstList a).flag = FLAG_ACTIVE ∧
        (s'.sGameObjInstList a).pObject = some TYPE_ASTEROID ∧
        150 ≤ eng.sqrtf ((s'.sGameObjInstList a).posCurr.x * (s'.sGameObjInstList a).posCurr.x
                + (s'.sGameObjInstList a).posCurr.y * (s'.sGameObjInstList a).posCurr.y)) ∧
      s'.gameStateTimer = 0 := by
  have hpool2 := foldl_destroy_spec s.bullets (s.asteroids.foldl gameObjInstDestroy s.sGameObjInstList)
  have hpool1 := foldl_destroy_spec s.asteroids s.sGameObjInstList
  have hkept : ∀ j, j ∉ s.asteroids → j ∉ s.bullets →
      s.bullets.foldl gameObjInstDestroy (s.asteroids.foldl gameObjInstDestroy s.sGameObjInstList) j
        = s.sGameObjInstList j := by
    intro j h1 h2
    rw [hpool2.2 j h2, hpool1.2 j h1]
  have hsymm : Symmetric (fun e e' : ClientID × PlayerData =>
      ∀ ship, e.2.ship = some ship → e'.2.ship ≠ some ship) := by
    intro e e' h ship hs' hs
    exact h ship hs hs'
  obtain ⟨i1, i2, _, _, i5, i6, i7⟩ :=
    resetPlayers_spec eng INITIAL_ASTEROID_COUNT (s.players.map Prod.fst)
      { s with
        sGameObjInstList :=
          s.bullets.foldl gameObjInstDestroy (s.asteroids.foldl gameObjInstDestroy s.sGameObjInstList),
        asteroids := [], bullets := [] }
      hkeys
      (by
        intro k hk
        obtain ⟨pd, hpd⟩ := playersFind_of_key s.players k hk
        refine ⟨pd, hpd, ?_⟩
        intro ship hs
        obtain ⟨h1, h2, h3⟩ := huse (k, pd) (playersFind_some_mem _ _ _ hpd) ship hs
        dsimp only
        rw [hkept ship h2 h3]
        exact h1)
      (by
        intro k _ k' _ hne pd pd' ship hf hf' hs
        have hm := playersFind_some_mem _ _ _ hf
        have hm' := playersFind_some_mem _ _ _ hf'
        have hne2 : (k, pd) ≠ (k', pd') := fun h => hne (congrArg Prod.fst h)
        exact List.Pairwise.forall hsymm hdist hm hm' hne2 ship hs)
      (by
        dsimp only
        rw [List.length_map]
        exact le_trans hfree (le_trans hpool1.1 hpool2.1))
  obtain ⟨s4, new, hrun, hpl, hbul, hasts, hnlen, hnd, hnew, hframe⟩ :=
    createInitialLoop_spec eng draws INITIAL_ASTEROID_COUNT 0 draws.disPos _ hfar i5
  refine ⟨{ s4 with gameStateTimer := 0 }, ?_, ?_, ?_, ?_, ?_, ?_, ?_, rfl⟩
  · unfold GameServer.ResetGame GameServer.CreateInitialAsteroids
    simp only
    rw [hrun]
  · dsimp only
    rw [hpl, i1]
  · intro e he
    dsimp only at he ⊢
    rw [hpl] at he
    have hk : e.1 ∈ s.players.map Prod.fst := by
      rw [← i1]
      exact List.mem_map_of_mem Prod.fst he
    obtain ⟨pd', hfind', hfresh⟩ := i2 e.1 hk
    have hfind := playersFind_of_mem _ e.1 e.2 (by rw [i1]; exact hkeys) he
    rw [hfind] at hfind'
    cases hfind'
    obtain ⟨h1, h2, h3, ship, h4, h5, h6, h7⟩ := hfresh
    have hshipkept := hframe ship (by rw [h5]; decide)
    refine ⟨h1, h2, h3, h1, h2, h3, ship, h4, ?_, ?_, ?_⟩
    · rw [hshipkept, h5]
    · rw [hshipkept, h6]
    · rw [hshipkept, h7]
  · dsimp only
    rw [hbul, i7]
  · dsimp only
    rw [hasts, i6]
    simpa using hnlen
  · dsimp only
    rw [hasts, i6]
    simpa using hnd
  · intro a ha
    dsimp only at ha ⊢
    rw [hasts, i6] at ha
    exact (hnew a (by simpa using ha)).2

/-! ### `ResetGame` without assumptions on the ship pointers -/

theorem gameObjInstCreate_lowest (pool : Pool) (type : Nat) (scale : AEVec2)
    (pPos pVel : Option AEVec2) (dir : ℚ) (i : Nat)
    (h : (gameObjInstCreate pool type scale pPos pVel dir).2 = some i) :
    i < GAME_OBJ_INST_NUM_MAX ∧ ∀ j, j < i → (pool j).flag ≠ 0 := by
  unfold gameObjInstCreate at h
  cases hfind : findUnusedInst pool GAME_OBJ_INST_NUM_MAX 0 with
  | none =>
    rw [hfind] at h
    cases h
  | some k =>
    rw [hfind] at h
    simp only [Option.some.injEq] at h
    subst h
    obtain ⟨_, h2, _, h4⟩ := findUnusedInst_some pool _ _ _ hfind
    exact ⟨by omega, fun j hj => h4 j (Nat.zero_le _) hj⟩

theorem destroy_flag (pool : Pool) (p : Nat) : (gameObjInstDestroy pool p p).flag = 0 := by
  unfold gameObjInstDestroy
  split_ifs with h
  · exact h
  · simp

/-- One step of the player loop seen on the pool: slot `d` (if any) is
destroyed, the lowest unused slot `i` then receives a new ship.  The new ship is
settled and every settled ship stays settled, also when `d` was a settled ship:
the new ship then takes that very slot. -/
theorem settledShip_step (eng : Engine) (pool pool1 pool3 : Pool) (d : Option Nat) (i : Nat)
    (hkeep : ∀ j, d ≠ some j → pool1 j = pool j)
    (hfreed : ∀ j, d = some j → (pool1 j).flag = 0)
    (hi : i < GAME_OBJ_INST_NUM_MAX) (hi0 : (pool1 i).flag = 0)
    (hilow : ∀ j, j < i → (pool1 j).flag ≠ 0)
    (hnew : createdShip eng (pool3 i)) (hframe : ∀ j, j ≠ i → pool3 j = pool1 j) :
    settledShip eng pool3 i ∧ ∀ a, settledShip eng pool a → settledShip eng pool3 a := by
  have hact : FLAG_ACTIVE ≠ 0 := by decide
  have hfirst : settledShip eng pool3 i :=
    ⟨hnew, hi, fun j hj => by rw [hframe j (Nat.ne_of_lt hj)]; exact hilow j hj⟩
  refine ⟨hfirst, ?_⟩
  intro a hset
  obtain ⟨hc, ha, hlow⟩ := hset
  by_cases hia : i = a
  · rw [← hia]
    exact hfirst
  · have hda : d ≠ some a := by
      intro hd
      have h0 := hfreed a hd
      have hlt : i < a := by
        rcases Nat.lt_trichotomy i a with h | h | h
        · exact h
        · exact absurd h hia
        · exact absurd h0 (hilow a h)
      have hdi : d ≠ some i := by
        intro h
        rw [hd] at h
        exact hia (Option.some.inj h).symm
      have hpi : pool1 i = pool i := hkeep i hdi
      exact hlow i hlt (by rw [← hpi]; exact hi0)
    have h1 : pool3 a = pool a := by rw [hframe a (Ne.symm hia), hkeep a hda]
    refine ⟨by rw [h1]; exact hc, ha, ?_⟩
    intro j hj
    by_cases hji : j = i
    · rw [hji, hnew.1]
      exact hact
    · rw [hframe j hji]
      by_cases hdj : d = some j
      · exfalso
        have h0 := hfreed j hdj
        have hlt : i < j := by
          rcases Nat.lt_trichotomy i j with h | h | h
          · exact h
          · exact absurd h.symm hji
          · exact absurd h0 (hilow j h)
        have hdi : d ≠ some i := by
          intro h
          rw [hdj] at h
          exact hji (Option.some.inj h)
        have hpi : pool1 i = pool i := hkeep i hdi
        exact hlow i (lt_trans hlt hj) (by rw [← hpi]; exact hi0)
      · rw [hkeep j hdj]
        exact hlow j hj

theorem CreatePlayerShip_settled (eng : Engine) (s : GameServer) (k : ClientID) (pd : PlayerData)
    (hfind : playersFind k s.players = some pd) (hfree : 1 ≤ (freeSlots s.sGameObjInstList).card) :
    ∃ ship, ship < GAME_OBJ_INST_NUM_MAX ∧ (s.sGameObjInstList ship).flag = 0 ∧
      (∀ j, j < ship → (s.sGameObjInstList j).flag ≠ 0) ∧
      (s.CreatePlayerShip eng k).players
        = modifyPlayer k (fun p => { p with ship := some ship, isAlive := true }) s.players ∧
      createdShip eng ((s.CreatePlayerShip eng k).sGameObjInstList ship) ∧
      (∀ j, j ≠ ship → (s.CreatePlayerShip eng k).sGameObjInstList j = s.sGameObjInstList j) ∧
      (freeSlots s.sGameObjInstList).card
        ≤ (freeSlots (s.CreatePlayerShip eng k).sGameObjInstList).card + 1 ∧
      (s.CreatePlayerShip eng k).asteroids = s.asteroids ∧
      (s.CreatePlayerShip eng k).bullets = s.bullets := by
  obtain ⟨ship, hflag, hcreate, _⟩ := gameObjInstCreate_spec s.sGameObjInstList TYPE_SHIP
    ⟨SHIP_SCALE_X * (5 / 2), SHIP_SCALE_Y * (5 / 2)⟩
    (some ⟨eng.cosf (((k : ℚ) - 1) * (2 * eng.PI / 4)) * 100,
           eng.sinf (((k : ℚ) - 1) * (2 * eng.PI / 4)) * 100⟩)
    none (((k : ℚ) - 1) * (2 * eng.PI / 4) + eng.PI) hfree
  obtain ⟨hlt, hlow⟩ := gameObjInstCreate_lowest s.sGameObjInstList TYPE_SHIP
    ⟨SHIP_SCALE_X * (5 / 2), SHIP_SCALE_Y * (5 / 2)⟩
    (some ⟨eng.cosf (((k : ℚ) - 1) * (2 * eng.PI / 4)) * 100,
           eng.sinf (((k : ℚ) - 1) * (2 * eng.PI / 4)) * 100⟩)
    none (((k : ℚ) - 1) * (2 * eng.PI / 4) + eng.PI) ship (by rw [hcreate])
  obtain ⟨ship2, h0, hpl, hfl, _, _, hfr, hcd, hast, hbul⟩ :=
    CreatePlayerShip_spec eng s k pd hfind hfree
  have hsame : ship2 = ship := by
    by_contra hne
    have h1 : (s.CreatePlayerShip eng k).sGameObjInstList ship
        = Function.update
            (Function.update s.sGameObjInstList ship
              { s.sGameObjInstList ship with
                pObject := some TYPE_SHIP, flag := FLAG_ACTIVE,
                scale := ⟨SHIP_SCALE_X * (5 / 2), SHIP_SCALE_Y * (5 / 2)⟩,
                posCurr := ⟨eng.cosf (((k : ℚ) - 1) * (2 * eng.PI / 4)) * 100,
                            eng.sinf (((k : ℚ) - 1) * (2 * eng.PI / 4)) * 100⟩,
                velCurr := ⟨0, 0⟩,
                dirCurr := ((k : ℚ) - 1) * (2 * eng.PI / 4) + eng.PI })
            ship
            { s.sGameObjInstList ship with
                pObject := some TYPE_SHIP, flag := FLAG_ACTIVE,
                scale := ⟨SHIP_SCALE_X * (5 / 2), SHIP_SCALE_Y * (5 / 2)⟩,
                posCurr := ⟨eng.cosf (((k : ℚ) - 1) * (2 * eng.PI / 4)) * 100,
                            eng.sinf (((k : ℚ) - 1) * (2 * eng.PI / 4)) * 100⟩,
                velCurr := ⟨0, 0⟩,
                dirCurr := ((k : ℚ) - 1) * (2 * eng.PI / 4) + eng.PI,
                clientID := k } ship := by
      simp only [GameServer.CreatePlayerShip, hfind, hcreate, Function.update_same,
        Option.getD_some, Option.getD_none]
    rw [Function.update_same] at h1
    have h2 := hfr ship (Ne.symm hne)
    rw [h1] at h2
    have h3 := congrArg GameObjInst.flag h2
    rw [hflag] at h3
    exact absurd h3 (by simp [FLAG_ACTIVE])
  subst hsame
  refine ⟨ship2, hlt, h0, hlow, hpl, ?_, hfr, hcd, hast, hbul⟩
  simp only [GameServer.CreatePlayerShip, hfind, hcreate, Function.update_same,
    Option.getD_some, Option.getD_none, createdShip, and_self]

theorem resetPlayer_settled (eng : Engine) (s : GameServer) (k : ClientID) (pd : PlayerData)
    (hfind : playersFind k s.players = some pd) (hfree : 1 ≤ (freeSlots s.sGameObjInstList).card) :
    ∃ ship,
      (s.resetPlayer eng k).players
        = modifyPlayer k
            (fun p => { p with ship := some ship, score := 0, lives := INITIAL_LIVES,
                               isAlive := true })
            s.players ∧
      settledShip eng (s.resetPlayer eng k).sGameObjInstList ship ∧
      (∀ a, settledShip eng s.sGameObjInstList a →
        settledShip eng (s.resetPlayer eng k).sGameObjInstList a) ∧
      (freeSlots s.sGameObjInstList).card
        ≤ (freeSlots (s.resetPlayer eng k).sGameObjInstList).card + 1 ∧
      (s.resetPlayer eng k).asteroids = s.asteroids ∧
      (s.resetPlayer eng k).bullets = s.bullets := by
  have hstep : ∀ pool1 : Pool,
      (freeSlots s.sGameObjInstList).card ≤ (freeSlots pool1).card →
      (∀ j, pd.ship ≠ some j → pool1 j = s.sGameObjInstList j) →
      (∀ j, pd.ship = some j → (pool1 j).flag = 0) →
      s.resetPlayer eng k
        = GameServer.CreatePlayerShip eng
            { s with
              sGameObjInstList := pool1,
              players :=
                modifyPlayer k
                  (fun p => { p with ship := none, score := 0, lives := INITIAL_LIVES,
                                     isAlive := true })
                  s.players } k →
      ∃ ship,
        (s.resetPlayer eng k).players
          = modifyPlayer k
              (fun p => { p with ship := some ship, score := 0, lives := INITIAL_LIVES,
                                 isAlive := true })
              s.players ∧
        settledShip eng (s.resetPlayer eng k).sGameObjInstList ship ∧
        (∀ a, settledShip eng s.sGameObjInstList a →
          settledShip eng (s.resetPlayer eng k).sGameObjInstList a) ∧
        (freeSlots s.sGameObjInstList).card
          ≤ (freeSlots (s.resetPlayer eng k).sGameObjInstList).card + 1 ∧
        (s.resetPlayer eng k).asteroids = s.asteroids ∧
        (s.resetPlayer eng k).bullets = s.bullets := by
    intro pool1 hcard hkeep hfreed heq
    have hfind1 : playersFind k
        (modifyPlayer k
          (fun p => { p with ship := none, score := 0, lives := INITIAL_LIVES, isAlive := true })
          s.players)
        = some { pd with ship := none, score := 0, lives := INITIAL_LIVES, isAlive := true } := by
      rw [playersFind_modifyPlayer_same, hfind]
      rfl
    obtain ⟨ship, hlt, h0, hlow, hpl, hnew, hfr, hcd, hast, hbul⟩ :=
      CreatePlayerShip_settled eng
        { s with
          sGameObjInstList := pool1,
          players :=
            modifyPlayer k
              (fun p => { p with ship := none, score := 0, lives := INITIAL_LIVES,
                                 isAlive := true })
              s.players } k _ hfind1 (by dsimp only; omega)
    rw [heq]
    dsimp only at h0 hlow hpl hfr hcd hast hbul
    obtain ⟨hs1, hs2⟩ := settledShip_step eng s.sGameObjInstList pool1 _ pd.ship ship hkeep hfreed
      hlt h0 hlow hnew hfr
    refine ⟨ship, ?_, hs1, hs2, by omega, hast, hbul⟩
    rw [hpl, modifyPlayer_modifyPlayer]
  have hcases : pd.ship = none ∨ ∃ old, pd.ship = some old := by
    cases pd.ship with
    | none => exact Or.inl rfl
    | some old => exact Or.inr ⟨old, rfl⟩
  rcases hcases with hsh | ⟨old, hsh⟩
  · apply hstep s.sGameObjInstList (le_refl _) (fun _ _ => rfl)
    · intro j hj
      rw [hsh] at hj
      cases hj
    · simp only [GameServer.resetPlayer, hfind, hsh]
  · apply hstep (gameObjInstDestroy s.sGameObjInstList old) (freeSlots_destroy _ _)
    · intro j hj
      apply destroy_other
      intro h
      apply hj
      rw [hsh, h]
    · intro j hj
      rw [hsh] at hj
      cases hj
      exact destroy_flag _ _
    · simp only [GameServer.resetPlayer, hfind, hsh]

/-- The player loop of `ResetGame` over the keys `ks`, with an unused slot for
each of them and `m` to spare: the keys of the map stay, every visited player
ends with a reset record, the other entries are as before, settled ships stay
settled, and `m` unused slots are left. -/
theorem resetPlayers_settled (eng : Engine) (m : Nat) :
    ∀ (ks : List ClientID) (s : GameServer),
      ks.Nodup →
      (∀ k ∈ ks, ∃ pd, playersFind k s.players = some pd) →
      ks.length + m ≤ (freeSlots s.sGameObjInstList).card →
      (GameServer.resetPlayers eng ks s).players.map Prod.fst = s.players.map Prod.fst ∧
      (∀ k ∈ ks, ∃ pd', playersFind k (GameServer.resetPlayers eng ks s).players = some pd' ∧
        resetRecord eng (GameServer.resetPlayers eng ks s).sGameObjInstList pd') ∧
      (∀ k, k ∉ ks →
        playersFind k (GameServer.resetPlayers eng ks s).players = playersFind k s.players) ∧
      (∀ a, settledShip eng s.sGameObjInstList a →
        settledShip eng (GameServer.resetPlayers eng ks s).sGameObjInstList a) ∧
      m ≤ (freeSlots (GameServer.resetPlayers eng ks s).sGameObjInstList).card ∧
      (GameServer.resetPlayers eng ks s).asteroids = s.asteroids ∧
      (GameServer.resetPlayers eng ks s).bullets = s.bullets := by
  intro ks
  induction ks with
  | nil =>
    intro s _ _ hfree
    refine ⟨rfl, ?_, fun _ _ => rfl, fun _ h => h, by simpa using hfree, rfl, rfl⟩
    intro k hk
    cases hk
  | cons k rest ih =>
    intro s hnodup hfound hfree
    have hnd := List.nodup_cons.mp hnodup
    obtain ⟨pd, hfind⟩ := hfound k (List.mem_cons_self _ _)
    simp only [List.length_cons] at hfree
    obtain ⟨ship, hpl, hset, hkeep, hcd, hast, hbul⟩ :=
      resetPlayer_settled eng s k pd hfind (by omega)
    have hother : ∀ k', k' ≠ k →
        playersFind k' (s.resetPlayer eng k).players = playersFind k' s.players := by
      intro k' hne
      rw [hpl, playersFind_modifyPlayer_other k k' _ _ hne]
    have hrestne : ∀ k' ∈ rest, k' ≠ k := fun k' hk' h => hnd.1 (h ▸ hk')
    have hfound1 : ∀ k' ∈ rest, ∃ pd', playersFind k' (s.resetPlayer eng k).players = some pd' := by
      intro k' hk'
      rw [hother k' (hrestne k' hk')]
      exact hfound k' (List.mem_cons_of_mem _ hk')
    obtain ⟨i1, i2, i3, i4, i5, i6, i7⟩ := ih (s.resetPlayer eng k) hnd.2 hfound1 (by omega)
    simp only [GameServer.resetPlayers]
    refine ⟨?_, ?_, ?_, fun a ha => i4 a (hkeep a ha), i5, by rw [i6, hast], by rw [i7, hbul]⟩
    · rw [i1, hpl, modifyPlayer_keys]
    · intro k0 hk0
      rcases List.mem_cons.mp hk0 with heq | hin
      · subst heq
        refine ⟨{ pd with ship := some ship, score := 0, lives := INITIAL_LIVES, isAlive := true },
          ?_, rfl, rfl, rfl, ship, rfl, i4 ship hset⟩
        rw [i3 k0 hnd.1, hpl, playersFind_modifyPlayer_same, hfind]
        rfl
      · exact i2 k0 hin
    · intro k0 hk0
      simp only [List.mem_cons, not_or] at hk0
      rw [i3 k0 hk0.2, hother k0 hk0.1]

/-- The statements of `GameServer::ResetGame`, run one after the other with
every lock granted, in any state whose
pool has an unused slot for every tracked player and for each of the
`INITIAL_ASTEROID_COUNT` asteroids (the keys of the player map being distinct),
with random draws of which `INITIAL_ASTEROID_COUNT` pass the distance test,
returns a state with the same players, each with score 0, `INITIAL_LIVES` (3)
lives, alive and pointing to an active ship instance as `CreatePlayerShip`
makes it; with no bullets; with exactly `INITIAL_ASTEROID_COUNT` (4) distinct
asteroids, each active and at computed distance at least 150 from the origin;
and with `gameStateTimer` 0. -/
theorem ResetGame_postcondition (eng : Engine) (draws : InitDraws) (s : GameServer)
    (hkeys : (s.players.map Prod.fst).Nodup)
    (hfree : s.players.length + INITIAL_ASTEROID_COUNT ≤ (freeSlots s.sGameObjInstList).card)
    (hfar : INITIAL_ASTEROID_COUNT ≤ (draws.disPos.filter (farFromCenter eng.sqrtf)).length) :
    ∃ s', s.ResetGame eng draws = some s' ∧
      s'.players.map Prod.fst = s.players.map Prod.fst ∧
      (∀ e ∈ s'.players, e.2.score = 0 ∧ e.2.lives = 3 ∧ e.2.isAlive = true ∧
        ∃ ship, e.2.ship = some ship ∧ createdShip eng (s'.sGameObjInstList ship)) ∧
      s'.bullets = [] ∧
      s'.asteroids.length = 4 ∧ s'.asteroids.Nodup ∧
      (∀ a ∈ s'.asteroids,
        (s'.sGameObjInstList a).flag = FLAG_ACTIVE ∧
        (s'.sGameObjInstList a).pObject = some TYPE_ASTEROID ∧
        150 ≤ eng.sqrtf ((s'.sGameObjInstList a).posCurr.x * (s'.sGameObjInstList a).posCurr.x
                + (s'.sGameObjInstList a).posCurr.y * (s'.sGameObjInstList a).posCurr.y)) ∧
      s'.gameStateTimer = 0 := by
  have hpool2 := foldl_destroy_spec s.bullets (s.asteroids.foldl gameObjInstDestroy s.sGameObjInstList)
  have hpool1 := foldl_destroy_spec s.asteroids s.sGameObjInstList
  obtain ⟨i1, i2, _, _, i5, i6, i7⟩ :=
    resetPlayers_settled eng INITIAL_ASTEROID_COUNT (s.players.map Prod.fst)
      { s with
        sGameObjInstList :=
          s.bullets.foldl gameObjInstDestroy (s.asteroids.foldl gameObjInstDestroy s.sGameObjInstList),
        asteroids := [], bullets := [] }
      hkeys
      (fun k hk => playersFind_of_key s.players k hk)
      (by
        dsimp only
        rw [List.length_map]
        exact le_trans hfree (le_trans hpool1.1 hpool2.1))
  obtain ⟨s4, new, hrun, hpl, hbul, hasts, hnlen, hnd, hnew, hframe⟩ :=
    createInitialLoop_spec eng draws INITIAL_ASTEROID_COUNT 0 draws.disPos _ hfar i5
  refine ⟨{ s4 with gameStateTimer := 0 }, ?_, ?_, ?_, ?_, ?_, ?_, ?_, rfl⟩
  · unfold GameServer.ResetGame GameServer.CreateInitialAsteroids
    simp only
    rw [hrun]
  · dsimp only
    rw [hpl, i1]
  · intro e he
    dsimp only at he ⊢
    rw [hpl] at he
    have hk : e.1 ∈ s.players.map Prod.fst := by
      rw [← i1]
      exact List.mem_map_of_mem Prod.fst he
    obtain ⟨pd', hfind', hrec⟩ := i2 e.1 hk
    have hfind := playersFind_of_mem _ e.1 e.2 (by rw [i1]; exact hkeys) he
    rw [hfind] at hfind'
    cases hfind'
    obtain ⟨h1, h2, h3, ship, h4, h5, _, _⟩ := hrec
    refine ⟨h1, h2, h3, ship, h4, ?_⟩
    rw [hframe ship (by rw [h5.1]; decide)]
    exact h5
  · dsimp only
    rw [hbul, i7]
  · dsimp only
    rw [hasts, i6]
    simpa using hnlen
  · dsimp only
    rw [hasts, i6]
    simpa using hnd
  · intro a ha
    dsimp only at ha ⊢
    rw [hasts, i6] at ha
    exact (hnew a (by simpa using ha)).2

/-! ### Instances of the theorems of this part that carry hypotheses -/

/-- C11 at a concrete input: peer 1 of `fourPeers` asks again from its address;
every request is answered with the id 1 and the table stays as it is. -/
theorem C11_witness :
    (∀ env : NetEnv,
      fourPeers.HandleConnectionRequest env ⟨2, 5001, 11⟩
        = (fourPeers,
           [NetEvent.sendto_ConnectAccept
              { type := MessageType.CONNECT_ACCEPT, clientID := 0, sequence := 0,
                assignedID := 1, totalPlayers := fourPeers.clients.length % 256 } ⟨2, 5001, 11⟩],
           true)) ∧
    ∀ n : Nat,
      requestRepeatedly (fun _ => sampleEnv) ⟨2, 5001, 11⟩ n fourPeers
        = (fourPeers,
           List.replicate n
             (NetEvent.sendto_ConnectAccept
                { type := MessageType.CONNECT_ACCEPT, clientID := 0, sequence := 0,
                  assignedID := 1, totalPlayers := fourPeers.clients.length % 256 }
                ⟨2, 5001, 11⟩)) :=
  C11_resend_same_id (fun _ => sampleEnv) fourPeers ⟨2, 5001, 11⟩ 1 (peerEntry 1 5001 11 true).2
    (List.mem_cons_self _ _) rfl rfl rfl
    (by
      intro q hq _ ha _
      simp only [fourPeers, List.mem_cons, List.mem_singleton, List.not_mem_nil, or_false] at hq
      rcases hq with rfl | rfl | rfl | rfl <;>
        first
          | rfl
          | exact absurd ha (by decide))

/-- C13 at a concrete input: the only peer was last heard at tick 1000; a scan
six seconds later marks it inactive and fires its disconnect callback once, a
scan four seconds later leaves it as it is and fires nothing. -/
theorem C13_witness :
    ((1, { (peerEntryAt 1000 1 5001 11 true).2 with active := false })
        ∈ (UDPServer.CheckClientTimeouts 6000001000
            { isRunning := true, clients := [peerEntryAt 1000 1 5001 11 true],
              nextClientID := 2 }).1.clients ∧
      (UDPServer.CheckClientTimeouts 6000001000
          { isRunning := true, clients := [peerEntryAt 1000 1 5001 11 true],
            nextClientID := 2 }).2.count (NetEvent.onClientDisconnect 1) = 1) ∧
    ((1, (peerEntryAt 1000 1 5001 11 true).2)
        ∈ (UDPServer.CheckClientTimeouts 4000001000
            { isRunning := true, clients := [peerEntryAt 1000 1 5001 11 true],
              nextClientID := 2 }).1.clients ∧
      (UDPServer.CheckClientTimeouts 4000001000
          { isRunning := true, clients := [peerEntryAt 1000 1 5001 11 true],
            nextClientID := 2 }).2.count (NetEvent.onClientDisconnect 1) = 0) :=
  ⟨(C13_timeout_once 6000001000
      { isRunning := true, clients := [peerEntryAt 1000 1 5001 11 true], nextClientID := 2 }
      1 (peerEntryAt 1000 1 5001 11 true).2 (List.mem_cons_self _ _)
      (List.nodup_singleton _)).2.1 rfl (by norm_num [peerEntryAt, TIMEOUT_DURATION]),
   (C13_timeout_once 4000001000
      { isRunning := true, clients := [peerEntryAt 1000 1 5001 11 true], nextClientID := 2 }
      1 (peerEntryAt 1000 1 5001 11 true).2 (List.mem_cons_self _ _)
      (List.nodup_singleton _)).2.2.1 rfl (by norm_num [peerEntryAt, TIMEOUT_DURATION])⟩

/-- C16 at a concrete input: in `scorelessServer` the only player is not alive,
so the call ends the game and sends the `GAME_END` message to the connected
peer. -/
theorem C16_witness :
    scorelessServer.CheckGameEndConditions
      = ({ scorelessServer with gameInProgress := false, gameEndTimer := GAME_END_DURATION },
         scorelessServer.server.BroadcastToAll
           (NetEvent.sendto_GameEnd scorelessServer.gameEndMessage)) :=
  (C16_end_condition scorelessServer).1 (Or.inl rfl)

/-- C20 at a concrete input: a three-byte `DISCONNECT` datagram from peer 1 of
`fourPeers` and a five-byte `PLAYER_INPUT` buffer for player 1 of
`scorelessServer` change nothing. -/
theorem C20_witness :
    fourPeers.processDatagram sampleEnv [4, 1, 0] ⟨2, 5001, 11⟩ = (fourPeers, []) ∧
    scorelessServer.OnMessage 1 [6, 1, 0, 0, 1] = scorelessServer :=
  ⟨C20_truncated_discarded.1 sampleEnv fourPeers [4, 1, 0] ⟨2, 5001, 11⟩ (by decide),
   C20_truncated_discarded.2 scorelessServer 1 [6, 1, 0, 0, 1] (by decide)⟩

/-! ### The swept box test: completeness and symmetry -/

/-- On one axis: when the window `tw` contains a time `t ≥ 0` at which the
projections of the boxes overlap, the axis block does not return `0` and the
updated window still contains `t`. -/
theorem sweepAxis_keeps_overlap_time (min1 max1 min2 max2 v : ℚ) (tw : ℚ × ℚ) (t : ℚ)
    (h0 : 0 ≤ t) (ht1 : tw.1 ≤ t) (ht2 : t ≤ tw.2)
    (ha : min2 + v * t ≤ max1) (hb : min1 ≤ max2 + v * t) :
    ∃ r, sweepAxis min1 max1 min2 max2 v tw = some r ∧ r.1 ≤ t ∧ t ≤ r.2 := by
  unfold sweepAxis
  by_cases hv : v < 0
  · simp only [hv, if_true]
    have hvt : v * t ≤ 0 := mul_nonpos_of_nonpos_of_nonneg (le_of_lt hv) h0
    have h1 : ¬ min1 > max2 := by
      intro h
      linarith
    simp only [h1, if_false]
    refine ⟨_, rfl, ?_, ?_⟩
    · dsimp only
      split_ifs
      · apply max_le _ ht1
        rw [div_le_iff_of_neg hv]
        linarith
      · exact ht1
    · dsimp only
      split_ifs
      · apply le_min _ ht2
        rw [le_div_iff_of_neg hv]
        linarith
      · exact ht2
  · simp only [hv, if_false]
    by_cases hv2 : v > 0
    · simp only [hv2, if_true]
      have hvt : 0 ≤ v * t := mul_nonneg (le_of_lt hv2) h0
      have h2 : ¬ max1 < min2 := by
        intro h
        linarith
      simp only [h2, if_false]
      refine ⟨_, rfl, ?_, ?_⟩
      · dsimp only
        split_ifs
        · apply max_le _ ht1
          rw [div_le_iff₀ hv2]
          linarith
        · exact ht1
      · dsimp only
        split_ifs
        · apply le_min _ ht2
          rw [le_div_iff₀ hv2]
          linarith
        · exact ht2
    · simp only [hv2, if_false]
      have hv0 : v = 0 := le_antisymm (not_lt.mp hv2) (not_lt.mp hv)
      subst hv0
      have h2 : ¬ max1 < min2 := by
        intro h
        linarith
      have h1 : ¬ min1 > max2 := by
        intro h
        linarith
      simp only [h1, h2, if_false]
      exact ⟨tw, rfl, ht1, ht2⟩

/-- In exact arithmetic: when at some time `t` with `0 ≤ t ≤ g_dt` the box
`aabb1` moved by `vel1 * t` and the box `aabb2` moved by `vel2 * t` overlap
(closed boxes), the function returns `true`.  The quotients of the source are
`float` divisions, whose rounding is not part of `sweepAxis`. -/
theorem CollisionIntersection_RectRect_complete_exact (g_dt : ℚ) (aabb1 aabb2 : AABB) (vel1 vel2 : AEVec2)
    (firstTimeOfCollision t : ℚ) (h0 : 0 ≤ t) (h1 : t ≤ g_dt)
    (hov : overlapAt aabb1 vel1 aabb2 vel2 t) :
    (CollisionIntersection_RectRect g_dt aabb1 vel1 aabb2 vel2 firstTimeOfCollision).1 = true := by
  simp only [overlapAt, staticSeparated, AABB.translate, not_or, not_lt] at hov
  obtain ⟨hx1, hy1, hx2, hy2⟩ := hov
  by_cases hs : staticSeparated aabb1 aabb2
  · obtain ⟨tx, hsx, htx1, htx2⟩ :=
      sweepAxis_keeps_overlap_time aabb1.min.x aabb1.max.x aabb2.min.x aabb2.max.x
        (vel2.x - vel1.x) (0, g_dt) t h0 h0 h1 (by linarith) (by linarith)
    obtain ⟨ty, hsy, hty1, hty2⟩ :=
      sweepAxis_keeps_overlap_time aabb1.min.y aabb1.max.y aabb2.min.y aabb2.max.y
        (vel2.y - vel1.y) tx t h0 htx1 htx2 (by linarith) (by linarith)
    have h6x : ¬ tx.1 > tx.2 := not_lt.mpr (le_trans htx1 htx2)
    have h6y : ¬ ty.1 > ty.2 := not_lt.mpr (le_trans hty1 hty2)
    simp only [CollisionIntersection_RectRect, hs, if_true, hsx, hsy, h6x, h6y, if_false]
  · simp only [CollisionIntersection_RectRect, hs, if_false]

/-- The axis block gives the same result when the two boxes change places and
the relative velocity changes sign. -/
theorem sweepAxis_swap (min1 max1 min2 max2 v : ℚ) (tw : ℚ × ℚ) :
    sweepAxis min2 max2 min1 max1 (-v) tw = sweepAxis min1 max1 min2 max2 v tw := by
  have hd1 : (min2 - max1) / -v = (max1 - min2) / v := by
    rw [div_neg, ← neg_div, neg_sub]
  have hd2 : (max2 - min1) / -v = (min1 - max2) / v := by
    rw [div_neg, ← neg_div, neg_sub]
  unfold sweepAxis
  rcases lt_trichotomy v 0 with hv | hv | hv
  · have hn1 : ¬ -v < 0 := by linarith
    have hn2 : -v > 0 := by linarith
    simp only [hv, hn1, hn2, if_true, if_false, hd1, hd2, gt_iff_lt]
  · subst hv
    simp only [neg_zero, lt_irrefl, if_false, gt_iff_lt]
    by_cases h1 : max1 < min2 <;> by_cases h2 : max2 < min1 <;> simp [h1, h2]
  · have hn1 : -v < 0 := by linarith
    have hn2 : ¬ v < 0 := by linarith
    simp only [hv, hn1, hn2, if_true, if_false, hd1, hd2, gt_iff_lt]

theorem staticSeparated_swap (aabb1 aabb2 : AABB) :
    staticSeparated aabb2 aabb1 ↔ staticSeparated aabb1 aabb2 := by
  unfold staticSeparated
  constructor <;> (intro h; rcases h with h | h | h | h) <;> simp [h]

/-- C29: the boolean result does not change when the two objects change
places, for all boxes, velocities, tick durations and prior values of the
output variable. -/
theorem C29_symmetric (g_dt : ℚ) (a b : AABB) (va vb : AEVec2) (outA outB : ℚ) :
    (CollisionIntersection_RectRect g_dt a va b vb outA).1
      = (CollisionIntersection_RectRect g_dt b vb a va outB).1 := by
  have hx : va.x - vb.x = -(vb.x - va.x) := by ring
  have hy : va.y - vb.y = -(vb.y - va.y) := by ring
  by_cases hs : staticSeparated a b
  · have hs2 : staticSeparated b a := (staticSeparated_swap a b).mpr hs
    simp only [CollisionIntersection_RectRect, hs, hs2, if_true, hx, hy, sweepAxis_swap]
    cases sweepAxis a.min.x a.max.x b.min.x b.max.x (vb.x - va.x) (0, g_dt) with
    | none => rfl
    | some tx =>
      dsimp only
      by_cases h6 : tx.1 > tx.2
      · simp only [h6, if_true]
      · simp only [h6, if_false]
        cases sweepAxis a.min.y a.max.y b.min.y b.max.y (vb.y - va.y) tx with
        | none => rfl
        | some ty =>
          dsimp only
          by_cases h6y : ty.1 > ty.2
          · simp only [h6y, if_true]
          · simp only [h6y, if_false]
  · have hs2 : ¬ staticSeparated b a := fun h => hs ((staticSeparated_swap a b).mp h)
    simp only [CollisionIntersection_RectRect, hs, hs2, if_false]

/-! ### Heartbeats after a reconnect -/

/-- C24 (failing input): a client connects from endpoint (5001, 11), sends
`DISCONNECT`, and connects again from the same endpoint, which makes it peer 2
next to the inactive entry of peer 1.  A `HEARTBEAT` from that endpoint at
second 4 is written to the inactive entry of peer 1; the entry of the active
peer 2 keeps `lastHeartbeatTime` at second 3.  With one heartbeat per second up
to second 8, the timeout scan at second 8.5 finds peer 2 silent for more than
five seconds and disconnects it. -/
theorem C24_heartbeat_hits_stale_entry :
    (UDPServer.ProcessIncomingMessages { isRunning := true, clients := [], nextClientID := 1 }
        [(envAt 1000000000, [1, 0, 0, 0], ⟨2, 5001, 11⟩),
         (envAt 2000000000, [4, 1, 0, 0], ⟨2, 5001, 11⟩),
         (envAt 3000000000, [1, 0, 0, 0], ⟨2, 5001, 11⟩)]).1
      = reconnectedServer ∧
    reconnectedServer.processDatagram (envAt 4000000000) [9, 2, 0, 0] ⟨2, 5001, 11⟩
      = ({ reconnectedServer with
            clients := [peerEntryAt 4000000000 1 5001 11 false,
                        peerEntryAt 3000000000 2 5001 11 true] },
         []) ∧
    UDPServer.CheckClientTimeouts 8500000000
        (UDPServer.ProcessIncomingMessages reconnectedServer
          [(envAt 4000000000, [9, 2, 0, 0], ⟨2, 5001, 11⟩),
           (envAt 5000000000, [9, 2, 0, 0], ⟨2, 5001, 11⟩),
           (envAt 6000000000, [9, 2, 0, 0], ⟨2, 5001, 11⟩),
           (envAt 7000000000, [9, 2, 0, 0], ⟨2, 5001, 11⟩),
           (envAt 8000000000, [9, 2, 0, 0], ⟨2, 5001, 11⟩)]).1
      = ({ reconnectedServer with
            clients := [peerEntryAt 8000000000 1 5001 11 false,
                        peerEntryAt 3000000000 2 5001 11 false] },
         [NetEvent.onClientDisconnect 2]) := by
  refine ⟨?_, ?_, ?_⟩
  · rfl
  · rfl
  · rfl

/-- The `HEARTBEAT` loop writes the time to the first entry with the sender's
endpoint, whether that entry is active or not. -/
theorem heartbeatLoop_first_match (now : Nat) (clientAddr : sockaddr_in)
    (pair : ClientID × ClientConnection) (rest : List (ClientID × ClientConnection))
    (h : matchesEndpoint clientAddr pair.2 = true) :
    heartbeatLoop now clientAddr (pair :: rest)
      = (pair.1, { pair.2 with lastHeartbeatTime := now }) :: rest := by
  simp only [heartbeatLoop, h, if_true]

/-! ### Splitting an asteroid -/

theorem CreateAsteroid_inst (s : GameServer) (x y velX velY scale : ℚ)
    (hfree : 1 ≤ (freeSlots s.sGameObjInstList).card) :
    ∃ a, (s.sGameObjInstList a).flag = 0 ∧
      (s.CreateAsteroid x y velX velY scale).asteroids = s.asteroids ++ [a] ∧
      (s.CreateAsteroid x y velX velY scale).sGameObjInstList
        = Function.update s.sGameObjInstList a
            { s.sGameObjInstList a with
              pObject := some TYPE_ASTEROID, flag := FLAG_ACTIVE, scale := ⟨scale, scale⟩,
              posCurr := ⟨x, y⟩, velCurr := ⟨velX, velY⟩, dirCurr := 0 } ∧
      (freeSlots s.sGameObjInstList).card
        ≤ (freeSlots (s.CreateAsteroid x y velX velY scale).sGameObjInstList).card + 1 := by
  obtain ⟨a, hflag, hcreate, hcard⟩ := gameObjInstCreate_spec s.sGameObjInstList TYPE_ASTEROID
    ⟨scale, scale⟩ (some ⟨x, y⟩) (some ⟨velX, velY⟩) 0 hfree
  rw [hcreate] at hcard
  refine ⟨a, hflag, ?_⟩
  simp only [GameServer.CreateAsteroid, hcreate, Option.getD_some, true_and]
  exact hcard

/-- The `CONNECT_ACCEPT` case does not look at the number of bytes received:
for a client that is not connected, every datagram of at least four bytes from
the server whose first byte is the `CONNECT_ACCEPT` tag connects the client,
with the id read from position 4 of the receive buffer. -/
theorem receive_accept_unchecked (c : UDPClient) (old data : List Nat) (senderAddr : sockaddr_in)
    (hlen : 4 ≤ data.length) (haddr : senderAddr.s_addr = c.serverAddr.s_addr)
    (hport : senderAddr.sin_port = c.serverAddr.sin_port)
    (htype : (recvInto old data).getD 0 0 = 2) (hnc : c.isConnected = false) :
    c.receive old data senderAddr
      = ({ c with clientID := (recvInto old data).getD 4 0, isConnected := true },
         [ClientEvent.onConnect ((recvInto old data).getD 4 0)]) := by
  have h1 : ¬ data.length < sizeof_NetworkMessage := by
    simp only [sizeof_NetworkMessage]
    omega
  have hd : decodeMessageType ((recvInto old data).getD 0 0) = some MessageType.CONNECT_ACCEPT := by
    rw [htype]
    rfl
  simp only [UDPClient.receive, h1, if_false, haddr, hport, ne_eq, not_true_eq_false, or_self,
    hd, hnc, Bool.not_false, if_true]

/-- C21 (failing input): the client is not connected; its receive buffer still
holds the header of a snapshot received before (byte 4, the player count, is
2).  A datagram of four bytes with the `CONNECT_ACCEPT` tag arrives from the
server.  It is two bytes shorter than `ConnectAcceptMessage`, yet the client
becomes connected, takes the stale byte 2 as its id and fires `onConnect`. -/
theorem C21_short_accept_connects :
    [2, 0, 0, 0].length < sizeof_ConnectAcceptMessage ∧
    UDPClient.receive
        { isRunning := true, isConnected := false, serverAddr := ⟨2, 4000, 77⟩, clientID := 0,
          sequenceNumber := 1 }
        [5, 0, 0, 0, 2, 4, 0, 0, 0, 1] [2, 0, 0, 0] ⟨2, 4000, 77⟩
      = ({ isRunning := true, isConnected := true, serverAddr := ⟨2, 4000, 77⟩, clientID := 2,
           sequenceNumber := 1 },
         [ClientEvent.onConnect 2]) := by
  constructor
  · decide
  · rfl

/-! ### Locks taken twice by one thread -/

/-- C26 (failing inputs): walking through the lock operations of one thread,
`UpdateGameState` locks `playersMutex` and then calls `CheckForCollisions`,
which locks `playersMutex` again; `ResetGame` locks `playersMutex` and calls
`CreatePlayerShip`, which locks it again (with no player the first mutex taken
twice is `gameObjectsMutex`, in `CreateInitialAsteroids`); and
`HandleConnectionRequest` holds `clientsMutex` while the connect callback calls
`GetClientCount`, which locks it again, whenever no game is in progress; the
same holds for the disconnect callback under `CheckClientTimeouts`. -/
theorem C26_mutex_locked_twice :
    (∀ (splits : List Bool) (spawns : Bool),
      firstRelock [] (UpdateGameState_locks splits spawns) = some Mutex.playersMutex) ∧
    (∀ n : Nat, firstRelock [] (ResetGame_locks (n + 1)) = some Mutex.playersMutex) ∧
    firstRelock [] (ResetGame_locks 0) = some Mutex.gameObjectsMutex ∧
    (∀ (first : Bool) (n : Nat),
      firstRelock [] (HandleConnectionRequest_accept_locks false first n)
        = some Mutex.clientsMutex) ∧
    (∀ n : Nat, firstRelock [] (CheckClientTimeouts_locks (n + 1)) = some Mutex.clientsMutex) := by
  refine ⟨?_, ?_, ?_, ?_, ?_⟩
  · intro splits spawns
    rfl
  · intro n
    rfl
  · rfl
  · intro first n
    rfl
  · intro n
    rfl

/-! ### The bytes of a snapshot -/

theorem writeAt_mid (A o R r : List Nat) (h : o.length = r.length) :
    writeAt (A ++ o ++ R) A.length r = A ++ r ++ R := by
  unfold writeAt
  have h1 : List.take A.length (A ++ o ++ R) = A := by
    rw [List.append_assoc, List.take_left]
  have h2 : List.drop (A.length + r.length) (A ++ o ++ R) = R := by
    rw [List.append_assoc, List.drop_append, ← h, List.drop_left]
  rw [h1, h2]

/-- A record loop over a region `M` of the buffer that has room for exactly the
records replaces `M` by the records, one after the other, and leaves the bytes
before and behind the region as they were. -/
theorem writeRecords_fill (stride base : Nat) :
    ∀ (records : List (List Nat)) (A M C : List Nat) (i : Nat),
      (∀ r ∈ records, r.length = stride) → M.length = stride * records.length →
      A.length = base + stride * i →
      writeRecords stride base (A ++ M ++ C) i records = A ++ records.flatten ++ C := by
  intro records
  induction records with
  | nil =>
    intro A M C i _ hM _
    have hnil : M = [] := List.length_eq_zero.mp (by simpa using hM)
    subst hnil
    simp [writeRecords]
  | cons r rest ih =>
    intro A M C i hr hM hA
    have hrl : r.length = stride := hr r (List.mem_cons_self _ _)
    simp only [List.length_cons] at hM
    have hsplit : M = M.take stride ++ M.drop stride := (List.take_append_drop stride M).symm
    have htake : (M.take stride).length = r.length := by
      rw [List.length_take, hrl, hM]
      apply Nat.min_eq_left
      nlinarith
    have hdrop : (M.drop stride).length = stride * rest.length := by
      rw [List.length_drop, hM]
      rw [Nat.mul_succ]
      omega
    have hbuf : A ++ M ++ C = A ++ M.take stride ++ (M.drop stride ++ C) := by
      conv_lhs => rw [hsplit]
      simp only [List.append_assoc]
    simp only [writeRecords]
    rw [hbuf, ← hA, writeAt_mid A _ _ r htake]
    have hre : A ++ r ++ (M.drop stride ++ C) = (A ++ r) ++ M.drop stride ++ C := by
      simp only [List.append_assoc]
    rw [hre, ih (A ++ r) (M.drop stride) C (i + 1)
      (fun q hq => hr q (List.mem_cons_of_mem _ hq)) hdrop
      (by rw [List.length_append, hA, hrl]; ring)]
    simp only [List.flatten_cons, List.append_assoc]

theorem length_flatten_of_stride (stride : Nat) (records : List (List Nat))
    (h : ∀ r ∈ records, r.length = stride) : records.flatten.length = stride * records.length := by
  induction records with
  | nil => simp
  | cons r rest ih =>
    rw [List.flatten_cons, List.length_append, h r (List.mem_cons_self _ _),
      ih (fun q hq => h q (List.mem_cons_of_mem _ hq)), List.length_cons, Nat.mul_succ]
    omega

theorem GameStateMessage_bytes_length (m : GameStateMessage) :
    m.bytes.length = sizeof_GameStateMessage := by
  simp [GameStateMessage.bytes, u16Bytes, sizeof_GameStateMessage, sizeof_NetworkMessage]

theorem ShipState_bytes_length (enc : ℚ → Nat × Nat × Nat × Nat) (st : ShipState) :
    (st.bytes enc).length = sizeof_ShipState := by
  simp [ShipState.bytes, floatBytes, u32Bytes, sizeof_ShipState]

theorem AsteroidState_bytes_length (enc : ℚ → Nat × Nat × Nat × Nat) (st : AsteroidState) :
    (st.bytes enc).length = sizeof_AsteroidState := by
  simp [AsteroidState.bytes, floatBytes, u16Bytes, sizeof_AsteroidState]

theorem BulletState_bytes_length (enc : ℚ → Nat × Nat × Nat × Nat) (st : BulletState) :
    (st.bytes enc).length = sizeof_BulletState := by
  simp [BulletState.bytes, floatBytes, u16Bytes, sizeof_BulletState]

/-- The buffer of `SendGameState` is the header followed by the ship records,
the asteroid records and the bullet records, whatever the three counts are. -/
theorem gameStateBuffer_eq (enc : ℚ → Nat × Nat × Nat × Nat) (s : GameServer) :
    s.gameStateBuffer enc
      = s.gameStatePacket.header.bytes
        ++ (s.gameStatePacket.ships.map (ShipState.bytes enc)).flatten
        ++ (s.gameStatePacket.asteroids.map (AsteroidState.bytes enc)).flatten
        ++ (s.gameStatePacket.bullets.map (BulletState.bytes enc)).flatten := by
  have hS : ∀ r ∈ s.gameStatePacket.ships.map (ShipState.bytes enc), r.length = sizeof_ShipState := by
    intro r hr
    obtain ⟨st, _, rfl⟩ := List.mem_map.mp hr
    exact ShipState_bytes_length enc st
  have hA : ∀ r ∈ s.gameStatePacket.asteroids.map (AsteroidState.bytes enc),
      r.length = sizeof_AsteroidState := by
    intro r hr
    obtain ⟨st, _, rfl⟩ := List.mem_map.mp hr
    exact AsteroidState_bytes_length enc st
  have hB : ∀ r ∈ s.gameStatePacket.bullets.map (BulletState.bytes enc),
      r.length = sizeof_BulletState := by
    intro r hr
    obtain ⟨st, _, rfl⟩ := List.mem_map.mp hr
    exact BulletState_bytes_length enc st
  have hnS : (s.gameStatePacket.ships.map (ShipState.bytes enc)).length = s.players.length := by
    simp [GameServer.gameStatePacket]
  have hnA : (s.gameStatePacket.asteroids.map (AsteroidState.bytes enc)).length
      = s.asteroids.length := by
    simp [GameServer.gameStatePacket]
  have hnB : (s.gameStatePacket.bullets.map (BulletState.bytes enc)).length
      = s.bullets.length := by
    simp [GameServer.gameStatePacket]
  have hzero : List.replicate
      (sizeof_GameStateMessage + sizeof_ShipState * s.players.length
        + sizeof_AsteroidState * s.asteroids.length + sizeof_BulletState * s.bullets.length) 0
      = ([] : List Nat) ++ List.replicate sizeof_GameStateMessage 0
        ++ (List.replicate (sizeof_ShipState * s.players.length) 0
          ++ (List.replicate (sizeof_AsteroidState * s.asteroids.length) 0
            ++ (List.replicate (sizeof_BulletState * s.bullets.length) 0 ++ []))) := by
    simp only [List.replicate_add, List.nil_append, List.append_nil, List.append_assoc]
  have h1 : writeAt
      (List.replicate
        (sizeof_GameStateMessage + sizeof_ShipState * s.players.length
          + sizeof_AsteroidState * s.asteroids.length + sizeof_BulletState * s.bullets.length) 0)
      0 s.gameStatePacket.header.bytes
      = s.gameStatePacket.header.bytes
        ++ List.replicate (sizeof_ShipState * s.players.length) 0
        ++ (List.replicate (sizeof_AsteroidState * s.asteroids.length) 0
            ++ (List.replicate (sizeof_BulletState * s.bullets.length) 0 ++ [])) := by
    rw [hzero]
    have h := writeAt_mid [] (List.replicate sizeof_GameStateMessage 0)
      (List.replicate (sizeof_ShipState * s.players.length) 0
          ++ (List.replicate (sizeof_AsteroidState * s.asteroids.length) 0
            ++ (List.replicate (sizeof_BulletState * s.bullets.length) 0 ++ [])))
      s.gameStatePacket.header.bytes
      (by rw [List.length_replicate, GameStateMessage_bytes_length])
    rw [List.length_nil] at h
    rw [h]
    simp only [List.nil_append, List.append_assoc]
  have h2 := writeRecords_fill sizeof_ShipState sizeof_GameStateMessage
    (s.gameStatePacket.ships.map (ShipState.bytes enc)) s.gameStatePacket.header.bytes
    (List.replicate (sizeof_ShipState * s.players.length) 0)
    (List.replicate (sizeof_AsteroidState * s.asteroids.length) 0
      ++ (List.replicate (sizeof_BulletState * s.bullets.length) 0 ++ [])) 0 hS
    (by rw [List.length_replicate, hnS])
    (by rw [GameStateMessage_bytes_length]; omega)
  have hlenS : (s.gameStatePacket.header.bytes
      ++ (s.gameStatePacket.ships.map (ShipState.bytes enc)).flatten).length
      = sizeof_GameStateMessage + sizeof_ShipState * s.players.length + sizeof_AsteroidState * 0 := by
    rw [List.length_append, GameStateMessage_bytes_length, length_flatten_of_stride _ _ hS, hnS]
    omega
  have h3 := writeRecords_fill sizeof_AsteroidState
    (sizeof_GameStateMessage + sizeof_ShipState * s.players.length)
    (s.gameStatePacket.asteroids.map (AsteroidState.bytes enc))
    (s.gameStatePacket.header.bytes ++ (s.gameStatePacket.ships.map (ShipState.bytes enc)).flatten)
    (List.replicate (sizeof_AsteroidState * s.asteroids.length) 0)
    (List.replicate (sizeof_BulletState * s.bullets.length) 0 ++ []) 0 hA
    (by rw [List.length_replicate, hnA]) hlenS
  have hlenA : (s.gameStatePacket.header.bytes
      ++ (s.gameStatePacket.ships.map (ShipState.bytes enc)).flatten
      ++ (s.gameStatePacket.asteroids.map (AsteroidState.bytes enc)).flatten).length
      = sizeof_GameStateMessage + sizeof_ShipState * s.players.length
        + sizeof_AsteroidState * s.asteroids.length + sizeof_BulletState * 0 := by
    rw [List.length_append, hlenS, length_flatten_of_stride _ _ hA, hnA]
    omega
  have h4 := writeRecords_fill sizeof_BulletState
    (sizeof_GameStateMessage + sizeof_ShipState * s.players.length
      + sizeof_AsteroidState * s.asteroids.length)
    (s.gameStatePacket.bullets.map (BulletState.bytes enc))
    (s.gameStatePacket.header.bytes
      ++ (s.gameStatePacket.ships.map (ShipState.bytes enc)).flatten
      ++ (s.gameStatePacket.asteroids.map (AsteroidState.bytes enc)).flatten)
    (List.replicate (sizeof_BulletState * s.bullets.length) 0) [] 0 hB
    (by rw [List.length_replicate, hnB]) hlenA
  unfold GameServer.gameStateBuffer
  dsimp only
  rw [h1, h2]
  have hshape : s.gameStatePacket.header.bytes
        ++ (s.gameStatePacket.ships.map (ShipState.bytes enc)).flatten
        ++ (List.replicate (sizeof_AsteroidState * s.asteroids.length) 0
            ++ (List.replicate (sizeof_BulletState * s.bullets.length) 0 ++ []))
      = s.gameStatePacket.header.bytes
        ++ (s.gameStatePacket.ships.map (ShipState.bytes enc)).flatten
        ++ List.replicate (sizeof_AsteroidState * s.asteroids.length) 0
        ++ (List.replicate (sizeof_BulletState * s.bullets.length) 0 ++ []) := by
    simp only [List.append_assoc]
  rw [hshape, h3]
  have hshape2 : s.gameStatePacket.header.bytes
        ++ (s.gameStatePacket.ships.map (ShipState.bytes enc)).flatten
        ++ (s.gameStatePacket.asteroids.map (AsteroidState.bytes enc)).flatten
        ++ (List.replicate (sizeof_BulletState * s.bullets.length) 0 ++ [])
      = s.gameStatePacket.header.bytes
        ++ (s.gameStatePacket.ships.map (ShipState.bytes enc)).flatten
        ++ (s.gameStatePacket.asteroids.map (AsteroidState.bytes enc)).flatten
        ++ List.replicate (sizeof_BulletState * s.bullets.length) 0 ++ [] := by
    simp only [List.append_assoc]
  rw [hshape2, h4, List.append_nil]

/-- C22: with `P ≤ 255` players, `A ≤ 65535` asteroids and `B ≤ 65535` bullets,
the buffer built by `SendGameState` is the 10 bytes of the header, then one
record of 26 bytes per player in the order of the player map (ascending client
id), then one record of 23 bytes per asteroid in vector order, then one record
of 20 bytes per bullet in vector order.  Its length is
`10 + 26 * P + 23 * A + 20 * B`, and the header fields `playerCount`,
`asteroidCount` and `bulletCount` are `P`, `A` and `B`. -/
theorem C22_snapshot_layout (enc : ℚ → Nat × Nat × Nat × Nat) (s : GameServer)
    (hP : s.players.length ≤ 255) (hA : s.asteroids.length ≤ 65535)
    (hB : s.bullets.length ≤ 65535) :
    s.gameStateBuffer enc
      = s.gameStatePacket.header.bytes
        ++ (s.players.map (fun pair => (s.shipStateOf pair.2).bytes enc)).flatten
        ++ (s.asteroids.enum.map (fun ia => (s.asteroidStateOf ia.1 ia.2).bytes enc)).flatten
        ++ (s.bullets.enum.map (fun ib => (s.bulletStateOf ib.1 ib.2).bytes enc)).flatten ∧
    s.gameStatePacket.header.bytes
      = [5, 0, 0, 0, s.players.length, s.asteroids.length % 256, s.asteroids.length / 256,
         s.bullets.length % 256, s.bullets.length / 256, if s.gameInProgress then 1 else 0] ∧
    (∀ pair ∈ s.players, ((s.shipStateOf pair.2).bytes enc).length = 26) ∧
    (∀ ia ∈ s.asteroids.enum, ((s.asteroidStateOf ia.1 ia.2).bytes enc).length = 23) ∧
    (∀ ib ∈ s.bullets.enum, ((s.bulletStateOf ib.1 ib.2).bytes enc).length = 20) ∧
    (s.gameStateBuffer enc).length
      = 10 + 26 * s.players.length + 23 * s.asteroids.length + 20 * s.bullets.length ∧
    s.gameStatePacket.header.playerCount = s.players.length ∧
    s.gameStatePacket.header.asteroidCount = s.asteroids.length ∧
    s.gameStatePacket.header.bulletCount = s.bullets.length := by
  have hPm : s.players.length % 256 = s.players.length := Nat.mod_eq_of_lt (by omega)
  have hAm : s.asteroids.length % 65536 = s.asteroids.length := Nat.mod_eq_of_lt (by omega)
  have hBm : s.bullets.length % 65536 = s.bullets.length := Nat.mod_eq_of_lt (by omega)
  have hAd : s.asteroids.length / 256 % 256 = s.asteroids.length / 256 :=
    Nat.mod_eq_of_lt (by omega)
  have hBd : s.bullets.length / 256 % 256 = s.bullets.length / 256 :=
    Nat.mod_eq_of_lt (by omega)
  have heq := gameStateBuffer_eq enc s
  have hmaps : s.gameStatePacket.ships.map (ShipState.bytes enc)
        = s.players.map (fun pair => (s.shipStateOf pair.2).bytes enc) ∧
      s.gameStatePacket.asteroids.map (AsteroidState.bytes enc)
        = s.asteroids.enum.map (fun ia => (s.asteroidStateOf ia.1 ia.2).bytes enc) ∧
      s.gameStatePacket.bullets.map (BulletState.bytes enc)
        = s.bullets.enum.map (fun ib => (s.bulletStateOf ib.1 ib.2).bytes enc) := by
    simp only [GameServer.gameStatePacket, List.map_map]
    exact ⟨rfl, rfl, rfl⟩
  rw [hmaps.1, hmaps.2.1, hmaps.2.2] at heq
  refine ⟨heq, ?_, ?_, ?_, ?_, ?_, ?_, ?_, ?_⟩
  · simp only [GameStateMessage.bytes, GameServer.gameStatePacket, u16Bytes, MessageType.toByte,
      hPm, hAm, hBm, hAd, hBd, List.cons_append, List.nil_append, Nat.zero_mod, Nat.zero_div]
    split_ifs <;> rfl
  · intro pair _
    rw [ShipState_bytes_length]
    rfl
  · intro ia _
    rw [AsteroidState_bytes_length]
    rfl
  · intro ib _
    rw [BulletState_bytes_length]
    rfl
  · rw [heq]
    simp only [List.length_append, GameStateMessage_bytes_length]
    rw [length_flatten_of_stride sizeof_ShipState, length_flatten_of_stride sizeof_AsteroidState,
      length_flatten_of_stride sizeof_BulletState]
    · simp only [List.length_map, List.enum_length, sizeof_GameStateMessage, sizeof_ShipState,
        sizeof_AsteroidState, sizeof_BulletState, sizeof_NetworkMessage]
    · intro r hr
      obtain ⟨st, _, rfl⟩ := List.mem_map.mp hr
      exact BulletState_bytes_length enc _
    · intro r hr
      obtain ⟨st, _, rfl⟩ := List.mem_map.mp hr
      exact AsteroidState_bytes_length enc _
    · intro r hr
      obtain ⟨st, _, rfl⟩ := List.mem_map.mp hr
      exact ShipState_bytes_length enc _
  · simp only [GameServer.gameStatePacket, hPm]
  · simp only [GameServer.gameStatePacket, hAm]
  · simp only [GameServer.gameStatePacket, hBm]

/-! ### What every reachable state keeps -/

theorem mem_modifyPlayer (k : ClientID) (f : PlayerData → PlayerData)
    (l : List (ClientID × PlayerData)) (e : ClientID × PlayerData)
    (h : e ∈ modifyPlayer k f l) :
    e ∈ l ∨ ∃ pd, playersFind k l = some pd ∧ e = (k, f pd) := by
  induction l with
  | nil => cases h
  | cons pair rest ih =>
    unfold modifyPlayer at h
    by_cases hk : pair.1 = k
    · simp only [hk, if_true] at h
      rcases List.mem_cons.mp h with heq | hin
      · right
        exact ⟨pair.2, by simp only [playersFind, hk, if_true], heq⟩
      · left
        exact List.mem_cons_of_mem _ hin
    · simp only [hk, if_false] at h
      rcases List.mem_cons.mp h with heq | hin
      · left
        rw [heq]
        exact List.mem_cons_self _ _
      · rcases ih hin with h1 | ⟨pd, hf, he⟩
        · left
          exact List.mem_cons_of_mem _ h1
        · right
          exact ⟨pd, by simp only [playersFind, hk, if_false]; exact hf, he⟩

theorem playersFind_mapAssign (k : ClientID) (v : PlayerData)
    (l : List (ClientID × PlayerData)) : playersFind k (mapAssign k v l) = some v := by
  induction l with
  | nil => simp [mapAssign, playersFind]
  | cons pair rest ih =>
    unfold mapAssign
    by_cases h1 : k < pair.1
    · simp [h1, playersFind]
    · by_cases h2 : k = pair.1
      · simp [h1, h2, playersFind]
      · have h3 : ¬ pair.1 = k := fun h => h2 h.symm
        simp only [h1, h2, if_false, playersFind, h3]
        exact ih

theorem one_le_INITIAL_LIVES : 1 ≤ INITIAL_LIVES := by decide

theorem modifyPlayer_forall (P : PlayerData → Prop) (k : ClientID) (f : PlayerData → PlayerData)
    (l : List (ClientID × PlayerData)) (h : ∀ e ∈ l, P e.2)
    (hf : ∀ pd, playersFind k l = some pd → P (f pd)) :
    ∀ e ∈ modifyPlayer k f l, P e.2 := by
  intro e he
  rcases mem_modifyPlayer k f l e he with h1 | ⟨pd, hfind, heq⟩
  · exact h e h1
  · rw [heq]
    exact hf pd hfind

theorem awardPoints_forall (P : PlayerData → Prop) (c : ClientID)
    (hs : ∀ pd, P pd → P { pd with score := (pd.score + 100) % 2 ^ 32 }) :
    ∀ l : List (ClientID × PlayerData), (∀ e ∈ l, P e.2) → ∀ e ∈ awardPoints c l, P e.2 := by
  intro l
  induction l with
  | nil =>
    intro _ e he
    cases he
  | cons pair rest ih =>
    intro h e he
    unfold awardPoints at he
    by_cases hk : pair.1 = c
    · rw [if_pos hk] at he
      rcases List.mem_cons.mp he with heq | hin
      · rw [heq]
        exact hs _ (h pair (List.mem_cons_self _ _))
      · exact h e (List.mem_cons_of_mem _ hin)
    · rw [if_neg hk] at he
      rcases List.mem_cons.mp he with heq | hin
      · rw [heq]
        exact h pair (List.mem_cons_self _ _)
      · exact ih (fun e he => h e (List.mem_cons_of_mem _ he)) e hin

/-- Induction over the bullet pass: a property of server states that every
handled hit keeps holds when the pass ends. -/
theorem bulletPass_induction (sqrtf : ℚ → ℚ) (g_dt : ℚ) (I : GameServer → Prop)
    (hstep : ∀ (s : GameServer) (bi ai asteroid : Nat) (h : bi < s.bullets.length), I s →
      findBulletHit g_dt s.sGameObjInstList (s.bullets.get ⟨bi, h⟩) s.asteroids 0
        = some (ai, asteroid) →
      I (s.resolveBulletHit sqrtf bi (s.bullets.get ⟨bi, h⟩) ai asteroid).1)
    (n : Nat) :
    ∀ (s : GameServer) (bi : Nat), s.bullets.length - bi ≤ n → I s →
      I (s.bulletPass sqrtf g_dt bi).1 := by
  induction n with
  | zero =>
    intro s bi hn hI
    have hlt : ¬ bi < s.bullets.length := by omega
    rw [bulletPass_unfold]
    simp only [hlt, dif_neg, not_false_eq_true]
    exact hI
  | succ n ih =>
    intro s bi hn hI
    rw [bulletPass_unfold]
    by_cases hlt : bi < s.bullets.length
    · simp only [hlt, dif_pos]
      split
      · rename_i ai asteroid hhit
        have hlen : (s.resolveBulletHit sqrtf bi (s.bullets.get ⟨bi, hlt⟩) ai asteroid).1.bullets.length
            - bi ≤ n := by
          rw [resolveBulletHit_bullets, List.length_eraseIdx]
          simp only [hlt, if_true]
          omega
        exact ih _ bi hlen (hstep s bi ai asteroid hlt hI hhit)
      · exact ih s (bi + 1) (by omega) hI
    · simp only [hlt, dif_neg, not_false_eq_true]
      exact hI

theorem CreatePlayerShip_keeps (B : List Nat → Prop) (P : PlayerData → Prop)
    (hP : RecordInvariant P) (eng : Engine) (s : GameServer) (k : ClientID)
    (h : s.keeps B P)
    (halive : ∀ pd, playersFind k s.players = some pd → pd.isAlive = true) :
    (s.CreatePlayerShip eng k).keeps B P := by
  unfold GameServer.CreatePlayerShip
  cases hfind : playersFind k s.players with
  | none => exact h
  | some pd =>
    dsimp only
    split
    · refine ⟨h.1, ?_, h.2.2⟩
      dsimp only
      apply modifyPlayer_forall P k _ _ h.2.1
      intro pd' hpd'
      exact hP.ship pd' _ (h.2.1 (k, pd') (playersFind_some_mem _ _ _ hpd')) (halive pd' hpd')
    · exact h

theorem resetPlayer_keeps (B : List Nat → Prop) (P : PlayerData → Prop)
    (hP : RecordInvariant P) (eng : Engine) (s : GameServer) (k : ClientID)
    (h : s.keeps B P) :
    (s.resetPlayer eng k).keeps B P := by
  unfold GameServer.resetPlayer
  cases hfind : playersFind k s.players with
  | none => exact h
  | some pd =>
    dsimp only
    apply CreatePlayerShip_keeps B P hP
    · refine ⟨h.1, ?_, h.2.2⟩
      dsimp only
      apply modifyPlayer_forall P k _ _ h.2.1
      intro pd' hpd'
      exact hP.reset pd' (h.2.1 (k, pd') (playersFind_some_mem _ _ _ hpd'))
    · intro pd' hpd'
      dsimp only at hpd'
      rw [playersFind_modifyPlayer_same, hfind] at hpd'
      simp only [Option.map_some', Option.some.injEq] at hpd'
      subst hpd'
      rfl

theorem resetPlayers_keeps (B : List Nat → Prop) (P : PlayerData → Prop)
    (hP : RecordInvariant P) (eng : Engine) :
    ∀ (ks : List ClientID) (s : GameServer), s.keeps B P →
      (GameServer.resetPlayers eng ks s).keeps B P := by
  intro ks
  induction ks with
  | nil => intro s h; exact h
  | cons k rest ih =>
    intro s h
    exact ih (s.resetPlayer eng k) (resetPlayer_keeps B P hP eng s k h)

theorem CreateAsteroid_own (s : GameServer) (x y velX velY scale : ℚ) :
    (s.CreateAsteroid x y velX velY scale).sGameObjInstListOwn = s.sGameObjInstListOwn := by
  dsimp only [GameServer.CreateAsteroid]
  split <;> rfl

theorem createInitialLoop_players (eng : Engine) (draws : InitDraws) (n : Nat) :
    ∀ (i : Nat) (disPos : List (ℚ × ℚ)) (s s' : GameServer),
      GameServer.createInitialLoop eng draws n i disPos s = some s' →
      s'.players = s.players ∧ s'.bullets = s.bullets ∧
      s'.sGameObjInstListOwn = s.sGameObjInstListOwn := by
  induction n with
  | zero =>
    intro i disPos s s' h
    simp only [GameServer.createInitialLoop, Option.some.injEq] at h
    subst h
    exact ⟨rfl, rfl, rfl⟩
  | succ n ih =>
    intro i disPos s s' h
    unfold GameServer.createInitialLoop at h
    cases hd : drawSpawnPosition eng.sqrtf disPos with
    | none => rw [hd] at h; cases h
    | some r =>
      rw [hd] at h
      obtain ⟨h1, h2, h3⟩ := ih _ _ _ _ h
      exact ⟨by rw [h1, CreateAsteroid_players], by rw [h2, CreateAsteroid_bullets],
        by rw [h3, CreateAsteroid_own]⟩

theorem ResetGame_keeps (B : List Nat → Prop) (P : PlayerData → Prop)
    (hP : RecordInvariant P) (hB : B []) (eng : Engine) (draws : InitDraws) (s s' : GameServer)
    (h : ∀ e ∈ s.players, P e.2) (hown : ∀ j, s.sGameObjInstListOwn j = unusedInst)
    (hr : s.ResetGame eng draws = some s') :
    s'.keeps B P := by
  unfold GameServer.ResetGame GameServer.CreateInitialAsteroids at hr
  dsimp only at hr
  have h1 := resetPlayers_keeps B P hP eng (s.players.map Prod.fst)
    { s with
      sGameObjInstList :=
        s.bullets.foldl gameObjInstDestroy (s.asteroids.foldl gameObjInstDestroy s.sGameObjInstList),
      asteroids := [], bullets := [] } ⟨hB, h, hown⟩
  cases hc : GameServer.createInitialLoop eng draws INITIAL_ASTEROID_COUNT 0 draws.disPos
      (GameServer.resetPlayers eng (s.players.map Prod.fst)
        { s with
          sGameObjInstList :=
            s.bullets.foldl gameObjInstDestroy
              (s.asteroids.foldl gameObjInstDestroy s.sGameObjInstList),
          asteroids := [], bullets := [] }) with
  | none => rw [hc] at hr; cases hr
  | some s4 =>
    rw [hc] at hr
    simp only [Option.some.injEq] at hr
    subst hr
    obtain ⟨h3, h4, h5⟩ := createInitialLoop_players eng draws _ _ _ _ _ hc
    show B s4.bullets ∧ (∀ e ∈ s4.players, P e.2) ∧ ∀ j, s4.sGameObjInstListOwn j = unusedInst
    exact ⟨by rw [h4]; exact h1.1, by rw [h3]; exact h1.2.1, by rw [h5]; exact h1.2.2⟩

theorem OnClientConnect_keeps (B : List Nat → Prop) (P : PlayerData → Prop)
    (hP : RecordInvariant P) (hB : B []) (eng : Engine) (draws : InitDraws) (s s' : GameServer)
    (k : ClientID) (h : s.keeps B P) (hc : s.OnClientConnect eng draws k = some s') :
    s'.keeps B P := by
  have hnew : ∀ (v : PlayerData), P v → ∀ e ∈ mapAssign k v s.players, P e.2 := by
    intro v hv e he
    rcases mem_mapAssign k v s.players e he with heq | hin
    · rw [heq]; exact hv
    · exact h.2.1 e hin
  unfold GameServer.OnClientConnect at hc
  dsimp only at hc
  by_cases hprog : s.gameInProgress = true
  · rw [if_pos hprog] at hc
    simp only [Option.some.injEq] at hc
    subst hc
    apply CreatePlayerShip_keeps B P hP
    · exact ⟨h.1, hnew _ hP.connect, h.2.2⟩
    · intro pd hpd
      dsimp only at hpd
      rw [playersFind_mapAssign] at hpd
      simp only [Option.some.injEq] at hpd
      subst hpd
      rfl
  · rw [if_neg hprog] at hc
    by_cases hcount : s.server.GetClientCount = 1
    · rw [if_pos hcount] at hc
      cases hr : GameServer.ResetGame eng draws
          { s with
            players := mapAssign k
              { ship := none, isAlive := true, score := 0, lives := INITIAL_LIVES,
                lastInput :=
                  { type := MessageType.PLAYER_INPUT, clientID := 0, sequence := 0,
                    up := 0, down := 0, left := 0, right := 0, fire := 0 } }
              s.players } with
      | none => rw [hr] at hc; cases hc
      | some s2 =>
        rw [hr] at hc
        simp only [Option.some.injEq] at hc
        subst hc
        refine ResetGame_keeps B P hP hB eng draws _ s2 ?_ ?_ hr
        · exact hnew _ hP.connect
        · exact h.2.2
    · rw [if_neg hcount] at hc
      simp only [Option.some.injEq] at hc
      subst hc
      exact ⟨h.1, hnew _ hP.connect, h.2.2⟩

theorem RemovePlayerShip_keeps (B : List Nat → Prop) (P : PlayerData → Prop)
    (hP : RecordInvariant P) (s : GameServer) (k : ClientID) (h : s.keeps B P) :
    (s.RemovePlayerShip k).keeps B P := by
  unfold GameServer.RemovePlayerShip
  cases hfind : playersFind k s.players with
  | none => exact h
  | some pd =>
    dsimp only
    cases hs : pd.ship with
    | none => exact h
    | some ship =>
      refine ⟨h.1, ?_, h.2.2⟩
      dsimp only
      apply modifyPlayer_forall P k _ _ h.2.1
      intro pd' hpd'
      exact hP.remove pd' (h.2.1 (k, pd') (playersFind_some_mem _ _ _ hpd'))

theorem OnClientDisconnect_keeps (B : List Nat → Prop) (P : PlayerData → Prop)
    (hP : RecordInvariant P) (s : GameServer) (k : ClientID) (h : s.keeps B P) :
    (s.OnClientDisconnect k).keeps B P := by
  obtain ⟨h1, h2, h4⟩ := RemovePlayerShip_keeps B P hP s k h
  have h3 : ∀ e ∈ mapErase k (s.RemovePlayerShip k).players, P e.2 := by
    intro e he
    exact h2 e (List.mem_of_mem_filter he)
  unfold GameServer.OnClientDisconnect
  dsimp only
  split_ifs
  · exact ⟨h1, h3, h4⟩
  · exact ⟨h1, h3, h4⟩

theorem OnMessage_keeps (B : List Nat → Prop) (P : PlayerData → Prop) (s : GameServer)
    (k : ClientID) (data : List Nat) (h : s.keeps B P)
    (hmsg : decodeMessageType (data.getD 0 0) = some MessageType.PLAYER_INPUT →
      ∀ pd, P pd → P { pd with lastInput := decodePlayerInput data }) :
    (s.OnMessage k data).keeps B P := by
  have hp : (∀ pd, P pd → P { pd with lastInput := decodePlayerInput data }) →
      (s.ProcessPlayerInput k (decodePlayerInput data)).keeps B P := by
    intro hm
    unfold GameServer.ProcessPlayerInput
    cases hfind : playersFind k s.players with
    | none => exact h
    | some pd =>
      refine ⟨h.1, ?_, h.2.2⟩
      dsimp only
      apply modifyPlayer_forall P k _ _ h.2.1
      intro pd' hpd'
      exact hm pd' (h.2.1 (k, pd') (playersFind_some_mem _ _ _ hpd'))
  unfold GameServer.OnMessage
  by_cases hlen : data.length < sizeof_NetworkMessage
  · rw [if_pos hlen]
    exact h
  · rw [if_neg hlen]
    split
    · rename_i htype
      by_cases h9 : data.length ≥ sizeof_PlayerInputMessage
      · rw [if_pos h9]
        exact hp (hmsg htype)
      · rw [if_neg h9]
        exact h
    · exact h

theorem applyPlayerInput_players (eng : Engine) (dt : ℚ) (s : GameServer) (clientID : ClientID)
    (player : PlayerData) :
    (s.applyPlayerInput eng dt clientID player).players = s.players := by
  unfold GameServer.applyPlayerInput
  split
  · rfl
  · rename_i ship _
    by_cases hact : ((s.sGameObjInstList ship).isActive && player.isAlive) = true
    · by_cases ht : eng.boolTest player.lastInput.fire = true
      · by_cases hn : eng.boolNot player.lastInput.fire = true
        · simp only [hact, ht, hn, if_true]
          split <;> rfl
        · simp only [hact, ht, hn, if_true, Bool.false_eq_true, if_false]
      · simp only [hact, ht, if_true, Bool.false_eq_true, if_false]
    · rw [if_neg hact]

theorem applyInputs_players (eng : Engine) (dt : ℚ) (l : List (ClientID × PlayerData)) :
    ∀ s : GameServer, (s.applyInputs eng dt l).players = s.players := by
  induction l with
  | nil => intro s; rfl
  | cons pair rest ih =>
    intro s
    simp only [GameServer.applyInputs, ih, applyPlayerInput_players]

theorem updateInstance_players (eng : Engine) (dt : ℚ) (s : GameServer) (i : Nat) :
    (s.updateInstance eng dt i).players = s.players := by
  unfold GameServer.updateInstance
  simp only
  split_ifs <;> rfl

theorem updateInstances_players (eng : Engine) (dt : ℚ) (n : Nat) :
    ∀ (i : Nat) (s : GameServer), (GameServer.updateInstances eng dt n i s).players = s.players := by
  induction n with
  | zero => intro i s; rfl
  | succ n ih =>
    intro i s
    simp only [GameServer.updateInstances, ih, updateInstance_players]

theorem shipAsteroidLoop_keeps (P : PlayerData → Prop) (hP : RecordInvariant P) (g_dt : ℚ)
    (ship : Nat) (player : PlayerData) (pool : Pool) (asteroids : List Nat)
    (hal : player.isAlive = true) (h : P player) :
    P (shipAsteroidLoop g_dt ship player pool asteroids).1 := by
  induction asteroids with
  | nil => exact h
  | cons asteroid rest ih =>
    unfold shipAsteroidLoop
    by_cases hhit : ((pool asteroid).isActive &&
        (CollisionIntersection_RectRect g_dt (pool ship).boundingBox (pool ship).velCurr
          (pool asteroid).boundingBox (pool asteroid).velCurr 0).1) = true
    · rw [if_pos hhit]
      dsimp only
      by_cases hzero : (player.lives + 255) % 256 ≤ 0
      · rw [if_pos hzero]
        exact hP.lastLife player h hal hzero
      · rw [if_neg hzero]
        exact hP.life player h hal hzero
    · rw [if_neg hhit]
      exact ih

theorem shipPass_keeps (P : PlayerData → Prop) (hP : RecordInvariant P) (g_dt : ℚ)
    (asteroids : List Nat) :
    ∀ (l : List (ClientID × PlayerData)) (pool : Pool), (∀ e ∈ l, P e.2) →
      ∀ e ∈ (shipPass g_dt asteroids l pool).1, P e.2 := by
  intro l
  induction l with
  | nil =>
    intro pool _ e he
    simp only [shipPass] at he
    cases he
  | cons pair rest ih =>
    intro pool h e he
    have hpair : P pair.2 := h pair (List.mem_cons_self _ _)
    have hrest : ∀ e ∈ rest, P e.2 := fun e he => h e (List.mem_cons_of_mem _ he)
    simp only [shipPass] at he
    rcases List.mem_cons.mp he with heq | hin
    · rw [heq]
      dsimp only
      split
      · rename_i ship _
        by_cases hact : ((pool ship).isActive && pair.2.isAlive) = true
        · rw [if_pos hact]
          have hal : pair.2.isAlive = true := by
            simp only [Bool.and_eq_true] at hact
            exact hact.2
          exact shipAsteroidLoop_keeps P hP _ _ _ _ _ hal hpair
        · rw [if_neg hact]
          exact hpair
      · exact hpair
    · exact ih _ hrest e hin

theorem spawnAsteroid_players (eng : Engine) (draw : SpawnDraw) (s : GameServer) :
    (s.spawnAsteroid eng draw).players = s.players := by
  unfold GameServer.spawnAsteroid
  split_ifs
  · exact CreateAsteroid_players _ _ _ _ _ _
  · rfl

theorem bulletPass_players_forall (P : PlayerData → Prop) (sqrtf : ℚ → ℚ) (g_dt : ℚ)
    (hs : ∀ pd, P pd → P { pd with score := (pd.score + 100) % 2 ^ 32 })
    (s : GameServer) (h : ∀ e ∈ s.players, P e.2) :
    ∀ e ∈ (s.bulletPass sqrtf g_dt 0).1.players, P e.2 := by
  apply bulletPass_induction sqrtf g_dt (fun t => ∀ e ∈ t.players, P e.2) _ _ s 0 (le_refl _) h
  intro t bi ai asteroid hlt ht _
  rw [resolveBulletHit_players]
  exact awardPoints_forall P _ hs _ ht

theorem updateInstance_of_idle (eng : Engine) (dt : ℚ) (s : GameServer) (i : Nat)
    (h : (s.sGameObjInstListOwn i).flag &&& FLAG_ACTIVE = 0) :
    s.updateInstance eng dt i = s := by
  unfold GameServer.updateInstance
  simp only [h, if_true]

/-- While no slot of the instance array of `GameServer.cpp` is active, the
second loop of `UpdateGameState` skips every slot. -/
theorem updateInstances_of_idle (eng : Engine) (dt : ℚ) (n : Nat) :
    ∀ (i : Nat) (s : GameServer),
      (∀ j, (s.sGameObjInstListOwn j).flag &&& FLAG_ACTIVE = 0) →
      GameServer.updateInstances eng dt n i s = s := by
  induction n with
  | zero => intro i s _; rfl
  | succ n ih =>
    intro i s h
    simp only [GameServer.updateInstances]
    rw [updateInstance_of_idle eng dt s i (h i)]
    exact ih (i + 1) s h

theorem applyPlayerInput_own (eng : Engine) (dt : ℚ) (s : GameServer) (clientID : ClientID)
    (player : PlayerData) :
    (s.applyPlayerInput eng dt clientID player).sGameObjInstListOwn = s.sGameObjInstListOwn := by
  unfold GameServer.applyPlayerInput
  split
  · rfl
  · rename_i ship _
    by_cases hact : ((s.sGameObjInstList ship).isActive && player.isAlive) = true
    · by_cases ht : eng.boolTest player.lastInput.fire = true
      · by_cases hn : eng.boolNot player.lastInput.fire = true
        · simp only [hact, ht, hn, if_true]
          split <;> rfl
        · simp only [hact, ht, hn, if_true, Bool.false_eq_true, if_false]
      · simp only [hact, ht, if_true, Bool.false_eq_true, if_false]
    · rw [if_neg hact]

theorem applyInputs_own (eng : Engine) (dt : ℚ) (l : List (ClientID × PlayerData)) :
    ∀ s : GameServer, (s.applyInputs eng dt l).sGameObjInstListOwn = s.sGameObjInstListOwn := by
  induction l with
  | nil => intro s; rfl
  | cons pair rest ih =>
    intro s
    simp only [GameServer.applyInputs, ih, applyPlayerInput_own]

theorem collide_then_spawn_congr (eng : Engine) (draw : SpawnDraw) (g_dt : ℚ)
    (t u : GameServer) (h : t = u) :
    (t.CheckForCollisions eng.sqrtf g_dt).1.spawnAsteroid eng draw
      = (u.CheckForCollisions eng.sqrtf g_dt).1.spawnAsteroid eng draw := by
  rw [h]

/-- While no slot of the instance array of `GameServer.cpp` is active, a tick
is the input loop followed by `CheckForCollisions` and the spawn block. -/
theorem UpdateGameState_of_idle (eng : Engine) (draw : SpawnDraw) (g_dt : ℚ) (s : GameServer)
    (dt : ℚ) (h : ∀ j, (s.sGameObjInstListOwn j).flag &&& FLAG_ACTIVE = 0) :
    s.UpdateGameState eng draw g_dt dt
      = ((s.applyInputs eng dt s.players).CheckForCollisions eng.sqrtf g_dt).1.spawnAsteroid
          eng draw := by
  have h1 : ∀ j, ((s.applyInputs eng dt s.players).sGameObjInstListOwn j).flag &&& FLAG_ACTIVE
      = 0 := by
    intro j
    rw [applyInputs_own]
    exact h j
  unfold GameServer.UpdateGameState
  exact collide_then_spawn_congr eng draw g_dt _ _
    (updateInstances_of_idle eng dt GAME_OBJ_INST_NUM_MAX 0 _ h1)

theorem SplitAsteroid_own (sqrtf : ℚ → ℚ) (s : GameServer) (asteroid : Option Nat) :
    (s.SplitAsteroid sqrtf asteroid).sGameObjInstListOwn = s.sGameObjInstListOwn := by
  dsimp only [GameServer.SplitAsteroid]
  split
  · rfl
  · split_ifs <;> first | rfl | simp only [CreateAsteroid_own]

theorem resolveBulletHit_own (sqrtf : ℚ → ℚ) (s : GameServer) (bi bullet ai asteroid : Nat) :
    (s.resolveBulletHit sqrtf bi bullet ai asteroid).1.sGameObjInstListOwn
      = s.sGameObjInstListOwn := by
  simp only [GameServer.resolveBulletHit]
  split_ifs
  · simp only [SplitAsteroid_own]
  · rfl

theorem CheckForCollisions_own (sqrtf : ℚ → ℚ) (g_dt : ℚ) (s : GameServer) :
    (s.CheckForCollisions sqrtf g_dt).1.sGameObjInstListOwn = s.sGameObjInstListOwn := by
  simp only [GameServer.CheckForCollisions]
  apply bulletPass_induction sqrtf g_dt
    (fun t => t.sGameObjInstListOwn = s.sGameObjInstListOwn) _ _ s 0 (le_refl _) rfl
  intro t bi ai asteroid hlt ht _
  rw [resolveBulletHit_own]
  exact ht

theorem spawnAsteroid_own (eng : Engine) (draw : SpawnDraw) (s : GameServer) :
    (s.spawnAsteroid eng draw).sGameObjInstListOwn = s.sGameObjInstListOwn := by
  unfold GameServer.spawnAsteroid
  split_ifs
  · exact CreateAsteroid_own _ _ _ _ _ _
  · rfl

/-- A tick leaves the instance array of `GameServer.cpp` zero-filled. -/
theorem UpdateGameState_own (eng : Engine) (draw : SpawnDraw) (g_dt : ℚ) (s : GameServer)
    (dt : ℚ) (h : ∀ j, s.sGameObjInstListOwn j = unusedInst) :
    ∀ j, (s.UpdateGameState eng draw g_dt dt).sGameObjInstListOwn j = unusedInst := by
  have hidle : ∀ j, (s.sGameObjInstListOwn j).flag &&& FLAG_ACTIVE = 0 := by
    intro j
    rw [h j]
    rfl
  intro j
  rw [UpdateGameState_of_idle eng draw g_dt s dt hidle, spawnAsteroid_own,
    CheckForCollisions_own, applyInputs_own]
  exact h j

theorem collide_then_spawn_forall (P : PlayerData → Prop) (hP : RecordInvariant P)
    (hs : ∀ pd, P pd → P { pd with score := (pd.score + 100) % 2 ^ 32 })
    (eng : Engine) (draw : SpawnDraw) (g_dt : ℚ) (t : GameServer)
    (h : ∀ e ∈ t.players, P e.2) :
    ∀ e ∈ ((t.CheckForCollisions eng.sqrtf g_dt).1.spawnAsteroid eng draw).players, P e.2 := by
  rw [spawnAsteroid_players]
  simp only [GameServer.CheckForCollisions]
  exact shipPass_keeps P hP g_dt _ _ _ (bulletPass_players_forall P eng.sqrtf g_dt hs _ h)

/-- One tick keeps a property of player records that the record updates keep
and that does not depend on the score. -/
theorem UpdateGameState_players_forall (P : PlayerData → Prop) (hP : RecordInvariant P)
    (hs : ∀ pd, P pd → P { pd with score := (pd.score + 100) % 2 ^ 32 })
    (eng : Engine) (draw : SpawnDraw) (g_dt : ℚ) (s : GameServer) (dt : ℚ)
    (h : ∀ e ∈ s.players, P e.2) :
    ∀ e ∈ (s.UpdateGameState eng draw g_dt dt).players, P e.2 := by
  have h2 : ∀ e ∈ (GameServer.updateInstances eng dt GAME_OBJ_INST_NUM_MAX 0
      (s.applyInputs eng dt s.players)).players, P e.2 := by
    rw [updateInstances_players, applyInputs_players]
    exact h
  unfold GameServer.UpdateGameState
  exact collide_then_spawn_forall P hP hs eng draw g_dt _ h2

theorem CheckGameEndConditions_closed (I : GameServer → Prop) (hframe : GameServer.gameOnly I)
    (s : GameServer) (h : I s) : I s.CheckGameEndConditions.1 := by
  unfold GameServer.CheckGameEndConditions
  dsimp only
  split_ifs
  · exact hframe s _ rfl rfl rfl rfl rfl h
  · exact h

/-- Last block of `Update` (lines 232 to 243) started in a state `t` that
satisfies `I`. -/
theorem Update_tail_closed (I : GameServer → Prop) (hframe : GameServer.gameOnly I)
    (eng : Engine) (hreset : ∀ draws s s', I s → GameServer.ResetGame eng draws s = some s' → I s')
    (restart : InitDraws) (dt : ℚ)
    (t s' : GameServer) (events0 events : List NetEvent) (h : I t)
    (hu : (if !t.gameInProgress ∧ t.gameEndTimer > 0 then
            if t.gameEndTimer - dt ≤ 0 then
              if t.server.GetClientCount > 0 then
                match GameServer.ResetGame eng restart
                    { t with gameEndTimer := t.gameEndTimer - dt } with
                | none => none
                | some t2 => some ({ t2 with gameInProgress := true }, events0)
              else some ({ t with gameEndTimer := t.gameEndTimer - dt }, events0)
            else some ({ t with gameEndTimer := t.gameEndTimer - dt }, events0)
          else some (t, events0)) = some (s', events)) :
    I s' := by
  by_cases h1 : (!t.gameInProgress) = true ∧ t.gameEndTimer > 0
  · rw [if_pos h1] at hu
    by_cases h2 : t.gameEndTimer - dt ≤ 0
    · rw [if_pos h2] at hu
      by_cases h3 : t.server.GetClientCount > 0
      · rw [if_pos h3] at hu
        cases hr : GameServer.ResetGame eng restart
            { t with gameEndTimer := t.gameEndTimer - dt } with
        | none => rw [hr] at hu; cases hu
        | some t2 =>
          rw [hr] at hu
          simp only [Option.some.injEq, Prod.mk.injEq] at hu
          obtain ⟨hu1, _⟩ := hu
          subst hu1
          exact hframe t2 _ rfl rfl rfl rfl rfl
            (hreset restart { t with gameEndTimer := t.gameEndTimer - dt } t2
              (hframe t _ rfl rfl rfl rfl rfl h) hr)
      · rw [if_neg h3] at hu
        simp only [Option.some.injEq, Prod.mk.injEq] at hu
        obtain ⟨hu1, _⟩ := hu
        subst hu1
        exact hframe t _ rfl rfl rfl rfl rfl h
    · rw [if_neg h2] at hu
      simp only [Option.some.injEq, Prod.mk.injEq] at hu
      obtain ⟨hu1, _⟩ := hu
      subst hu1
      exact hframe t _ rfl rfl rfl rfl rfl h
  · rw [if_neg h1] at hu
    simp only [Option.some.injEq, Prod.mk.injEq] at hu
    obtain ⟨hu1, _⟩ := hu
    subst hu1
    exact h

theorem Update_match_closed (I : GameServer → Prop) (hframe : GameServer.gameOnly I)
    (eng : Engine) (hreset : ∀ draws s s', I s → GameServer.ResetGame eng draws s = some s' → I s')
    (restart : InitDraws) (dt : ℚ)
    (s' : GameServer) (events : List NetEvent) (first : Option (GameServer × List NetEvent))
    (hu : (match first with
      | none => none
      | some (t, events) =>
        if !t.gameInProgress ∧ t.gameEndTimer > 0 then
          let t1 := { t with gameEndTimer := t.gameEndTimer - dt }
          if t1.gameEndTimer ≤ 0 then
            if t1.server.GetClientCount > 0 then
              match t1.ResetGame eng restart with
              | none => none
              | some t2 => some ({ t2 with gameInProgress := true }, events)
            else some (t1, events)
          else some (t1, events)
        else some (t, events)) = some (s', events))
    (hfirst : ∀ t ev, first = some (t, ev) → I t) :
    I s' := by
  cases first with
  | none => cases hu
  | some p =>
    obtain ⟨t, ev⟩ := p
    exact Update_tail_closed I hframe eng hreset restart dt t s' ev events (hfirst t ev rfl) hu

theorem Update_playing_closed (I : GameServer → Prop) (hframe : GameServer.gameOnly I) (dt : ℚ)
    (u t : GameServer) (ev : List NetEvent) (h : I u)
    (hX : (let s1 := u
      let s2 := { s1 with gameStateTimer := s1.gameStateTimer + dt }
      let sent := if s2.gameStateTimer ≥ GAME_STATE_UPDATE_INTERVAL then s2.SendGameState else []
      let s3 :=
        if s2.gameStateTimer ≥ GAME_STATE_UPDATE_INTERVAL then { s2 with gameStateTimer := 0 }
        else s2
      let r := s3.CheckGameEndConditions
      some (r.1, sent ++ r.2)) = some (t, ev)) :
    I t := by
  dsimp only at hX
  simp only [Option.some.injEq, Prod.mk.injEq] at hX
  obtain ⟨hX1, _⟩ := hX
  subst hX1
  by_cases htimer : u.gameStateTimer + dt ≥ GAME_STATE_UPDATE_INTERVAL
  · rw [if_pos htimer]
    exact CheckGameEndConditions_closed I hframe _ (hframe u _ rfl rfl rfl rfl rfl h)
  · rw [if_neg htimer]
    exact CheckGameEndConditions_closed I hframe _ (hframe u _ rfl rfl rfl rfl rfl h)

theorem Update_first_closed (I : GameServer → Prop) (hframe : GameServer.gameOnly I)
    (eng : Engine) (hreset : ∀ draws s s', I s → GameServer.ResetGame eng draws s = some s' → I s')
    (draws : UpdateDraws) (g_dt dt : ℚ)
    (s : GameServer) (h : I s)
    (htick : I (s.UpdateGameState eng draws.spawn g_dt dt))
    (t : GameServer) (ev : List NetEvent)
    (hX : (if s.gameInProgress then
        let s1 := s.UpdateGameState eng draws.spawn g_dt dt
        let s2 := { s1 with gameStateTimer := s1.gameStateTimer + dt }
        let sent := if s2.gameStateTimer ≥ GAME_STATE_UPDATE_INTERVAL then s2.SendGameState else []
        let s3 :=
          if s2.gameStateTimer ≥ GAME_STATE_UPDATE_INTERVAL then { s2 with gameStateTimer := 0 }
          else s2
        let r := s3.CheckGameEndConditions
        some (r.1, sent ++ r.2)
      else
        if s.server.GetClientCount > 0 then
          match s.ResetGame eng draws.start with
          | none => none
          | some s1 => some ({ s1 with gameInProgress := true }, [])
        else some (s, [])) = some (t, ev)) :
    I t := by
  by_cases hprog : s.gameInProgress = true
  · rw [if_pos hprog] at hX
    exact Update_playing_closed I hframe dt (s.UpdateGameState eng draws.spawn g_dt dt) t ev
      htick hX
  · rw [if_neg hprog] at hX
    by_cases hcount : s.server.GetClientCount > 0
    · rw [if_pos hcount] at hX
      cases hr : GameServer.ResetGame eng draws.start s with
      | none => rw [hr] at hX; cases hX
      | some s1 =>
        rw [hr] at hX
        simp only [Option.some.injEq, Prod.mk.injEq] at hX
        obtain ⟨hX1, _⟩ := hX
        subst hX1
        exact hframe s1 _ rfl rfl rfl rfl rfl (hreset draws.start s s1 h hr)
    · rw [if_neg hcount] at hX
      simp only [Option.some.injEq, Prod.mk.injEq] at hX
      obtain ⟨hX1, _⟩ := hX
      subst hX1
      exact h

/-- An `Update` call that returns keeps a property `I` of the game data when
`ResetGame` and the tick it runs keep it. -/
theorem Update_closed (I : GameServer → Prop) (hframe : GameServer.gameOnly I)
    (eng : Engine) (hreset : ∀ draws s s', I s → GameServer.ResetGame eng draws s = some s' → I s')
    (draws : UpdateDraws) (g_dt dt : ℚ)
    (s s' : GameServer) (events : List NetEvent) (h : I s)
    (htick : I (s.UpdateGameState eng draws.spawn g_dt dt))
    (hu : s.Update eng draws g_dt dt = some (s', events)) :
    I s' := by
  unfold GameServer.Update at hu
  by_cases hrun : (!s.isRunning) = true
  · rw [if_pos hrun] at hu
    simp only [Option.some.injEq, Prod.mk.injEq] at hu
    obtain ⟨hu1, _⟩ := hu
    subst hu1
    exact h
  · rw [if_neg hrun] at hu
    exact Update_match_closed I hframe eng hreset draws.restart dt s' events _ hu
      (Update_first_closed I hframe eng hreset draws g_dt dt s h htick)

theorem keeps_gameOnly (B : List Nat → Prop) (P : PlayerData → Prop) :
    GameServer.gameOnly (GameServer.keeps B P) := by
  intro s t hp _ hb _ hown h
  show B t.bullets ∧ (∀ e ∈ t.players, P e.2) ∧ ∀ j, t.sGameObjInstListOwn j = unusedInst
  rw [hp, hb, hown]
  exact h

/-- An `Update` call that returns keeps `B` and `P` when the tick it runs
does. -/
theorem Update_keeps (B : List Nat → Prop) (P : PlayerData → Prop)
    (hP : RecordInvariant P) (hB : B []) (eng : Engine) (draws : UpdateDraws) (g_dt dt : ℚ)
    (s s' : GameServer) (events : List NetEvent) (h : s.keeps B P)
    (htick : (s.UpdateGameState eng draws.spawn g_dt dt).keeps B P)
    (hu : s.Update eng draws g_dt dt = some (s', events)) :
    s'.keeps B P :=
  Update_closed (GameServer.keeps B P) (keeps_gameOnly B P) eng
    (fun dr t t' ht hr => ResetGame_keeps B P hP hB eng dr t t' ht.2.1 ht.2.2 hr)
    draws g_dt dt s s' events h htick hu

theorem playerLives_invariant : RecordInvariant playerLives where
  connect := fun _ => ⟨one_le_INITIAL_LIVES, le_refl _⟩
  ship := fun pd _ h hal _ => h hal
  reset := fun _ _ _ => ⟨one_le_INITIAL_LIVES, le_refl _⟩
  remove := fun _ _ hal => by cases hal
  lastLife := fun _ _ _ _ hal => by cases hal
  life := fun pd h hal hzero _ => by
    obtain ⟨h1, h2⟩ := h hal
    simp only [INITIAL_LIVES] at h2 ⊢
    omega

/-- In every reachable state a tracked player that is alive has between one
and `INITIAL_LIVES` lives. -/
theorem reachable_lives (eng : Engine) (s : GameServer) (h : GameServer.Reachable eng s) :
    s.keeps (fun _ => True) playerLives := by
  induction h with
  | initial =>
    refine ⟨trivial, ?_, fun _ => rfl⟩
    intro e he
    cases he
  | network s srv _ ih => exact ih
  | start s _ ih => exact ih
  | connect s s' draws clientID _ hc ih =>
    exact OnClientConnect_keeps (fun _ => True) _ playerLives_invariant trivial eng draws s s' clientID ih hc
  | disconnect s clientID _ ih =>
    exact OnClientDisconnect_keeps (fun _ => True) _ playerLives_invariant s clientID ih
  | message s clientID data _ ih =>
    exact OnMessage_keeps (fun _ => True) _ s clientID data ih (fun _ _ hpd => hpd)
  | tick s s' draws g_dt dt events _ hu ih =>
    exact Update_keeps (fun _ => True) _ playerLives_invariant trivial eng draws g_dt dt s s' events ih
      ⟨trivial, UpdateGameState_players_forall playerLives playerLives_invariant
        (fun _ hpd => hpd) eng draws.spawn g_dt s dt ih.2.1,
        UpdateGameState_own eng draws.spawn g_dt s dt ih.2.2⟩ hu
  | reset s s' draws _ hr ih =>
    exact ResetGame_keeps (fun _ => True) _ playerLives_invariant trivial eng draws s s' ih.2.1
      ih.2.2 hr

/-- C30: in every reachable state every tracked player that is alive has at
least 1 and at most `INITIAL_LIVES` (3) lives, so that the `uint8_t` decrement
`lives--` of `CheckForCollisions` yields `lives - 1` for such a player and
does not wrap. -/
theorem C30_alive_has_lives (eng : Engine) (s : GameServer)
    (h : GameServer.Reachable eng s) :
    ∀ e ∈ s.players, e.2.isAlive = true →
      1 ≤ e.2.lives ∧ e.2.lives ≤ 3 ∧ (e.2.lives + 255) % 256 + 1 = e.2.lives := by
  intro e he hal
  obtain ⟨h1, h2⟩ := (reachable_lives eng s h).2.1 e he hal
  simp only [INITIAL_LIVES] at h2
  refine ⟨h1, h2, ?_⟩
  omega

/-! ### A fire byte that is neither 0 nor 1 -/

theorem firstRelock_isSome_of_mem (held : List Mutex) (m : Mutex) (rest : List LockOp)
    (h : m ∈ held) : (firstRelock held (LockOp.lock m :: rest)).isSome = true := by
  simp only [firstRelock, h, if_true, Option.isSome_some]

/-- C18 (failing input): whatever mutexes the calling thread holds and however
many players are tracked, the lock operations of `ResetGame` contain the lock
of a mutex that the thread holds at that point: the thread waits for itself
and the call does not return.  The connect callback of the first client, run
on `listeningServer` (no game in progress, one peer in the table), makes such a
call: the first mutex locked twice is `playersMutex`, held by `ResetGame` since
line 728 and locked again by `CreatePlayerShip` at line 771. -/
theorem C18_ResetGame_waits_for_itself :
    (∀ (held : List Mutex) (nPlayers : Nat),
      (firstRelock held (ResetGame_locks nPlayers)).isSome = true) ∧
    listeningServer.gameInProgress = false ∧
    listeningServer.server.GetClientCount = 1 ∧
    firstRelock [] (OnClientConnect_locks listeningServer.gameInProgress true 1)
      = some Mutex.playersMutex := by
  refine ⟨?_, rfl, by decide, by decide⟩
  intro held nPlayers
  unfold ResetGame_locks guarded
  by_cases hp : Mutex.playersMutex ∈ held
  · exact firstRelock_isSome_of_mem held _ _ hp
  · simp only [List.cons_append, firstRelock, hp, if_false]
    by_cases hg : Mutex.gameObjectsMutex ∈ held
    · simp only [List.mem_cons, hg, or_true, if_true, Option.isSome_some]
    · have hg' : ¬ (Mutex.gameObjectsMutex = Mutex.playersMutex ∨ Mutex.gameObjectsMutex ∈ held) := by
        intro h
        rcases h with h | h
        · cases h
        · exact hg h
      simp only [List.mem_cons, hg', if_false]
      cases nPlayers with
      | zero =>
        simp [CreateInitialAsteroids_locks, guarded, firstRelock]
      | succ n =>
        simp [List.replicate_succ, CreatePlayerShip_locks, guarded, firstRelock]

theorem coe_eraseIdx (l : List Nat) :
    ∀ (i : Nat) (h : i < l.length),
      ((l.eraseIdx i : List Nat) : Multiset Nat) = (l : Multiset Nat).erase (l.get ⟨i, h⟩) := by
  induction l with
  | nil => intro i h; cases h
  | cons a rest ih =>
    intro i h
    cases i with
    | zero =>
      show ((rest : List Nat) : Multiset Nat) = (a ::ₘ (rest : Multiset Nat)).erase a
      rw [Multiset.erase_cons_head]
    | succ i =>
      have hi : i < rest.length := Nat.lt_of_succ_lt_succ h
      show a ::ₘ ((rest.eraseIdx i : List Nat) : Multiset Nat)
        = (a ::ₘ (rest : Multiset Nat)).erase (rest.get ⟨i, hi⟩)
      rw [ih i hi]
      by_cases hEq : rest.get ⟨i, hi⟩ = a
      · rw [hEq, Multiset.erase_cons_head]
        apply Multiset.cons_erase
        rw [← hEq]
        exact Multiset.mem_coe.mpr (List.get_mem rest i hi)
      · rw [Multiset.erase_cons_tail _ (fun h' => hEq h'.symm)]

theorem Tidy.step {M M' : Multiset Nat} {pool pool' : Pool} (new : Multiset Nat)
    (h : Tidy M pool) (hle : M' ≤ new + M) (hnew : new.Nodup)
    (hfree : ∀ j ∈ new, (pool j).flag = 0) (huse : ∀ i ∈ M', (pool' i).flag ≠ 0) :
    Tidy M' pool' := by
  refine ⟨Multiset.nodup_of_le hle ?_, huse⟩
  rw [Multiset.nodup_add]
  refine ⟨hnew, h.1, ?_⟩
  rw [Multiset.disjoint_left]
  intro j hj hjM
  exact h.2 j hjM (hfree j hj)

theorem Tidy.add {M M' : Multiset Nat} {pool pool' : Pool} (j : Nat)
    (h : Tidy M pool) (hj : (pool j).flag = 0) (hj' : (pool' j).flag ≠ 0)
    (hframe : ∀ i, i ≠ j → (pool' i).flag = (pool i).flag) (hle : M' ≤ j ::ₘ M) :
    Tidy M' pool' := by
  apply Tidy.step {j} h
  · rw [Multiset.singleton_add]
    exact hle
  · exact Multiset.nodup_singleton j
  · intro k hk
    rw [Multiset.mem_singleton] at hk
    rw [hk]
    exact hj
  · intro i hi
    by_cases hij : i = j
    · rw [hij]
      exact hj'
    · rw [hframe i hij]
      have hmem := Multiset.mem_of_le hle hi
      rcases Multiset.mem_cons.mp hmem with h1 | h1
      · exact absurd h1 hij
      · exact h.2 i h1

theorem Tidy.erase {M M' : Multiset Nat} {pool pool' : Pool} (d : Nat)
    (h : Tidy M pool) (hle : M' ≤ M.erase d)
    (hframe : ∀ i, i ≠ d → (pool' i).flag = (pool i).flag) :
    Tidy M' pool' := by
  apply Tidy.step 0 h
  · rw [zero_add]
    exact le_trans hle (Multiset.erase_le d M)
  · exact Multiset.nodup_zero
  · intro j hj
    cases hj
  · intro i hi
    have hmem := Multiset.mem_of_le hle hi
    have hne : i ≠ d := by
      intro hid
      rw [hid] at hmem
      exact (Multiset.Nodup.not_mem_erase h.1) hmem
    rw [hframe i hne]
    exact h.2 i (Multiset.mem_of_mem_erase hmem)

theorem Tidy.mono {M M' : Multiset Nat} {pool pool' : Pool}
    (h : Tidy M pool) (hle : M' ≤ M) (hframe : ∀ i, (pool' i).flag = (pool i).flag) :
    Tidy M' pool' := by
  apply Tidy.step 0 h
  · rw [zero_add]
    exact hle
  · exact Multiset.nodup_zero
  · intro j hj
    cases hj
  · intro i hi
    rw [hframe i]
    exact h.2 i (Multiset.mem_of_le hle hi)

theorem gameObjInstCreate_cases (pool : Pool) (type : Nat) (scale : AEVec2)
    (pPos pVel : Option AEVec2) (dir : ℚ) :
    gameObjInstCreate pool type scale pPos pVel dir = (pool, none) ∨
    ∃ (j : Nat) (pool' : Pool),
      gameObjInstCreate pool type scale pPos pVel dir = (pool', some j) ∧
      (pool j).flag = 0 ∧ (pool' j).flag = FLAG_ACTIVE ∧ ∀ i, i ≠ j → pool' i = pool i := by
  unfold gameObjInstCreate
  cases hf : findUnusedInst pool GAME_OBJ_INST_NUM_MAX 0 with
  | none => left; rfl
  | some j =>
    right
    obtain ⟨_, _, hj0, _⟩ := findUnusedInst_some pool _ _ _ hf
    refine ⟨j, _, rfl, hj0, ?_, ?_⟩
    · simp only [Function.update_same]
    · intro i hi
      simp only [Function.update_noteq hi]

theorem FLAG_ACTIVE_ne_zero : FLAG_ACTIVE ≠ 0 := by decide

theorem pointers_asteroid_added (s : GameServer) (j : Nat) :
    shipPointers s.players + ((s.asteroids ++ [j] : List Nat) : Multiset Nat)
        + (s.bullets : Multiset Nat)
      = j ::ₘ s.pointers := by
  unfold GameServer.pointers
  rw [← Multiset.coe_add, Multiset.coe_singleton, ← Multiset.singleton_add]
  ac_rfl

theorem pointers_bullet_added (s : GameServer) (j : Nat) :
    shipPointers s.players + (s.asteroids : Multiset Nat)
        + ((s.bullets ++ [j] : List Nat) : Multiset Nat)
      = j ::ₘ s.pointers := by
  unfold GameServer.pointers
  rw [← Multiset.coe_add, Multiset.coe_singleton, ← Multiset.singleton_add]
  ac_rfl

theorem CreateAsteroid_tidy (s : GameServer) (x y velX velY scale : ℚ) (h : s.tidy) :
    (s.CreateAsteroid x y velX velY scale).tidy := by
  rcases gameObjInstCreate_cases s.sGameObjInstList TYPE_ASTEROID ⟨scale, scale⟩ (some ⟨x, y⟩)
      (some ⟨velX, velY⟩) 0 with hnone | ⟨j, pool', heq, hj0, hj1, hother⟩
  · simp only [GameServer.CreateAsteroid, hnone]
    exact h
  · simp only [GameServer.CreateAsteroid, heq]
    apply Tidy.add j h hj0
    · show (pool' j).flag ≠ 0
      rw [hj1]
      exact FLAG_ACTIVE_ne_zero
    · intro i hi
      show (pool' i).flag = (s.sGameObjInstList i).flag
      rw [hother i hi]
    · exact le_of_eq (pointers_asteroid_added s j)

theorem CreateAsteroid_asteroids_grow (s : GameServer) (x y velX velY scale : ℚ) :
    ∃ new, (s.CreateAsteroid x y velX velY scale).asteroids = s.asteroids ++ new := by
  dsimp only [GameServer.CreateAsteroid]
  split
  · exact ⟨_, rfl⟩
  · exact ⟨[], (List.append_nil _).symm⟩

theorem SplitAsteroid_tidy (sqrtf : ℚ → ℚ) (s : GameServer) (asteroid : Option Nat)
    (h : s.tidy) : (s.SplitAsteroid sqrtf asteroid).tidy := by
  dsimp only [GameServer.SplitAsteroid]
  split
  · exact h
  · split_ifs <;>
      first
      | exact h
      | exact CreateAsteroid_tidy _ _ _ _ _ _ (CreateAsteroid_tidy _ _ _ _ _ _ h)

theorem SplitAsteroid_asteroids_grow (sqrtf : ℚ → ℚ) (s : GameServer)
    (asteroid : Option Nat) :
    ∃ new, (s.SplitAsteroid sqrtf asteroid).asteroids = s.asteroids ++ new := by
  dsimp only [GameServer.SplitAsteroid]
  split
  · exact ⟨[], (List.append_nil _).symm⟩
  · have hcc : ∀ x1 y1 vx1 vy1 sc1 x2 y2 vx2 vy2 sc2 : ℚ,
        ∃ new, ((s.CreateAsteroid x1 y1 vx1 vy1 sc1).CreateAsteroid x2 y2 vx2 vy2 sc2).asteroids
          = s.asteroids ++ new := by
      intro x1 y1 vx1 vy1 sc1 x2 y2 vx2 vy2 sc2
      obtain ⟨n1, h1⟩ := CreateAsteroid_asteroids_grow s x1 y1 vx1 vy1 sc1
      obtain ⟨n2, h2⟩ := CreateAsteroid_asteroids_grow (s.CreateAsteroid x1 y1 vx1 vy1 sc1)
        x2 y2 vx2 vy2 sc2
      exact ⟨n1 ++ n2, by rw [h2, h1, List.append_assoc]⟩
    split_ifs <;>
      first
      | exact ⟨[], (List.append_nil _).symm⟩
      | exact hcc _ _ _ _ _ _ _ _ _ _

theorem SplitAsteroid_bullets (sqrtf : ℚ → ℚ) (s : GameServer) (asteroid : Option Nat) :
    (s.SplitAsteroid sqrtf asteroid).bullets = s.bullets := by
  dsimp only [GameServer.SplitAsteroid]
  split
  · rfl
  · split_ifs <;> first | rfl | simp only [CreateAsteroid_bullets]

/-- Erasing position `ai` of the asteroid vector and destroying the instance
it points to keeps the pointers tidy. -/
theorem eraseAsteroid_tidy (s : GameServer) (ai : Nat) (hai : ai < s.asteroids.length)
    (h : s.tidy) :
    GameServer.tidy
      { s with
        asteroids := s.asteroids.eraseIdx ai,
        sGameObjInstList :=
          gameObjInstDestroy s.sGameObjInstList (s.asteroids.get ⟨ai, hai⟩) } := by
  apply Tidy.erase (s.asteroids.get ⟨ai, hai⟩) h
  · show shipPointers s.players + ((s.asteroids.eraseIdx ai : List Nat) : Multiset Nat)
        + (s.bullets : Multiset Nat) ≤ s.pointers.erase (s.asteroids.get ⟨ai, hai⟩)
    have hmem : s.asteroids.get ⟨ai, hai⟩ ∈ (s.asteroids : Multiset Nat) :=
      Multiset.mem_coe.mpr (List.get_mem _ _ _)
    unfold GameServer.pointers
    rw [coe_eraseIdx _ ai hai,
      Multiset.erase_add_left_pos _ (Multiset.mem_add.mpr (Or.inr hmem)),
      Multiset.erase_add_right_pos _ hmem]
  · intro i hi
    show (gameObjInstDestroy s.sGameObjInstList _ i).flag = (s.sGameObjInstList i).flag
    rw [destroy_other _ _ _ hi]

/-- Erasing position `bi` of the bullet vector and destroying the instance it
points to keeps the pointers tidy. -/
theorem eraseBullet_tidy (s : GameServer) (bi : Nat) (hbi : bi < s.bullets.length)
    (h : s.tidy) :
    GameServer.tidy
      { s with
        bullets := s.bullets.eraseIdx bi,
        sGameObjInstList :=
          gameObjInstDestroy s.sGameObjInstList (s.bullets.get ⟨bi, hbi⟩) } := by
  apply Tidy.erase (s.bullets.get ⟨bi, hbi⟩) h
  · show shipPointers s.players + (s.asteroids : Multiset Nat)
        + ((s.bullets.eraseIdx bi : List Nat) : Multiset Nat)
        ≤ s.pointers.erase (s.bullets.get ⟨bi, hbi⟩)
    have hmem : s.bullets.get ⟨bi, hbi⟩ ∈ (s.bullets : Multiset Nat) :=
      Multiset.mem_coe.mpr (List.get_mem _ _ _)
    unfold GameServer.pointers
    rw [coe_eraseIdx _ bi hbi, Multiset.erase_add_right_pos _ hmem]
  · intro i hi
    show (gameObjInstDestroy s.sGameObjInstList _ i).flag = (s.sGameObjInstList i).flag
    rw [destroy_other _ _ _ hi]

theorem awardPoints_eq_modifyPlayer (c : ClientID) (l : List (ClientID × PlayerData)) :
    awardPoints c l
      = modifyPlayer c (fun p => { p with score := (p.score + 100) % 2 ^ 32 }) l := by
  induction l with
  | nil => rfl
  | cons pair rest ih =>
    unfold awardPoints modifyPlayer
    split_ifs
    · rfl
    · rw [ih]

/-- The ship pointers after the update of one record: the pointer of the old
record is replaced by that of the new one. -/
theorem shipPointers_modifyPlayer (k : ClientID) (f : PlayerData → PlayerData) :
    ∀ (l : List (ClientID × PlayerData)) (pd : PlayerData), playersFind k l = some pd →
      ((pd.ship.toList : List Nat) : Multiset Nat) + shipPointers (modifyPlayer k f l)
        = (((f pd).ship.toList : List Nat) : Multiset Nat) + shipPointers l := by
  intro l
  induction l with
  | nil => intro pd h; cases h
  | cons pair rest ih =>
    intro pd h
    unfold playersFind at h
    unfold modifyPlayer
    by_cases hk : pair.1 = k
    · rw [if_pos hk] at h ⊢
      simp only [Option.some.injEq] at h
      subst h
      unfold shipPointers
      cases h1 : pair.2.ship with
      | none =>
        cases h2 : (f pair.2).ship with
        | none => simp [List.filterMap_cons, h1, h2]
        | some j => simp [List.filterMap_cons, h1, h2]
      | some i =>
        cases h2 : (f pair.2).ship with
        | none => simp [List.filterMap_cons, h1, h2]
        | some j =>
          simp only [List.filterMap_cons, h1, h2, Option.toList_some, ← Multiset.cons_coe,
            Multiset.coe_nil, Multiset.cons_zero, Multiset.singleton_add]
          exact Multiset.cons_swap _ _ _
    · rw [if_neg hk] at h ⊢
      have hrest := ih pd h
      unfold shipPointers at hrest ⊢
      cases h1 : pair.2.ship with
      | none =>
        simp only [List.filterMap_cons, h1]
        exact hrest
      | some i =>
        simp only [List.filterMap_cons, h1, ← Multiset.cons_coe, Multiset.add_cons, hrest]

theorem shipPointers_modifyPlayer_of_none (k : ClientID) (f : PlayerData → PlayerData)
    (l : List (ClientID × PlayerData)) (h : playersFind k l = none) :
    modifyPlayer k f l = l := by
  induction l with
  | nil => rfl
  | cons pair rest ih =>
    unfold playersFind at h
    unfold modifyPlayer
    by_cases hk : pair.1 = k
    · rw [if_pos hk] at h
      cases h
    · rw [if_neg hk] at h ⊢
      rw [ih h]

/-- An update of one record that keeps its ship pointer keeps the ship
pointers. -/
theorem shipPointers_modifyPlayer_same (k : ClientID) (f : PlayerData → PlayerData)
    (l : List (ClientID × PlayerData)) (hf : ∀ pd, (f pd).ship = pd.ship) :
    shipPointers (modifyPlayer k f l) = shipPointers l := by
  cases hfind : playersFind k l with
  | none => rw [shipPointers_modifyPlayer_of_none k f l hfind]
  | some pd =>
    have h := shipPointers_modifyPlayer k f l pd hfind
    rw [hf pd] at h
    exact add_left_cancel h


/-! ### The asteroid count after a split -/

theorem updateInstance_asteroids (eng : Engine) (dt : ℚ) (s : GameServer) (i : Nat) :
    (s.updateInstance eng dt i).asteroids = s.asteroids := by
  unfold GameServer.updateInstance
  simp only
  split_ifs <;> rfl

theorem updateInstances_asteroids (eng : Engine) (dt : ℚ) (n : Nat) :
    ∀ (i : Nat) (s : GameServer),
      (GameServer.updateInstances eng dt n i s).asteroids = s.asteroids := by
  induction n with
  | zero => intro i s; rfl
  | succ n ih =>
    intro i s
    exact (ih (i + 1) _).trans (updateInstance_asteroids eng dt s i)

theorem erase_both_tidy (s : GameServer) (bi ai bullet asteroid : Nat)
    (hb : s.bullets[bi]? = some bullet) (ha : s.asteroids[ai]? = some asteroid) (h : s.tidy) :
    GameServer.tidy
      { s with
        asteroids := s.asteroids.eraseIdx ai,
        bullets := s.bullets.eraseIdx bi,
        sGameObjInstList :=
          gameObjInstDestroy (gameObjInstDestroy s.sGameObjInstList asteroid) bullet } := by
  obtain ⟨hai, ha'⟩ := List.getElem?_eq_some_iff.mp ha
  obtain ⟨hbi, hb'⟩ := List.getElem?_eq_some_iff.mp hb
  subst ha' hb'
  exact eraseBullet_tidy
    { s with
      asteroids := s.asteroids.eraseIdx ai,
      sGameObjInstList := gameObjInstDestroy s.sGameObjInstList (s.asteroids.get ⟨ai, hai⟩) }
    bi hbi (eraseAsteroid_tidy s ai hai h)

theorem findBulletHit_spec (g_dt : ℚ) (pool : Pool) (bullet : Nat) :
    ∀ (l : List Nat) (start ai asteroid : Nat),
      findBulletHit g_dt pool bullet l start = some (ai, asteroid) →
      start ≤ ai ∧ l[ai - start]? = some asteroid ∧
      (pool bullet).isActive = true ∧ (pool asteroid).isActive = true := by
  intro l
  induction l with
  | nil =>
    intro start ai a h
    simp [findBulletHit] at h
  | cons x rest ih =>
    intro start ai a h
    unfold findBulletHit at h
    by_cases hc : ((pool bullet).isActive && (pool x).isActive &&
        (CollisionIntersection_RectRect g_dt (pool bullet).boundingBox (pool bullet).velCurr
          (pool x).boundingBox (pool x).velCurr 0).1) = true
    · rw [if_pos hc] at h
      simp only [Option.some.injEq, Prod.mk.injEq] at h
      obtain ⟨h1, h2⟩ := h
      subst h1 h2
      simp only [Bool.and_eq_true] at hc
      exact ⟨le_refl _, by simp, hc.1.1, hc.1.2⟩
    · rw [if_neg hc] at h
      obtain ⟨h1, h2, h3⟩ := ih (start + 1) ai a h
      refine ⟨by omega, ?_, h3⟩
      have hidx : ai - start = (ai - (start + 1)) + 1 := by omega
      rw [hidx, List.getElem?_cons_succ]
      exact h2

theorem awardPoints_shipPointers (c : ClientID) (l : List (ClientID × PlayerData)) :
    shipPointers (awardPoints c l) = shipPointers l := by
  rw [awardPoints_eq_modifyPlayer]
  exact shipPointers_modifyPlayer_same _ _ _ (fun _ => rfl)

/-- The handling of one hit keeps the pointers tidy: the fragments take unused
slots, and the asteroid and the bullet are erased from their vectors when
their instances are destroyed. -/
theorem resolveBulletHit_tidy (sqrtf : ℚ → ℚ) (s : GameServer) (bi bullet ai asteroid : Nat)
    (hb : s.bullets[bi]? = some bullet) (ha : s.asteroids[ai]? = some asteroid) (h : s.tidy) :
    (s.resolveBulletHit sqrtf bi bullet ai asteroid).1.tidy := by
  have h1 : GameServer.tidy
      { s with players := awardPoints (s.sGameObjInstList bullet).clientID s.players } := by
    apply Tidy.mono h
    · show shipPointers (awardPoints _ s.players) + (s.asteroids : Multiset Nat)
        + (s.bullets : Multiset Nat) ≤ s.pointers
      rw [awardPoints_shipPointers]
      exact le_refl _
    · intro i
      rfl
  have key : ∀ s2 : GameServer, s2.tidy → s2.bullets = s.bullets →
      (∃ new, s2.asteroids = s.asteroids ++ new) →
      GameServer.tidy
        { s2 with
          asteroids := s2.asteroids.eraseIdx ai,
          bullets := s2.bullets.eraseIdx bi,
          sGameObjInstList :=
            gameObjInstDestroy (gameObjInstDestroy s2.sGameObjInstList asteroid) bullet } := by
    intro s2 ht hbul hnew
    obtain ⟨new, hast⟩ := hnew
    apply erase_both_tidy s2 bi ai bullet asteroid _ _ ht
    · rw [hbul]
      exact hb
    · rw [hast, List.getElem?_append_left (List.getElem?_eq_some_iff.mp ha).1]
      exact ha
  simp only [GameServer.resolveBulletHit]
  split_ifs
  · exact key _ (SplitAsteroid_tidy sqrtf _ _ h1) (SplitAsteroid_bullets sqrtf _ _)
      (SplitAsteroid_asteroids_grow sqrtf _ _)
  · exact key _ h1 rfl ⟨[], (List.append_nil _).symm⟩

theorem bulletPass_tidy (sqrtf : ℚ → ℚ) (g_dt : ℚ) (s : GameServer) (h : s.tidy) :
    (s.bulletPass sqrtf g_dt 0).1.tidy := by
  apply bulletPass_induction sqrtf g_dt GameServer.tidy _ _ s 0 (le_refl _) h
  intro t bi ai asteroid hlt ht hhit
  obtain ⟨_, ha, _⟩ := findBulletHit_spec g_dt _ _ _ 0 ai asteroid hhit
  rw [Nat.sub_zero] at ha
  exact resolveBulletHit_tidy sqrtf t bi _ ai asteroid (List.getElem?_eq_getElem hlt) ha ht

theorem shipPointers_cons (e : ClientID × PlayerData) (l : List (ClientID × PlayerData)) :
    shipPointers (e :: l) = ((e.2.ship.toList : List Nat) : Multiset Nat) + shipPointers l := by
  unfold shipPointers
  cases h : e.2.ship with
  | none => simp [List.filterMap_cons, h]
  | some i => simp [List.filterMap_cons, h]

theorem shipAsteroidLoop_frame (g_dt : ℚ) (ship : Nat) (player : PlayerData) (pool : Pool) :
    ∀ asteroids : List Nat,
      (shipAsteroidLoop g_dt ship player pool asteroids).1.ship = player.ship ∧
      ∀ i, ((shipAsteroidLoop g_dt ship player pool asteroids).2 i).flag = (pool i).flag := by
  intro asteroids
  induction asteroids with
  | nil => exact ⟨rfl, fun _ => rfl⟩
  | cons asteroid rest ih =>
    unfold shipAsteroidLoop
    by_cases hhit : ((pool asteroid).isActive &&
        (CollisionIntersection_RectRect g_dt (pool ship).boundingBox (pool ship).velCurr
          (pool asteroid).boundingBox (pool asteroid).velCurr 0).1) = true
    · rw [if_pos hhit]
      dsimp only
      by_cases hzero : (player.lives + 255) % 256 ≤ 0
      · rw [if_pos hzero]
        exact ⟨rfl, fun _ => rfl⟩
      · rw [if_neg hzero]
        refine ⟨rfl, ?_⟩
        intro i
        by_cases hi : i = ship
        · subst hi
          simp only [Function.update_same]
        · simp only [Function.update_noteq hi]
    · rw [if_neg hhit]
      exact ih

theorem shipPass_frame (g_dt : ℚ) (asteroids : List Nat) :
    ∀ (l : List (ClientID × PlayerData)) (pool : Pool),
      shipPointers (shipPass g_dt asteroids l pool).1 = shipPointers l ∧
      ∀ i, ((shipPass g_dt asteroids l pool).2 i).flag = (pool i).flag := by
  intro l
  induction l with
  | nil => intro pool; exact ⟨rfl, fun _ => rfl⟩
  | cons pair rest ih =>
    intro pool
    have hr : (match pair.2.ship with
        | some ship =>
          if (pool ship).isActive && pair.2.isAlive then
            shipAsteroidLoop g_dt ship pair.2 pool asteroids
          else (pair.2, pool)
        | none => (pair.2, pool)).1.ship = pair.2.ship ∧
        ∀ i, ((match pair.2.ship with
          | some ship =>
            if (pool ship).isActive && pair.2.isAlive then
              shipAsteroidLoop g_dt ship pair.2 pool asteroids
            else (pair.2, pool)
          | none => (pair.2, pool)).2 i).flag = (pool i).flag := by
      split
      · split_ifs
        · exact shipAsteroidLoop_frame g_dt _ pair.2 pool asteroids
        · exact ⟨rfl, fun _ => rfl⟩
      · exact ⟨rfl, fun _ => rfl⟩
    simp only [shipPass]
    obtain ⟨h1, h2⟩ := ih (match pair.2.ship with
        | some ship =>
          if (pool ship).isActive && pair.2.isAlive then
            shipAsteroidLoop g_dt ship pair.2 pool asteroids
          else (pair.2, pool)
        | none => (pair.2, pool)).2
    constructor
    · rw [shipPointers_cons, shipPointers_cons, h1]
      dsimp only
      rw [hr.1]
    · intro i
      rw [h2 i, hr.2 i]

theorem CheckForCollisions_tidy (sqrtf : ℚ → ℚ) (g_dt : ℚ) (s : GameServer) (h : s.tidy) :
    (s.CheckForCollisions sqrtf g_dt).1.tidy := by
  simp only [GameServer.CheckForCollisions]
  apply Tidy.mono (bulletPass_tidy sqrtf g_dt s h)
  · show shipPointers (shipPass g_dt _ _ _).1 + _ + _ ≤ (s.bulletPass sqrtf g_dt 0).1.pointers
    rw [(shipPass_frame g_dt _ _ _).1]
    exact le_refl _
  · intro i
    exact (shipPass_frame g_dt _ _ _).2 i

theorem spawnAsteroid_tidy (eng : Engine) (draw : SpawnDraw) (s : GameServer) (h : s.tidy) :
    (s.spawnAsteroid eng draw).tidy := by
  unfold GameServer.spawnAsteroid
  split_ifs
  · exact CreateAsteroid_tidy _ _ _ _ _ _ h
  · exact h

theorem update_slot_tidy (s : GameServer) (i : Nat) (inst : GameObjInst)
    (hflag : inst.flag = (s.sGameObjInstList i).flag) (h : s.tidy) :
    GameServer.tidy { s with sGameObjInstList := Function.update s.sGameObjInstList i inst } := by
  apply Tidy.mono h (le_refl _)
  intro k
  show (Function.update s.sGameObjInstList i inst k).flag = (s.sGameObjInstList k).flag
  by_cases hk : k = i
  · subst hk
    rw [Function.update_same, hflag]
  · rw [Function.update_noteq hk]

theorem fire_block_tidy (eng : Engine) (s1 : GameServer) (clientID : ClientID) (fire : Nat)
    (scale pos vel : AEVec2) (dir : ℚ) (h : s1.tidy) :
    GameServer.tidy
      (if eng.boolTest fire then
        if eng.boolNot fire then
          match gameObjInstCreate s1.sGameObjInstList TYPE_BULLET scale (some pos) (some vel)
              dir with
          | (pool, some bullet) =>
            { s1 with
              sGameObjInstList :=
                Function.update pool bullet
                  { pool bullet with clientID := clientID, lifeTime := BULLET_LIFETIME },
              bullets := s1.bullets ++ [bullet] }
          | (pool, none) => { s1 with sGameObjInstList := pool }
        else s1
      else s1) := by
  split_ifs
  · rcases gameObjInstCreate_cases s1.sGameObjInstList TYPE_BULLET scale (some pos) (some vel)
        dir with hnone | ⟨j, pool', heq, hj0, hj1, hother⟩
    · rw [hnone]
      exact h
    · rw [heq]
      apply Tidy.add j h hj0
      · show (Function.update pool' j _ j).flag ≠ 0
        rw [Function.update_same]
        show (pool' j).flag ≠ 0
        rw [hj1]
        exact FLAG_ACTIVE_ne_zero
      · intro i hi
        show (Function.update pool' j _ i).flag = (s1.sGameObjInstList i).flag
        rw [Function.update_noteq hi, hother i hi]
      · exact le_of_eq (pointers_bullet_added s1 j)
  · exact h
  · exact h

theorem applyPlayerInput_tidy (eng : Engine) (dt : ℚ) (s : GameServer) (clientID : ClientID)
    (player : PlayerData) (h : s.tidy) :
    (s.applyPlayerInput eng dt clientID player).tidy := by
  unfold GameServer.applyPlayerInput
  split
  · exact h
  · rename_i ship _
    by_cases hact : ((s.sGameObjInstList ship).isActive && player.isAlive) = true
    · rw [if_pos hact]
      refine fire_block_tidy eng _ clientID _ _ _ _ _ (update_slot_tidy s ship _ ?_ h)
      dsimp only
      split_ifs <;> rfl
    · rw [if_neg hact]
      exact h

theorem applyInputs_tidy (eng : Engine) (dt : ℚ) (l : List (ClientID × PlayerData)) :
    ∀ s : GameServer, s.tidy → (s.applyInputs eng dt l).tidy := by
  induction l with
  | nil => intro s h; exact h
  | cons pair rest ih =>
    intro s h
    simp only [GameServer.applyInputs]
    exact ih _ (applyPlayerInput_tidy eng dt s pair.1 pair.2 h)

theorem tidy_gameOnly : GameServer.gameOnly GameServer.tidy := by
  intro s t hp ha hb hpool _ h
  show Tidy (shipPointers t.players + (t.asteroids : Multiset Nat) + (t.bullets : Multiset Nat))
    t.sGameObjInstList
  rw [hp, ha, hb, hpool]
  exact h

theorem updateInstance_game (eng : Engine) (dt : ℚ) (s : GameServer) (i : Nat) :
    (s.updateInstance eng dt i).sGameObjInstList = s.sGameObjInstList ∧
    (s.updateInstance eng dt i).bullets = s.bullets := by
  unfold GameServer.updateInstance
  simp only
  split_ifs <;> exact ⟨rfl, rfl⟩

theorem updateInstances_game (eng : Engine) (dt : ℚ) (n : Nat) :
    ∀ (i : Nat) (s : GameServer),
      (GameServer.updateInstances eng dt n i s).sGameObjInstList = s.sGameObjInstList ∧
      (GameServer.updateInstances eng dt n i s).bullets = s.bullets := by
  induction n with
  | zero => intro i s; exact ⟨rfl, rfl⟩
  | succ n ih =>
    intro i s
    simp only [GameServer.updateInstances]
    obtain ⟨h1, h2⟩ := ih (i + 1) (s.updateInstance eng dt i)
    obtain ⟨h3, h4⟩ := updateInstance_game eng dt s i
    exact ⟨h1.trans h3, h2.trans h4⟩

/-- The instance loop of the tick keeps the pointers tidy: it touches neither
the vectors nor the instances they point to. -/
theorem updateInstances_tidy (eng : Engine) (dt : ℚ) (n i : Nat) (s : GameServer)
    (h : s.tidy) : (GameServer.updateInstances eng dt n i s).tidy := by
  obtain ⟨h1, h2⟩ := updateInstances_game eng dt n i s
  show Tidy (shipPointers (GameServer.updateInstances eng dt n i s).players
      + ((GameServer.updateInstances eng dt n i s).asteroids : Multiset Nat)
      + ((GameServer.updateInstances eng dt n i s).bullets : Multiset Nat))
    (GameServer.updateInstances eng dt n i s).sGameObjInstList
  rw [updateInstances_players, updateInstances_asteroids, h1, h2]
  exact h

theorem collide_then_spawn_tidy (eng : Engine) (draw : SpawnDraw) (g_dt : ℚ) (t : GameServer)
    (h : t.tidy) : ((t.CheckForCollisions eng.sqrtf g_dt).1.spawnAsteroid eng draw).tidy :=
  spawnAsteroid_tidy eng draw _ (CheckForCollisions_tidy eng.sqrtf g_dt t h)

/-- A tick keeps the pointers tidy. -/
theorem UpdateGameState_tidy (eng : Engine) (draw : SpawnDraw) (g_dt : ℚ) (s : GameServer)
    (dt : ℚ) (h : s.tidy) : (s.UpdateGameState eng draw g_dt dt).tidy := by
  unfold GameServer.UpdateGameState
  exact collide_then_spawn_tidy eng draw g_dt _
    (updateInstances_tidy eng dt _ 0 _ (applyInputs_tidy eng dt s.players s h))

/-! ### The pointers through the callbacks and `ResetGame` -/

theorem gameObjInstCreate_some {pool pool' : Pool} {type : Nat} {scale : AEVec2}
    {pPos pVel : Option AEVec2} {dir : ℚ} {j : Nat}
    (h : gameObjInstCreate pool type scale pPos pVel dir = (pool', some j)) :
    (pool j).flag = 0 ∧ (pool' j).flag = FLAG_ACTIVE ∧ ∀ i, i ≠ j → pool' i = pool i := by
  rcases gameObjInstCreate_cases pool type scale pPos pVel dir with
    hnone | ⟨j', p', heq, h0, h1, h2⟩
  · rw [hnone] at h
    simp at h
  · rw [heq] at h
    simp only [Prod.mk.injEq, Option.some.injEq] at h
    obtain ⟨hp, hj⟩ := h
    subst hp hj
    exact ⟨h0, h1, h2⟩

theorem gameObjInstCreate_none {pool pool' : Pool} {type : Nat} {scale : AEVec2}
    {pPos pVel : Option AEVec2} {dir : ℚ}
    (h : gameObjInstCreate pool type scale pPos pVel dir = (pool', none)) : pool' = pool := by
  rcases gameObjInstCreate_cases pool type scale pPos pVel dir with
    hnone | ⟨j', p', heq, _, _, _⟩
  · rw [hnone] at h
    simp only [Prod.mk.injEq] at h
    exact h.1.symm
  · rw [heq] at h
    simp at h

theorem pointers_le_cons (s : GameServer) (j : Nat) (l : List (ClientID × PlayerData))
    (h : shipPointers l ≤ j ::ₘ shipPointers s.players) :
    shipPointers l + (s.asteroids : Multiset Nat) + (s.bullets : Multiset Nat)
      ≤ j ::ₘ s.pointers := by
  unfold GameServer.pointers
  rw [← Multiset.cons_add, ← Multiset.cons_add]
  exact add_le_add_right (add_le_add_right h _) _

theorem pointers_le (s : GameServer) (l : List (ClientID × PlayerData))
    (h : shipPointers l ≤ shipPointers s.players) :
    shipPointers l + (s.asteroids : Multiset Nat) + (s.bullets : Multiset Nat)
      ≤ s.pointers :=
  add_le_add_right (add_le_add_right h _) _

/-- In a tidy state a ship pointer designates a slot in use that is in neither
vector. -/
theorem tidy_ship (s : GameServer) (h : s.tidy) (i : Nat) (hi : i ∈ shipPointers s.players) :
    (s.sGameObjInstList i).flag ≠ 0 ∧ i ∉ s.asteroids ∧ i ∉ s.bullets := by
  have hnd : (shipPointers s.players + (s.asteroids : Multiset Nat)
      + (s.bullets : Multiset Nat)).Nodup := h.1
  obtain ⟨h1, _, h3⟩ := Multiset.nodup_add.mp hnd
  obtain ⟨_, _, h6⟩ := Multiset.nodup_add.mp h1
  refine ⟨h.2 i (Multiset.mem_add.mpr (Or.inl (Multiset.mem_add.mpr (Or.inl hi)))), ?_, ?_⟩
  · intro hmem
    exact Multiset.disjoint_left.mp h6 hi (Multiset.mem_coe.mpr hmem)
  · intro hmem
    exact Multiset.disjoint_left.mp h3 (Multiset.mem_add.mpr (Or.inl hi))
      (Multiset.mem_coe.mpr hmem)

theorem CreatePlayerShip_tidy (eng : Engine) (s : GameServer) (k : ClientID) (h : s.tidy) :
    (s.CreatePlayerShip eng k).tidy := by
  unfold GameServer.CreatePlayerShip
  cases hfind : playersFind k s.players with
  | none => exact h
  | some pd =>
    dsimp only
    split
    · rename_i pool ship heq
      obtain ⟨h0, h1, h2⟩ := gameObjInstCreate_some heq
      apply Tidy.add ship h h0
      · show (Function.update pool ship _ ship).flag ≠ 0
        rw [Function.update_same]
        show (pool ship).flag ≠ 0
        rw [h1]
        exact FLAG_ACTIVE_ne_zero
      · intro i hi
        show (Function.update pool ship _ i).flag = (s.sGameObjInstList i).flag
        rw [Function.update_noteq hi, h2 i hi]
      · apply pointers_le_cons s ship
        have hsw := shipPointers_modifyPlayer k
          (fun p => { p with ship := some ship, isAlive := true }) s.players pd hfind
        calc shipPointers (modifyPlayer k
                (fun p => { p with ship := some ship, isAlive := true }) s.players)
            ≤ ((pd.ship.toList : List Nat) : Multiset Nat) + shipPointers (modifyPlayer k
                (fun p => { p with ship := some ship, isAlive := true }) s.players) :=
              Multiset.le_add_left _ _
          _ = ship ::ₘ shipPointers s.players := by
              rw [hsw]
              simp
    · rename_i pool heq
      rw [gameObjInstCreate_none heq]
      exact h

theorem clearShip_tidy (s : GameServer) (k : ClientID) (pd : PlayerData) (ship : Nat)
    (f : PlayerData → PlayerData) (hf : ∀ p, (f p).ship = none)
    (hfind : playersFind k s.players = some pd) (hship : pd.ship = some ship) (h : s.tidy) :
    GameServer.tidy
      { s with
        sGameObjInstList := gameObjInstDestroy s.sGameObjInstList ship,
        players := modifyPlayer k f s.players } := by
  have hsw := shipPointers_modifyPlayer k f s.players pd hfind
  rw [hf pd, hship] at hsw
  have hsp : shipPointers s.players = ship ::ₘ shipPointers (modifyPlayer k f s.players) := by
    simpa using hsw.symm
  have hmem : ship ∈ shipPointers s.players := by
    rw [hsp]
    exact Multiset.mem_cons_self _ _
  apply Tidy.erase ship h
  · show shipPointers (modifyPlayer k f s.players) + (s.asteroids : Multiset Nat)
        + (s.bullets : Multiset Nat) ≤ s.pointers.erase ship
    unfold GameServer.pointers
    rw [Multiset.erase_add_left_pos _ (Multiset.mem_add.mpr (Or.inl hmem)),
      Multiset.erase_add_left_pos _ hmem]
    have he : (shipPointers s.players).erase ship = shipPointers (modifyPlayer k f s.players) := by
      rw [hsp, Multiset.erase_cons_head]
    rw [he]
  · intro i hi
    show (gameObjInstDestroy s.sGameObjInstList ship i).flag = (s.sGameObjInstList i).flag
    rw [destroy_other _ _ _ hi]

theorem keepNone_tidy (s : GameServer) (k : ClientID) (pd : PlayerData)
    (f : PlayerData → PlayerData) (hf : ∀ p, (f p).ship = none)
    (hfind : playersFind k s.players = some pd) (hship : pd.ship = none) (h : s.tidy) :
    GameServer.tidy { s with players := modifyPlayer k f s.players } := by
  have hsw := shipPointers_modifyPlayer k f s.players pd hfind
  rw [hf pd, hship] at hsw
  have hsp : shipPointers (modifyPlayer k f s.players) = shipPointers s.players := by
    simpa using hsw
  apply Tidy.mono h
  · exact pointers_le s _ (le_of_eq hsp)
  · intro i
    rfl

theorem resetPlayer_tidy (eng : Engine) (s : GameServer) (k : ClientID) (h : s.tidy) :
    (s.resetPlayer eng k).tidy := by
  unfold GameServer.resetPlayer
  cases hfind : playersFind k s.players with
  | none => exact h
  | some pd =>
    dsimp only
    cases hs : pd.ship with
    | none =>
      exact CreatePlayerShip_tidy eng _ k
        (keepNone_tidy s k pd _ (fun _ => rfl) hfind hs h)
    | some ship =>
      exact CreatePlayerShip_tidy eng _ k
        (clearShip_tidy s k pd ship _ (fun _ => rfl) hfind hs h)

theorem resetPlayers_tidy (eng : Engine) (keys : List ClientID) :
    ∀ s : GameServer, s.tidy → (GameServer.resetPlayers eng keys s).tidy := by
  induction keys with
  | nil => intro s h; exact h
  | cons k rest ih =>
    intro s h
    simp only [GameServer.resetPlayers]
    exact ih _ (resetPlayer_tidy eng s k h)

theorem createInitialLoop_tidy (eng : Engine) (draws : InitDraws) (n : Nat) :
    ∀ (i : Nat) (disPos : List (ℚ × ℚ)) (s s' : GameServer), s.tidy →
      GameServer.createInitialLoop eng draws n i disPos s = some s' → s'.tidy := by
  induction n with
  | zero =>
    intro i disPos s s' h hr
    simp only [GameServer.createInitialLoop, Option.some.injEq] at hr
    subst hr
    exact h
  | succ n ih =>
    intro i disPos s s' h hr
    unfold GameServer.createInitialLoop at hr
    cases hd : drawSpawnPosition eng.sqrtf disPos with
    | none =>
      rw [hd] at hr
      simp at hr
    | some pl =>
      obtain ⟨pos, later⟩ := pl
      rw [hd] at hr
      exact ih _ _ _ _ (CreateAsteroid_tidy s _ _ _ _ _ h) hr

/-- Destroying every asteroid and every bullet and clearing the two vectors
keeps the pointers tidy: the ships are other instances. -/
theorem clearObjects_tidy (s : GameServer) (h : s.tidy) :
    GameServer.tidy
      { s with
        sGameObjInstList :=
          s.bullets.foldl gameObjInstDestroy
            (s.asteroids.foldl gameObjInstDestroy s.sGameObjInstList),
        asteroids := [], bullets := [] } := by
  have hle : shipPointers s.players + ((([] : List Nat)) : Multiset Nat)
      + ((([] : List Nat)) : Multiset Nat) ≤ 0 + s.pointers := by
    rw [zero_add, Multiset.coe_nil, add_zero, add_zero]
    unfold GameServer.pointers
    rw [add_assoc]
    exact Multiset.le_add_right _ _
  apply Tidy.step 0 h hle Multiset.nodup_zero
  · intro j hj
    exact absurd hj (Multiset.not_mem_zero j)
  · intro i hi
    have hi' : i ∈ shipPointers s.players := by
      have hi2 : i ∈ shipPointers s.players + ((([] : List Nat)) : Multiset Nat)
          + ((([] : List Nat)) : Multiset Nat) := hi
      rw [Multiset.coe_nil, add_zero, add_zero] at hi2
      exact hi2
    obtain ⟨hflag, hA, hB⟩ := tidy_ship s h i hi'
    show (s.bullets.foldl gameObjInstDestroy
      (s.asteroids.foldl gameObjInstDestroy s.sGameObjInstList) i).flag ≠ 0
    rw [(foldl_destroy_spec _ _).2 i hB, (foldl_destroy_spec _ _).2 i hA]
    exact hflag

theorem ResetGame_tidy (eng : Engine) (draws : InitDraws) (s s' : GameServer) (h : s.tidy)
    (hr : s.ResetGame eng draws = some s') : s'.tidy := by
  unfold GameServer.ResetGame GameServer.CreateInitialAsteroids at hr
  dsimp only at hr
  have h1 := resetPlayers_tidy eng (s.players.map Prod.fst) _ (clearObjects_tidy s h)
  cases hc : GameServer.createInitialLoop eng draws INITIAL_ASTEROID_COUNT 0 draws.disPos
      (GameServer.resetPlayers eng (s.players.map Prod.fst)
        { s with
          sGameObjInstList :=
            s.bullets.foldl gameObjInstDestroy
              (s.asteroids.foldl gameObjInstDestroy s.sGameObjInstList),
          asteroids := [], bullets := [] }) with
  | none =>
    rw [hc] at hr
    simp at hr
  | some s4 =>
    rw [hc] at hr
    simp only [Option.some.injEq] at hr
    subst hr
    exact createInitialLoop_tidy eng draws _ _ _ _ s4 h1 hc

theorem shipPointers_mapAssign_le (k : ClientID) (v : PlayerData) (hv : v.ship = none) :
    ∀ l : List (ClientID × PlayerData), shipPointers (mapAssign k v l) ≤ shipPointers l := by
  intro l
  induction l with
  | nil =>
    simp only [mapAssign]
    rw [shipPointers_cons]
    simp [hv]
  | cons pair rest ih =>
    simp only [mapAssign]
    split_ifs with h1 h2
    · rw [shipPointers_cons (k, v)]
      simp [hv]
    · rw [shipPointers_cons (k, v), shipPointers_cons pair]
      simp [hv]
    · rw [shipPointers_cons pair, shipPointers_cons pair]
      exact add_le_add_left ih _

theorem OnClientConnect_tidy (eng : Engine) (draws : InitDraws) (s s' : GameServer)
    (k : ClientID) (h : s.tidy) (hc : s.OnClientConnect eng draws k = some s') : s'.tidy := by
  have h1 : ∀ v : PlayerData, v.ship = none →
      GameServer.tidy { s with players := mapAssign k v s.players } := by
    intro v hv
    apply Tidy.mono h
    · exact pointers_le s _ (shipPointers_mapAssign_le k v hv s.players)
    · intro i
      rfl
  unfold GameServer.OnClientConnect at hc
  dsimp only at hc
  by_cases hprog : s.gameInProgress = true
  · rw [if_pos hprog] at hc
    simp only [Option.some.injEq] at hc
    subst hc
    exact CreatePlayerShip_tidy eng _ k (h1 _ rfl)
  · rw [if_neg hprog] at hc
    by_cases hone : s.server.GetClientCount = 1
    · rw [if_pos hone] at hc
      split at hc
      · simp at hc
      · rename_i s2 hr
        simp only [Option.some.injEq] at hc
        subst hc
        exact ResetGame_tidy eng draws _ s2 (h1 _ rfl) hr
    · rw [if_neg hone] at hc
      simp only [Option.some.injEq] at hc
      subst hc
      exact h1 _ rfl

theorem RemovePlayerShip_tidy (s : GameServer) (k : ClientID) (h : s.tidy) :
    (s.RemovePlayerShip k).tidy := by
  unfold GameServer.RemovePlayerShip
  cases hfind : playersFind k s.players with
  | none => exact h
  | some pd =>
    dsimp only
    cases hs : pd.ship with
    | none => exact h
    | some ship => exact clearShip_tidy s k pd ship _ (fun _ => rfl) hfind hs h

theorem shipPointers_mapErase_le (k : ClientID) (l : List (ClientID × PlayerData)) :
    shipPointers (mapErase k l) ≤ shipPointers l := by
  unfold shipPointers mapErase
  exact Multiset.coe_le.mpr (List.Sublist.subperm
    (List.Sublist.filterMap _ (List.filter_sublist _)))

theorem OnClientDisconnect_tidy (s : GameServer) (k : ClientID) (h : s.tidy) :
    (s.OnClientDisconnect k).tidy := by
  have h1 := RemovePlayerShip_tidy s k h
  have h2 : GameServer.tidy
      { s.RemovePlayerShip k with players := mapErase k (s.RemovePlayerShip k).players } := by
    apply Tidy.mono h1
    · exact pointers_le _ _ (shipPointers_mapErase_le k _)
    · intro i
      rfl
  unfold GameServer.OnClientDisconnect
  dsimp only
  split_ifs
  · exact h2
  · exact h2

theorem OnMessage_tidy (s : GameServer) (k : ClientID) (data : List Nat) (h : s.tidy) :
    (s.OnMessage k data).tidy := by
  have hp : ∀ m : PlayerInputMessage, (s.ProcessPlayerInput k m).tidy := by
    intro m
    unfold GameServer.ProcessPlayerInput
    cases hfind : playersFind k s.players with
    | none => exact h
    | some pd =>
      apply Tidy.mono h
      · exact pointers_le s _
          (le_of_eq (shipPointers_modifyPlayer_same k _ s.players (fun _ => rfl)))
      · intro i
        rfl
  unfold GameServer.OnMessage
  by_cases hlen : data.length < sizeof_NetworkMessage
  · rw [if_pos hlen]
    exact h
  · rw [if_neg hlen]
    split
    · by_cases h9 : data.length ≥ sizeof_PlayerInputMessage
      · rw [if_pos h9]
        exact hp _
      · rw [if_neg h9]
        exact h
    · exact h

/-- In every reachable state the pointers held by the server are tidy: the ship
pointers of the player map, the asteroid vector and the bullet vector hold
pairwise different slots, each of them in use. -/
theorem reachable_tidy (eng : Engine) (s : GameServer) (h : GameServer.Reachable eng s) :
    s.tidy := by
  induction h with
  | initial =>
    refine ⟨?_, ?_⟩
    · simp [GameServer.pointers, GameServer.initial, shipPointers]
    · simp [GameServer.pointers, GameServer.initial, shipPointers]
  | network s srv _ ih => exact ih
  | start s _ ih => exact ih
  | connect s s' draws clientID _ hc ih => exact OnClientConnect_tidy eng draws s s' clientID ih hc
  | disconnect s clientID _ ih => exact OnClientDisconnect_tidy s clientID ih
  | message s clientID data _ ih => exact OnMessage_tidy s clientID data ih
  | tick s s' draws g_dt dt events _ hu ih =>
    exact Update_closed GameServer.tidy tidy_gameOnly eng
      (fun draws s s' h hr => ResetGame_tidy eng draws s s' h hr) draws g_dt dt s s' events ih
      (UpdateGameState_tidy eng draws.spawn g_dt s dt ih) hu
  | reset s s' draws _ hr ih => exact ResetGame_tidy eng draws s s' ih hr

/-! ### The ship pass in a reachable state -/

/-- `CheckForCollisions` is called from `UpdateGameState` only, after the input
loop and the instance loop.  In a tick from a reachable state, the state on
which it is called has tidy pointers, and every player that is alive has
between one and `INITIAL_LIVES` lives. -/
theorem tick_enters_collisions (eng : Engine) (s0 : GameServer)
    (hreach : GameServer.Reachable eng s0) (dt : ℚ) :
    (GameServer.updateInstances eng dt GAME_OBJ_INST_NUM_MAX 0
      (s0.applyInputs eng dt s0.players)).tidy ∧
    ∀ e ∈ (GameServer.updateInstances eng dt GAME_OBJ_INST_NUM_MAX 0
      (s0.applyInputs eng dt s0.players)).players, playerLives e.2 := by
  constructor
  · exact updateInstances_tidy eng dt _ 0 _
      (applyInputs_tidy eng dt s0.players s0 (reachable_tidy eng s0 hreach))
  · rw [updateInstances_players, applyInputs_players]
    exact (reachable_lives eng s0 hreach).2.1

theorem CreateAsteroid_length (s : GameServer) (x y velX velY scale : ℚ)
    (hfree : 1 ≤ (freeSlots s.sGameObjInstList).card) :
    (s.CreateAsteroid x y velX velY scale).asteroids.length = s.asteroids.length + 1 ∧
      (freeSlots s.sGameObjInstList).card
        ≤ (freeSlots (s.CreateAsteroid x y velX velY scale).sGameObjInstList).card + 1 := by
  obtain ⟨a, _, hast, _, hcard⟩ := CreateAsteroid_inst s x y velX velY scale hfree
  refine ⟨?_, hcard⟩
  rw [hast, List.length_append]
  rfl

/-- With two unused slots in the pool, `SplitAsteroid` on an active asteroid
with `scale.x ≥ 2 * ASTEROID_MIN_SCALE_X` makes the asteroid vector longer by
two, whatever its length was: the function does not look at
`MAX_ASTEROID_COUNT`. -/
theorem SplitAsteroid_length (sqrtf : ℚ → ℚ) (s : GameServer) (a : Nat)
    (hact : (s.sGameObjInstList a).isActive = true)
    (hscale : 2 * ASTEROID_MIN_SCALE_X ≤ (s.sGameObjInstList a).scale.x)
    (hfree : 2 ≤ (freeSlots s.sGameObjInstList).card) :
    (s.SplitAsteroid sqrtf (some a)).asteroids.length = s.asteroids.length + 2 := by
  have hns : ¬ (s.sGameObjInstList a).scale.x * (3 / 5) < ASTEROID_MIN_SCALE_X := by
    simp only [ASTEROID_MIN_SCALE_X] at hscale ⊢
    linarith
  simp only [GameServer.SplitAsteroid, hact, Bool.not_true, Bool.false_eq_true, if_false, hns]
  obtain ⟨h1, hc1⟩ := CreateAsteroid_length s (s.sGameObjInstList a).posCurr.x
    (s.sGameObjInstList a).posCurr.y
    ((s.sGameObjInstList a).velCurr.x * (4 / 5) +
      (if sqrtf (-(s.sGameObjInstList a).velCurr.y * -(s.sGameObjInstList a).velCurr.y +
            (s.sGameObjInstList a).velCurr.x * (s.sGameObjInstList a).velCurr.x) > 0 then
          -(s.sGameObjInstList a).velCurr.y /
            sqrtf (-(s.sGameObjInstList a).velCurr.y * -(s.sGameObjInstList a).velCurr.y +
              (s.sGameObjInstList a).velCurr.x * (s.sGameObjInstList a).velCurr.x)
        else -(s.sGameObjInstList a).velCurr.y) * 30)
    ((s.sGameObjInstList a).velCurr.y * (4 / 5) +
      (if sqrtf (-(s.sGameObjInstList a).velCurr.y * -(s.sGameObjInstList a).velCurr.y +
            (s.sGameObjInstList a).velCurr.x * (s.sGameObjInstList a).velCurr.x) > 0 then
          (s.sGameObjInstList a).velCurr.x /
            sqrtf (-(s.sGameObjInstList a).velCurr.y * -(s.sGameObjInstList a).velCurr.y +
              (s.sGameObjInstList a).velCurr.x * (s.sGameObjInstList a).velCurr.x)
        else (s.sGameObjInstList a).velCurr.x) * 30)
    ((s.sGameObjInstList a).scale.x * (3 / 5)) (by omega)
  rw [(CreateAsteroid_length _ _ _ _ _ _ (by omega)).1, h1]

theorem resolveBulletHit_asteroids_length (sqrtf : ℚ → ℚ) (s : GameServer)
    (bi bullet ai asteroid : Nat)
    (hact : (s.sGameObjInstList asteroid).isActive = true)
    (hscale : 2 * ASTEROID_MIN_SCALE_X ≤ (s.sGameObjInstList asteroid).scale.x)
    (hfree : 2 ≤ (freeSlots s.sGameObjInstList).card) (hai : ai < s.asteroids.length) :
    (s.resolveBulletHit sqrtf bi bullet ai asteroid).1.asteroids.length
      = s.asteroids.length + 1 := by
  have hge : (s.sGameObjInstList asteroid).scale.x ≥ ASTEROID_MIN_SCALE_X * 2 := by
    rw [mul_comm]; exact hscale
  have hlen := SplitAsteroid_length sqrtf
    { s with players := awardPoints (s.sGameObjInstList bullet).clientID s.players } asteroid
    hact hscale hfree
  simp only [GameServer.resolveBulletHit, hge, if_true, List.length_eraseIdx, hlen]
  have hlt : ai < s.asteroids.length + 2 := by omega
  rw [if_pos hlt]
  rfl

theorem findBulletHit_head (g_dt : ℚ) (pool : Pool) (bullet asteroid : Nat) (rest : List Nat)
    (ai : Nat) (hb : (pool bullet).isActive = true) (ha : (pool asteroid).isActive = true)
    (hcol : (CollisionIntersection_RectRect g_dt (pool bullet).boundingBox (pool bullet).velCurr
      (pool asteroid).boundingBox (pool asteroid).velCurr 0).1 = true) :
    findBulletHit g_dt pool bullet (asteroid :: rest) ai = some (ai, asteroid) := by
  simp only [findBulletHit, hb, ha, hcol, Bool.and_self, if_true]

/-- One bullet, and the first asteroid of the vector is hit by it and large
enough to split: with two unused slots, `CheckForCollisions` leaves the
asteroid vector longer by one (two fragments appended, the parent erased). -/
theorem CheckForCollisions_length_of_hit (sqrtf : ℚ → ℚ) (g_dt : ℚ) (s : GameServer)
    (bullet asteroid : Nat) (rest : List Nat)
    (hbs : s.bullets = [bullet]) (has : s.asteroids = asteroid :: rest)
    (hb : (s.sGameObjInstList bullet).isActive = true)
    (ha : (s.sGameObjInstList asteroid).isActive = true)
    (hcol : (CollisionIntersection_RectRect g_dt (s.sGameObjInstList bullet).boundingBox
      (s.sGameObjInstList bullet).velCurr (s.sGameObjInstList asteroid).boundingBox
      (s.sGameObjInstList asteroid).velCurr 0).1 = true)
    (hscale : 2 * ASTEROID_MIN_SCALE_X ≤ (s.sGameObjInstList asteroid).scale.x)
    (hfree : 2 ≤ (freeSlots s.sGameObjInstList).card) :
    (s.CheckForCollisions sqrtf g_dt).1.asteroids.length = s.asteroids.length + 1 := by
  have hlen : (0 : Nat) < s.bullets.length := by rw [hbs]; exact Nat.one_pos
  have hget : s.bullets.get ⟨0, hlen⟩ = bullet := by
    simp only [hbs, List.get_eq_getElem, List.getElem_cons_zero]
  have hhit : findBulletHit g_dt s.sGameObjInstList (s.bullets.get ⟨0, hlen⟩) s.asteroids 0
      = some (0, asteroid) := by
    rw [hget, has]
    exact findBulletHit_head g_dt _ bullet asteroid rest 0 hb ha hcol
  have hb0 : (s.resolveBulletHit sqrtf 0 (s.bullets.get ⟨0, hlen⟩) 0 asteroid).1.bullets = [] := by
    rw [resolveBulletHit_bullets, hbs]; rfl
  have hai : 0 < s.asteroids.length := by rw [has]; exact Nat.succ_pos _
  simp only [GameServer.CheckForCollisions]
  rw [bulletPass_unfold]
  simp only [hlen, dif_pos, hhit]
  rw [bulletPass_of_no_bullets _ _ _ hb0]
  exact resolveBulletHit_asteroids_length sqrtf s 0 _ 0 asteroid ha hscale hfree hai

theorem spawnAsteroid_of_enough (eng : Engine) (draw : SpawnDraw) (s : GameServer)
    (h : INITIAL_ASTEROID_COUNT ≤ s.asteroids.length) : s.spawnAsteroid eng draw = s := by
  unfold GameServer.spawnAsteroid
  have hc : ¬ (s.asteroids.length < INITIAL_ASTEROID_COUNT ∧
      s.asteroids.length < MAX_ASTEROID_COUNT) := fun hc => absurd hc.1 (Nat.not_lt.mpr h)
  rw [if_neg hc]


/-! ### Instances of the theorems of the last part that carry hypotheses -/

/-- C22 at a concrete input: `duelServer` tracks one player, one asteroid and
one bullet; with a float encoding that yields zero bytes the buffer has 79
bytes and its header carries the three counts and the status byte 1. -/
theorem C22_witness :
    ((duelServer 7).gameStateBuffer (fun _ => (0, 0, 0, 0))).length
      = 10 + 26 * 1 + 23 * 1 + 20 * 1 ∧
    (duelServer 7).gameStatePacket.header.bytes = [5, 0, 0, 0, 1, 1, 0, 1, 0, 1] :=
  ⟨(C22_snapshot_layout (fun _ => (0, 0, 0, 0)) (duelServer 7) (by decide) (by decide)
      (by decide)).2.2.2.2.2.1,
   (C22_snapshot_layout (fun _ => (0, 0, 0, 0)) (duelServer 7) (by decide) (by decide)
      (by decide)).2.1⟩

/-- C30 at a concrete input: the only player of `lobbyServer`, client 1 after
its connect callback, is alive with `INITIAL_LIVES` lives. -/
theorem C30_witness :
    lobbyServer.players.map (fun e => (e.1, e.2.isAlive, e.2.lives))
      = [(1, true, INITIAL_LIVES)] ∧
    1 ≤ INITIAL_LIVES ∧ INITIAL_LIVES ≤ 3 ∧ (INITIAL_LIVES + 255) % 256 + 1 = INITIAL_LIVES :=
  ⟨rfl,
   C30_alive_has_lives sampleEngine lobbyServer
    (GameServer.Reachable.connect GameServer.initial lobbyServer sampleInit 1
      GameServer.Reachable.initial rfl)
    (1, { ship := none, isAlive := true, score := 0, lives := INITIAL_LIVES,
          lastInput :=
            { type := MessageType.PLAYER_INPUT, clientID := 0, sequence := 0,
              up := 0, down := 0, left := 0, right := 0, fire := 0 } })
    (List.mem_singleton.mpr rfl) rfl⟩

end Asteroids
